import Mathlib

/-! # PostgreSQL administration service (backend/app/service/database_postgresql.go)

A shallow embedding of `PostgresqlService`: every service method is a function
from a `World` (the repository tables plus the list of collaborator calls made
so far) to a result and a new `World`.  Collaborators that live outside the
two source files (the repositories, the administrative client, the encryption
utility, the file system) appear either as tables of the `World` or as fields
of `Env`, which fixes how each of them answers.  A `defer cli.Close()` is the
`cliClose` call appended on every exit that follows it.  Log lines
(`global.LOG.Infof`) have no effect on the state and are left out.
-/

namespace Postgresql

/-- Go `error` values, identified by their message or code. -/
abbrev Err := String

def ErrCmdIllegal : Err := "ErrCmdIllegal"
def ErrRecordExist : Err := "ErrRecordExist"
def ErrRecordNotFound : Err := "ErrRecordNotFound"
def ErrStructTransform : Err := "ErrStructTransform"

/-- Modelled from the spec: `model.DatabasePostgresql` (the LogicalDatabase of
the data model) is declared outside the two source files.  The fields are the
ones the service reads or writes: identifier, name, origin, owning engine
instance, format, username, password, permission, description. -/
structure DatabasePostgresql where
  ID : Nat := 0
  Name : String := ""
  From : String := ""
  PostgresqlName : String := ""
  Format : String := ""
  Username : String := ""
  Password : String := ""
  Permission : String := ""
  Description : String := ""
deriving DecidableEq, Repr

/-- Modelled from the spec: `model.Database` (the EngineInstance of the data
model), declared outside the two source files. -/
structure Database where
  ID : Nat := 0
  Name : String := ""
  Type_ : String := ""
  From : String := ""
  Version : String := ""
  Address : String := ""
  Port : Nat := 0
  Username : String := ""
  Password : String := ""
  SSL : Bool := false
  RootCert : String := ""
  ClientKey : String := ""
  ClientCert : String := ""
  SkipVerify : Bool := false
deriving DecidableEq, Repr

/-- Modelled from the spec: the base info `appInstallRepo.LoadBaseInfo`
returns for a local engine instance (container name, credentials, port);
`Port` is a Go `int64`. -/
structure RootInfo where
  ID : Nat := 0
  Name : String := ""
  ContainerName : String := ""
  UserName : String := ""
  Password : String := ""
  Port : Int := 0
deriving DecidableEq, Repr

/-- Modelled from the spec: `model.AppInstallResource`, the link between an
application installation and a logical database. -/
structure AppInstallResource where
  AppInstallId : Nat := 0
  LinkId : Nat := 0
  ResourceId : Nat := 0
deriving DecidableEq, Repr

/-- Modelled from the spec: `model.AppInstall` with the two stored secrets the
rotation rewrites, the "password" and the "user-password" parameter. -/
structure AppInstall where
  ID : Nat := 0
  Name : String := ""
  AppId : Nat := 0
  Password : String := ""
  UserPassword : String := ""
deriving DecidableEq, Repr

/-- Modelled from the spec: `model.App`. -/
structure App where
  ID : Nat := 0
  Key : String := ""
deriving DecidableEq, Repr

/-- Request of `Create` (`dto.PostgresqlDBCreate`), with the fields the
service reads. -/
structure PostgresqlDBCreate where
  Name : String := ""
  From : String := ""
  Database : String := ""
  Format : String := ""
  Username : String := ""
  Password : String := ""
deriving DecidableEq, Repr

/-- Request of `Delete` (`dto.PostgresqlDBDelete`). -/
structure PostgresqlDBDelete where
  ID : Nat := 0
  Type_ : String := ""
  Database : String := ""
  ForceDelete : Bool := false
  DeleteBackup : Bool := false
deriving DecidableEq, Repr

/-- Request of `ChangePassword` and `ChangeAccess` (`dto.ChangeDBInfo`). -/
structure ChangeDBInfo where
  ID : Nat := 0
  From : String := ""
  Type_ : String := ""
  Database : String := ""
  Value : String := ""
deriving DecidableEq, Repr

/-- Connection parameters (`client.DBInfo`). -/
structure DBInfo where
  From : String := ""
  Database : String := ""
  Address : String := ""
  Port : Nat := 0
  Username : String := ""
  Password : String := ""
  SSL : Bool := false
  RootCert : String := ""
  ClientKey : String := ""
  ClientCert : String := ""
  SkipVerify : Bool := false
  Timeout : Nat := 0
deriving DecidableEq, Repr

structure CreateInfo where
  Name : String := ""
  Format : String := ""
  Username : String := ""
  Password : String := ""
  Version : String := ""
  Timeout : Nat := 0
deriving DecidableEq, Repr

structure DeleteInfo where
  Name : String := ""
  Version : String := ""
  Username : String := ""
  Permission : String := ""
  Timeout : Nat := 0
deriving DecidableEq, Repr

structure PasswordChangeInfo where
  Name : String := ""
  Username : String := ""
  Password : String := ""
  Version : String := ""
  Timeout : Nat := 0
deriving DecidableEq, Repr

structure AccessChangeInfo where
  Name : String := ""
  Username : String := ""
  Password : String := ""
  Permission : String := ""
  Version : String := ""
  Timeout : Nat := 0
deriving DecidableEq, Repr

/-- Composable predicates of `postgresqlRepo.Get`. -/
inductive PgFilter where
  | WithByID (id : Nat)
  | WithByName (name : String)
  | WithByPostgresqlName (name : String)
  | WithByFrom (origin : String)
deriving DecidableEq, Repr

/-- Composable predicates of `databaseRepo.Get`. -/
inductive DbFilter where
  | WithByName (name : String)
  | WithByType (typ : String)
  | WithByFrom (origin : String)
deriving DecidableEq, Repr

/-- Composable predicates of `appInstallResourceRepo.GetBy`. -/
inductive ResFilter where
  | WithLinkId (id : Nat)
  | WithResourceId (id : Nat)
deriving DecidableEq, Repr

/-- Modelled from the spec: the value the client's `Status()` reports
(liveness, connection count, basic health); the zero value is the empty
status. -/
structure StatusInfo where
  Alive : Bool := false
  Connections : Nat := 0
  Health : String := ""
deriving DecidableEq, Repr

/-- Modelled from the spec: `dto.PostgresqlStatus`, the status handed to the
caller, with the fields of `StatusInfo`. -/
structure PostgresqlStatus where
  Alive : Bool := false
  Connections : Nat := 0
  Health : String := ""
deriving DecidableEq, Repr

/-- Request of the lookups by name and type (`dto.OperationWithNameAndType`). -/
structure OperationWithNameAndType where
  Name : String := ""
  Type_ : String := ""
deriving DecidableEq, Repr

/-- Request of `UpdateConfByFile` (`dto.PostgresqlConfUpdateByFile`). -/
structure PostgresqlConfUpdateByFile where
  Type_ : String := ""
  Database : String := ""
  File : String := ""
deriving DecidableEq, Repr

/-- One call of the service to a collaborator, in program order. -/
inductive Event where
  | pgGet (filters : List PgFilter)
  | pgCreate (row : DatabasePostgresql)
  | pgUpdate (id : Nat) (field value : String)
  | pgDelete (id : Nat)
  | dbGet (filters : List DbFilter)
  | loadBaseInfo (typ name : String)
  | newClient (info : DBInfo)
  | cliCreate (info : CreateInfo)
  | cliDelete (info : DeleteInfo)
  | cliChangePassword (info : PasswordChangeInfo)
  | cliChangeAccess (info : AccessChangeInfo)
  | cliClose
  | resGetBy (filters : List ResFilter)
  | installGetFirst (id : Nat)
  | appGetFirst (id : Nat)
  | updateInstallInfo (appKey appName param value : String)
  | encrypt (plain : String)
  | loadLocalDir
  | stat (dir : String)
  | removeAll (dir : String)
  | backupDeleteRecord (typ name detail : String)
  | cliStatus
  | openFile (file : String)
  | writeFile (file content : String)
  | closeFile (file : String)
  | composeRestart (file : String)
deriving DecidableEq, Repr

/-- The durable state the service works on, and the calls made so far. -/
structure World where
  postgresqls : List DatabasePostgresql := []
  nextID : Nat := 1
  databases : List Database := []
  resources : List AppInstallResource := []
  installs : List AppInstall := []
  apps : List App := []
  trace : List Event := []
deriving DecidableEq, Repr

/-! ## Joining paths -/

/-- The elements of a path, cut at its slashes. -/
def path.split : List Char → List (List Char)
  | [] => [[]]
  | c :: cs =>
    if c = '/' then [] :: path.split cs
    else
      match path.split cs with
      | [] => [[c]]
      | h :: t => (c :: h) :: t

/-- One step of Go's `path.Clean`: the elements kept so far, last one first,
and the next element.  An empty element and `.` are dropped; `..` removes the
element before it, is dropped at the root and is kept at the start of a
relative path. -/
def path.push (rooted : Bool) (stack : List (List Char)) (elem : List Char) :
    List (List Char) :=
  if elem = [] ∨ elem = ['.'] then stack
  else if elem = ['.', '.'] then
    match stack with
    | [] => if rooted then [] else [elem]
    | top :: rest => if top = ['.', '.'] then elem :: stack else rest
  else elem :: stack

/-- Go's `path.Clean`: the shortest path equivalent to `p`; no trailing slash
unless the result is the root, and `.` for the empty path. -/
def path.Clean (p : String) : String :=
  if p = "" then "."
  else
    let rooted := p.data.head? == some '/'
    let elems := ((path.split p.data).foldl (path.push rooted) []).reverse
    let body := String.mk (List.intercalate ['/'] elems)
    if rooted then "/" ++ body
    else if body = "" then "." else body

/-- Go's `path.Join(a, b)`: the elements joined by a slash, leading empty
elements ignored, and the result cleaned; empty when both are empty. -/
def path.Join (a b : String) : String :=
  if a = "" ∧ b = "" then ""
  else if a = "" then path.Clean b
  else path.Clean (a ++ "/" ++ b)

/-- How the collaborators outside the two source files answer.  A write that
answers with an error leaves its table as it was.  A read answers from its
table; the row lookup and the link query, whose error the service discards or
passes over in places, may besides fail for any other reason (`pgGetErr`,
`resGetByErr`). -/
structure Env where
  BaseDir : String := ""
  CheckIllegal : List String → Bool := fun _ => false
  LoadBaseInfo : String → String → Except Err RootInfo := fun _ _ => .error ErrRecordNotFound
  NewPostgresqlClient : DBInfo → Option Err := fun _ => none
  cliCreate : CreateInfo → Option Err := fun _ => none
  cliDelete : DeleteInfo → Option Err := fun _ => none
  cliChangePassword : PasswordChangeInfo → Option Err := fun _ => none
  cliChangeAccess : AccessChangeInfo → Option Err := fun _ => none
  pgCreateErr : DatabasePostgresql → Option Err := fun _ => none
  pgUpdateErr : Nat → String → String → Option Err := fun _ _ _ => none
  pgDeleteErr : Nat → Option Err := fun _ => none
  StringEncrypt : String → Except Err String := fun s => .ok s
  updateInstallErr : Nat → String → String → String → Option Err := fun _ _ _ _ => none
  loadLocalDir : String × Option Err := ("", none)
  osStat : String → Option Err := fun _ => none
  osRemoveAll : String → Option Err := fun _ => none
  backupDeleteRecordErr : String → String → String → Option Err := fun _ _ _ => none
  pathJoin : String → String → String := path.Join
  AppInstallDir : String := ""
  cliStatus : StatusInfo := {}
  osOpenFile : String → Option Err := fun _ => none
  composeRestart : String → Option Err := fun _ => none
  pgGetErr : List PgFilter → Option Err := fun _ => none
  resGetByErr : List ResFilter → Option Err := fun _ => none

/-- Record a collaborator call. -/
def emit (w : World) (e : Event) : World :=
  { w with trace := w.trace ++ [e] }

/-! ## Repositories -/

def PgFilter.holds : PgFilter → DatabasePostgresql → Bool
  | .WithByID id, r => r.ID == id
  | .WithByName n, r => r.Name == n
  | .WithByPostgresqlName n, r => r.PostgresqlName == n
  | .WithByFrom f, r => r.From == f

def DbFilter.holds : DbFilter → Database → Bool
  | .WithByName n, r => r.Name == n
  | .WithByType t, r => r.Type_ == t
  | .WithByFrom f, r => r.From == f

def ResFilter.holds : ResFilter → AppInstallResource → Bool
  | .WithLinkId i, r => r.LinkId == i
  | .WithResourceId i, r => r.ResourceId == i

/-- Modelled from the spec: `postgresqlRepo.Get(filters...)`, the first row
meeting every filter; the zero row and Not Found when there is none; the zero
row and the error of the lookup when the lookup itself fails. -/
def postgresqlRepo.Get (env : Env) (w : World) (fs : List PgFilter) :
    (DatabasePostgresql × Option Err) × World :=
  match env.pgGetErr fs with
  | some e => (({}, some e), emit w (.pgGet fs))
  | none =>
    match w.postgresqls.find? (fun r => fs.all (fun f => f.holds r)) with
    | some r => ((r, none), emit w (.pgGet fs))
    | none => (({}, some ErrRecordNotFound), emit w (.pgGet fs))

/-- Modelled from the spec: `postgresqlRepo.Create(ctx, &row)`, which inserts
the row under a fresh identifier. -/
def postgresqlRepo.Create (env : Env) (w : World) (row : DatabasePostgresql) :
    (DatabasePostgresql × Option Err) × World :=
  match env.pgCreateErr row with
  | some e => ((row, some e), emit w (.pgCreate row))
  | none =>
    let stored := { row with ID := w.nextID }
    ((stored, none),
      emit { w with postgresqls := w.postgresqls ++ [stored], nextID := w.nextID + 1 }
        (.pgCreate row))

/-- Write one named column of a catalog row. -/
def setField (r : DatabasePostgresql) (field value : String) : DatabasePostgresql :=
  if field = "password" then { r with Password := value }
  else if field = "permission" then { r with Permission := value }
  else if field = "description" then { r with Description := value }
  else r

/-- Modelled from the spec: `postgresqlRepo.Update(id, {field: value})`, a
single-field update of the rows with that identifier. -/
def postgresqlRepo.Update (env : Env) (w : World) (id : Nat) (field value : String) :
    Option Err × World :=
  match env.pgUpdateErr id field value with
  | some e => (some e, emit w (.pgUpdate id field value))
  | none =>
    (none, emit { w with postgresqls :=
        w.postgresqls.map (fun r => if r.ID = id then setField r field value else r) }
      (.pgUpdate id field value))

/-- Modelled from the spec: `postgresqlRepo.Delete(ctx, WithByID(id))`. -/
def postgresqlRepo.Delete (env : Env) (w : World) (id : Nat) : Option Err × World :=
  match env.pgDeleteErr id with
  | some e => (some e, emit w (.pgDelete id))
  | none =>
    (none, emit { w with postgresqls := w.postgresqls.filter (fun r => r.ID != id) }
      (.pgDelete id))

/-- Modelled from the spec: `databaseRepo.Get(filters...)`. -/
def databaseRepo.Get (w : World) (fs : List DbFilter) : (Database × Option Err) × World :=
  match w.databases.find? (fun r => fs.all (fun f => f.holds r)) with
  | some r => ((r, none), emit w (.dbGet fs))
  | none => (({}, some ErrRecordNotFound), emit w (.dbGet fs))

/-- Modelled from the spec: `appInstallRepo.LoadBaseInfo(type, name)`. -/
def appInstallRepo.LoadBaseInfo (env : Env) (w : World) (typ name : String) :
    Except Err RootInfo × World :=
  (env.LoadBaseInfo typ name, emit w (.loadBaseInfo typ name))

/-- Modelled from the spec: `appInstallResourceRepo.GetBy(filters...)`, the
links meeting every filter, in table order; no link and the error of the query
when the query itself fails. -/
def appInstallResourceRepo.GetBy (env : Env) (w : World) (fs : List ResFilter) :
    (List AppInstallResource × Option Err) × World :=
  match env.resGetByErr fs with
  | some e => (([], some e), emit w (.resGetBy fs))
  | none =>
    ((w.resources.filter (fun r => fs.all (fun f => f.holds r)), none), emit w (.resGetBy fs))

/-- Modelled from the spec: `appInstallRepo.GetFirst(WithByID(id))`. -/
def appInstallRepo.GetFirst (w : World) (id : Nat) : (AppInstall × Option Err) × World :=
  match w.installs.find? (fun a => a.ID == id) with
  | some a => ((a, none), emit w (.installGetFirst id))
  | none => (({}, some ErrRecordNotFound), emit w (.installGetFirst id))

/-- Modelled from the spec: `appRepo.GetFirst(WithByID(id))`. -/
def appRepo.GetFirst (w : World) (id : Nat) : (App × Option Err) × World :=
  match w.apps.find? (fun a => a.ID == id) with
  | some a => ((a, none), emit w (.appGetFirst id))
  | none => (({}, some ErrRecordNotFound), emit w (.appGetFirst id))

/-- The application key of an installation, through its `AppId`. -/
def keyOf (apps : List App) (a : AppInstall) : Option String :=
  (apps.find? (fun p => p.ID == a.AppId)).map (fun p => p.Key)

/-- Write one stored secret of an installation. -/
def setSecret (a : AppInstall) (param value : String) : AppInstall :=
  if param = "user-password" then { a with UserPassword := value }
  else if param = "password" then { a with Password := value }
  else a

/-- Modelled from the spec: `updateInstallInfoInDB(appKey, appName, param,
restart, value)` of the same package rewrites the stored secret `param` of the
installation `appName` of the application `appKey`, or fails and rewrites
nothing.  `i` counts the calls within one operation, so that each call may
answer on its own. -/
def updateInstallInfoInDB (env : Env) (w : World) (i : Nat)
    (appKey appName param value : String) : Option Err × World :=
  match env.updateInstallErr i appKey appName param with
  | some e => (some e, emit w (.updateInstallInfo appKey appName param value))
  | none =>
    (none, emit { w with installs := w.installs.map (fun a =>
        if a.Name = appName ∧ keyOf w.apps a = some appKey then setSecret a param value else a) }
      (.updateInstallInfo appKey appName param value))

/-! ## Backend resolution -/

/-- Go conversion `uint(x)` of an `int64`. -/
def toUint (x : Int) : Nat := (x % 2 ^ 64).toNat

/-- `LoadPostgresqlClientByFrom(database)`.  The client it returns is
identified by the connection parameters it was built from; the second
component is the version. -/
def LoadPostgresqlClientByFrom (env : Env) (w : World) (database : String) :
    Except Err (DBInfo × String) × World :=
  let dbInfo : DBInfo := { Timeout := 300 }
  let g := databaseRepo.Get w [.WithByName database]
  match g.1.2 with
  | some e => (.error e, g.2)
  | none =>
    let databaseItem := g.1.1
    let dbInfo := { dbInfo with From := databaseItem.From, Database := database }
    let filled : Except Err (DBInfo × String) × World :=
      if dbInfo.From ≠ "local" then
        (.ok ({ dbInfo with
            Address := databaseItem.Address
            Port := databaseItem.Port
            Username := databaseItem.Username
            Password := databaseItem.Password
            SSL := databaseItem.SSL
            ClientKey := databaseItem.ClientKey
            ClientCert := databaseItem.ClientCert
            RootCert := databaseItem.RootCert
            SkipVerify := databaseItem.SkipVerify }, databaseItem.Version), g.2)
      else
        let b := appInstallRepo.LoadBaseInfo env g.2 databaseItem.Type_ database
        match b.1 with
        | .error e => (.error e, b.2)
        | .ok app =>
          (.ok ({ dbInfo with
              From := "local"
              Address := app.ContainerName
              Username := app.UserName
              Password := app.Password
              Port := toUint app.Port }, ""), b.2)
    match filled.1 with
    | .error e => (.error e, filled.2)
    | .ok cv =>
      match env.NewPostgresqlClient cv.1 with
      | some e => (.error e, emit filled.2 (.newClient cv.1))
      | none => (.ok cv, emit filled.2 (.newClient cv.1))

/-! ## Create -/

/-- `copier.Copy(&createItem, &req)`: the fields of the request that the row
has under the same name. -/
def copierCopy (req : PostgresqlDBCreate) : Except Err DatabasePostgresql :=
  .ok { Name := req.Name, From := req.From, Format := req.Format,
        Username := req.Username, Password := req.Password }

/-- `PostgresqlService.Create`. -/
def Create (env : Env) (w : World) (req : PostgresqlDBCreate) :
    Except Err DatabasePostgresql × World :=
  if env.CheckIllegal [req.Name, req.Username, req.Password, req.Format] then
    (.error ErrCmdIllegal, w)
  else
    let g := postgresqlRepo.Get env w
      [.WithByName req.Name, .WithByPostgresqlName req.Database, .WithByFrom req.From]
    let pgsql := g.1.1
    if pgsql.ID ≠ 0 then (.error ErrRecordExist, g.2)
    else
      match copierCopy req with
      | .error e => (.error (ErrStructTransform ++ ": " ++ e), g.2)
      | .ok createItem =>
        if req.From = "local" ∧ req.Username = "root" then
          (.error "Cannot set root as user name", g.2)
        else
          let r := LoadPostgresqlClientByFrom env g.2 req.Database
          match r.1 with
          | .error e => (.error e, r.2)
          | .ok cv =>
            let version := cv.2
            let createItem := { createItem with PostgresqlName := req.Database }
            let info : CreateInfo :=
              { Name := req.Name, Format := req.Format, Username := req.Username,
                Password := req.Password, Version := version, Timeout := 300 }
            let out : Except Err DatabasePostgresql × World :=
              match env.cliCreate info with
              | some e => (.error e, emit r.2 (.cliCreate info))
              | none =>
                let c := postgresqlRepo.Create env (emit r.2 (.cliCreate info)) createItem
                match c.1.2 with
                | some e => (.error e, c.2)
                | none => (.ok c.1.1, c.2)
            (out.1, emit out.2 .cliClose)

/-! ## Delete -/

/-- The statement `if _, err := os.Stat(dir); err == nil { _ = os.RemoveAll(dir) }`. -/
def removeIfExists (env : Env) (w : World) (dir : String) : World :=
  let w1 := emit w (.stat dir)
  if env.osStat dir = none then emit w1 (.removeAll dir) else w1

/-- The block `if req.DeleteBackup { ... }` of `Delete`; an error in the first
component is the early `return err` of the block. -/
def Delete.deleteBackup (env : Env) (w1 : World) (req : PostgresqlDBDelete)
    (db : DatabasePostgresql) : Option Err × World :=
  let uploadDir := env.pathJoin env.BaseDir
    ("1panel/uploads/database/" ++ req.Type_ ++ "/" ++ req.Database ++ "/" ++ db.Name)
  let w2 := removeIfExists env w1 uploadDir
  let w3 := emit w2 .loadLocalDir
  let l := env.loadLocalDir
  if l.2 ≠ none ∧ req.ForceDelete = false then (l.2, w3)
  else
    let backupDir := env.pathJoin l.1
      ("database/" ++ req.Type_ ++ "/" ++ db.PostgresqlName ++ "/" ++ db.Name)
    let w4 := removeIfExists env w3 backupDir
    (none, emit w4 (.backupDeleteRecord req.Type_ req.Database db.Name))

/-- The part of `Delete` that follows the engine-side delete (from
`if req.DeleteBackup {` to the end of the function): the backup cleanup when
requested, then the removal of the catalog row, whose error is discarded. -/
def Delete.afterEngine (env : Env) (w1 : World) (req : PostgresqlDBDelete)
    (db : DatabasePostgresql) : Option Err × World :=
  let c : Option Err × World :=
    if req.DeleteBackup then Delete.deleteBackup env w1 req db else (none, w1)
  match c.1 with
  | some e => (some e, c.2)
  | none => (none, (postgresqlRepo.Delete env c.2 db.ID).2)

/-- `PostgresqlService.Delete`; `none` is Go's `nil` error. -/
def Delete (env : Env) (w : World) (req : PostgresqlDBDelete) : Option Err × World :=
  let g := postgresqlRepo.Get env w [.WithByID req.ID]
  let db := g.1.1
  if g.1.2 ≠ none ∧ req.ForceDelete = false then (g.1.2, g.2)
  else
    let r := LoadPostgresqlClientByFrom env g.2 req.Database
    match r.1 with
    | .error e => (some e, r.2)
    | .ok cv =>
      let version := cv.2
      let info : DeleteInfo :=
        { Name := db.Name, Version := version, Username := db.Username,
          Permission := "", Timeout := 300 }
      let w1 := emit r.2 (.cliDelete info)
      let out : Option Err × World :=
        if env.cliDelete info ≠ none ∧ req.ForceDelete = false then (env.cliDelete info, w1)
        else Delete.afterEngine env w1 req db
      (out.1, emit out.2 .cliClose)

/-! ## ChangePassword -/

/-- The loop of `ChangePassword` over the linked installations
(`for _, appRes := range appRess`), from the `i`-th iteration on. -/
def propagate (env : Env) (value : String) :
    Nat → List AppInstallResource → World → Option Err × World
  | _, [], w => (none, w)
  | i, appRes :: rest, w =>
    let a := appInstallRepo.GetFirst w appRes.AppInstallId
    match a.1.2 with
    | some e => (some e, a.2)
    | none =>
      let appInstall := a.1.1
      let m := appRepo.GetFirst a.2 appInstall.AppId
      match m.1.2 with
      | some e => (some e, m.2)
      | none =>
        let appModel := m.1.1
        let u := updateInstallInfoInDB env m.2 i appModel.Key appInstall.Name
          "user-password" value
        match u.1 with
        | some e => (some e, u.2)
        | none => propagate env value (i + 1) rest u.2

/-- The part of `ChangePassword` that follows a successful engine-side
change (from `if req.ID != 0 {` to the end of the function): propagation to
the linked installations, encryption and the catalog update, or the rewrite of
the root password when no catalog row is named.  The error of the link query
is discarded (`appRess, _ = ...`), so only its list is used. -/
def ChangePassword.afterEngine (env : Env) (w1 : World) (req : ChangeDBInfo)
    (postgresqlData : DatabasePostgresql) : Option Err × World :=
  if req.ID ≠ 0 then
    let q : Except Err (List AppInstallResource) × World :=
      if req.From = "local" then
        let b := appInstallRepo.LoadBaseInfo env w1 req.Type_ req.Database
        match b.1 with
        | .error e => (.error e, b.2)
        | .ok app =>
          let l := appInstallResourceRepo.GetBy env b.2
            [.WithLinkId app.ID, .WithResourceId postgresqlData.ID]
          (.ok l.1.1, l.2)
      else
        let l := appInstallResourceRepo.GetBy env w1 [.WithResourceId postgresqlData.ID]
        (.ok l.1.1, l.2)
    match q.1 with
    | .error e => (some e, q.2)
    | .ok appRess =>
      let p := propagate env req.Value 0 appRess q.2
      match p.1 with
      | some e => (some e, p.2)
      | none =>
        let w2 := emit p.2 (.encrypt req.Value)
        match env.StringEncrypt req.Value with
        | .error e => (some ("decrypt database db password failed, err: " ++ e), w2)
        | .ok pass =>
          (none, (postgresqlRepo.Update env w2 postgresqlData.ID "password" pass).2)
  else
    let u := updateInstallInfoInDB env w1 0 req.Type_ req.Database "password" req.Value
    match u.1 with
    | some e => (some e, u.2)
    | none => (none, u.2)

/-- `PostgresqlService.ChangePassword`. -/
def ChangePassword (env : Env) (w : World) (req : ChangeDBInfo) : Option Err × World :=
  if env.CheckIllegal [req.Value] then (some ErrCmdIllegal, w)
  else
    let r := LoadPostgresqlClientByFrom env w req.Database
    match r.1 with
    | .error e => (some e, r.2)
    | .ok cv =>
      let version := cv.2
      let passwordInfo : PasswordChangeInfo :=
        { Password := req.Value, Timeout := 300, Version := version }
      let pre : Except Err (PasswordChangeInfo × DatabasePostgresql) × World :=
        if req.ID ≠ 0 then
          let g := postgresqlRepo.Get env r.2 [.WithByID req.ID]
          match g.1.2 with
          | some e => (.error e, g.2)
          | none =>
            (.ok ({ passwordInfo with Name := g.1.1.Name, Username := g.1.1.Username }, g.1.1),
              g.2)
        else
          let d := databaseRepo.Get r.2 [.WithByType req.Type_, .WithByFrom req.From]
          match d.1.2 with
          | some e => (.error e, d.2)
          | none => (.ok ({ passwordInfo with Username := d.1.1.Username }, {}), d.2)
      let out : Option Err × World :=
        match pre.1 with
        | .error e => (some e, pre.2)
        | .ok pd =>
          let passwordInfo := pd.1
          let postgresqlData := pd.2
          let w1 := emit pre.2 (.cliChangePassword passwordInfo)
          match env.cliChangePassword passwordInfo with
          | some e => (some e, w1)
          | none => ChangePassword.afterEngine env w1 req postgresqlData
      (out.1, emit out.2 .cliClose)

/-! ## ChangeAccess -/

/-- `PostgresqlService.ChangeAccess`. -/
def ChangeAccess (env : Env) (w : World) (req : ChangeDBInfo) : Option Err × World :=
  if env.CheckIllegal [req.Value] then (some ErrCmdIllegal, w)
  else
    let r := LoadPostgresqlClientByFrom env w req.Database
    match r.1 with
    | .error e => (some e, r.2)
    | .ok cv =>
      let version := cv.2
      let accessInfo : AccessChangeInfo :=
        { Permission := req.Value, Timeout := 300, Version := version }
      let pre : Except Err (AccessChangeInfo × DatabasePostgresql) × World :=
        if req.ID ≠ 0 then
          let g := postgresqlRepo.Get env r.2 [.WithByID req.ID]
          match g.1.2 with
          | some e => (.error e, g.2)
          | none =>
            (.ok ({ accessInfo with Name := g.1.1.Name, Username := g.1.1.Username,
                                    Password := g.1.1.Password }, g.1.1), g.2)
        else (.ok ({ accessInfo with Username := "root" }, {}), r.2)
      let out : Option Err × World :=
        match pre.1 with
        | .error e => (some e, pre.2)
        | .ok pd =>
          let accessInfo := pd.1
          let postgresqlData := pd.2
          let w1 := emit pre.2 (.cliChangeAccess accessInfo)
          match env.cliChangeAccess accessInfo with
          | some e => (some e, w1)
          | none =>
            if postgresqlData.ID ≠ 0 then
              (none, (postgresqlRepo.Update env w1 postgresqlData.ID "permission" req.Value).2)
            else (none, w1)
      (out.1, emit out.2 .cliClose)

/-! ## UpdateConfByFile -/

/-- `PostgresqlService.UpdateConfByFile`.  The two deferred calls run in
reverse order on exit: `cli.Close()` when the client was obtained, then
`file.Close()`. -/
def UpdateConfByFile (env : Env) (w : World) (req : PostgresqlConfUpdateByFile) :
    Option Err × World :=
  let b := appInstallRepo.LoadBaseInfo env w req.Type_ req.Database
  match b.1 with
  | .error e => (some e, b.2)
  | .ok app =>
    let conf := env.AppInstallDir ++ "/" ++ req.Type_ ++ "/" ++ app.Name ++
      "/data/postgresql.conf"
    let w1 := emit b.2 (.openFile conf)
    match env.osOpenFile conf with
    | some e => (some e, w1)
    | none =>
      let w2 := emit w1 (.writeFile conf req.File)
      let r := LoadPostgresqlClientByFrom env w2 req.Database
      let out : Option Err × World :=
        match r.1 with
        | .error e => (some e, r.2)
        | .ok _ =>
          let compose := env.AppInstallDir ++ "/" ++ req.Type_ ++ "/" ++ app.Name ++
            "/docker-compose.yml"
          let w3 := emit r.2 (.composeRestart compose)
          let res : Option Err × World :=
            match env.composeRestart compose with
            | some e => (some e, w3)
            | none => (none, w3)
          (res.1, emit res.2 .cliClose)
      (out.1, emit out.2 (.closeFile conf))

/-! ## LoadStatus -/

/-- `copier.Copy(&postgresqlStatus, &status)`: the fields of the client's
status that the caller's status has under the same name. -/
def copyStatus (status : StatusInfo) : PostgresqlStatus :=
  { Alive := status.Alive, Connections := status.Connections, Health := status.Health }

/-- `PostgresqlService.LoadStatus`. -/
def LoadStatus (env : Env) (w : World) (req : OperationWithNameAndType) :
    Except Err PostgresqlStatus × World :=
  let b := appInstallRepo.LoadBaseInfo env w req.Type_ req.Name
  match b.1 with
  | .error e => (.error e, b.2)
  | .ok app =>
    let r := LoadPostgresqlClientByFrom env b.2 app.Name
    match r.1 with
    | .error e => (.error e, r.2)
    | .ok _ =>
      let w1 := emit r.2 .cliStatus
      let status := env.cliStatus
      let postgresqlStatus := copyStatus status
      (.ok postgresqlStatus, emit w1 .cliClose)

/-! ## Vocabulary of the properties -/

/-- Calls that resolve a backend: the engine-instance lookup, the base-info
lookup and the construction of the client. -/
def Event.isResolve : Event → Bool
  | .dbGet _ => true
  | .loadBaseInfo _ _ => true
  | .newClient _ => true
  | _ => false

/-- The collaborator calls made on the way from `w` to `w2`. -/
def calls (w w2 : World) : List Event := w2.trace.drop w.trace.length

/-- A legality checker for the examples: a semicolon is illegal. -/
def semicolonIllegal (args : List String) : Bool :=
  args.any (fun s => s.toList.contains ';')

/-- The engine instance of the examples: a remote server `pgA`, version 15. -/
def pgA : Database :=
  { ID := 1, Name := "pgA", Type_ := "postgresql", From := "remote", Version := "15",
    Address := "10.0.0.1", Port := 5432, Username := "postgres", Password := "s3cret" }

/-- A catalog row of the examples, living on `pgA`. -/
def appDb : DatabasePostgresql :=
  { ID := 1, Name := "app_db", From := "remote", PostgresqlName := "pgA", Format := "UTF8",
    Username := "app_user", Password := "p1", Permission := "%" }

/-- A world with the engine instance `pgA` and an empty catalog. -/
def emptyCatalog : World := { databases := [pgA] }

/-- A world with the engine instance `pgA` and the row `appDb`. -/
def oneRow : World := { databases := [pgA], postgresqls := [appDb], nextID := 2 }

/-- A create request for the name and parent of `appDb` under the other origin. -/
def otherOriginCreate : PostgresqlDBCreate :=
  { Name := "app_db", From := "local", Database := "pgA", Format := "UTF8",
    Username := "app_user", Password := "p2" }

/-- The row a successful `otherOriginCreate` stores next to `appDb`. -/
def otherOriginRow : DatabasePostgresql :=
  { ID := 2, Name := "app_db", From := "local", PostgresqlName := "pgA", Format := "UTF8",
    Username := "app_user", Password := "p2" }

/-- The engine-side create `otherOriginCreate` leads to. -/
def otherOriginInfo : CreateInfo :=
  { Name := "app_db", Format := "UTF8", Username := "app_user", Password := "p2",
    Version := "15", Timeout := 300 }

/-- A second create of `app_db` on `pgA` under the origin of `appDb`. -/
def sameOriginCreate : PostgresqlDBCreate :=
  { Name := "app_db", From := "remote", Database := "pgA", Format := "UTF8",
    Username := "app_user", Password := "p2" }

/-- An environment whose legality checker is `semicolonIllegal` and whose
other collaborators all succeed. -/
def calmEnv : Env := { CheckIllegal := semicolonIllegal }

/-- A locally supervised engine instance `pgL`. -/
def pgL : Database := { ID := 2, Name := "pgL", Type_ := "postgresql", From := "local" }

/-- An environment in which the container of `pgL` is known and every
collaborator succeeds. -/
def localEnv : Env :=
  { CheckIllegal := semicolonIllegal
    LoadBaseInfo := fun _ _ =>
      .ok { ID := 5, Name := "pgL", ContainerName := "c1", UserName := "postgres",
            Password := "rootpw", Port := 5432 } }

/-- A world with the local engine instance `pgL` and an empty catalog. -/
def localWorld : World := { databases := [pgL] }

/-- A create request on `pgL`, origin local, for the user name `root`. -/
def rootCreate : PostgresqlDBCreate :=
  { Name := "app_db", From := "local", Database := "pgL", Format := "UTF8",
    Username := "root", Password := "p1" }

/-- A create request on `pgA` for a fresh name. -/
def freshCreate : PostgresqlDBCreate :=
  { Name := "shop", From := "remote", Database := "pgA", Format := "UTF8",
    Username := "shop_user", Password := "p3" }

/-- The client and version that resolving `pgA` yields. -/
def pgAClient : DBInfo × String :=
  ({ From := "remote", Database := "pgA", Address := "10.0.0.1", Port := 5432,
     Username := "postgres", Password := "s3cret", Timeout := 300 }, "15")

/-- Commands sent to the database engine through the client. -/
def Event.isEngine : Event → Bool
  | .cliCreate _ => true
  | .cliDelete _ => true
  | .cliChangePassword _ => true
  | .cliChangeAccess _ => true
  | _ => false

/-- Calls of one iteration of the propagation loop. -/
def Event.isLinkStep : Event → Bool
  | .installGetFirst _ => true
  | .appGetFirst _ => true
  | .updateInstallInfo _ _ _ _ => true
  | _ => false

/-- From `w` to `w2` only calls other than engine commands were made. -/
def Quiet (w w2 : World) : Prop :=
  ∃ evs, w2.trace = w.trace ++ evs ∧ ∀ ev ∈ evs, ev.isEngine = false

/-- An environment whose engine answers every command with a timeout. -/
def engineDown : Env :=
  { CheckIllegal := semicolonIllegal
    cliCreate := fun _ => some "timeout"
    cliDelete := fun _ => some "timeout"
    cliChangePassword := fun _ => some "timeout"
    cliChangeAccess := fun _ => some "timeout" }

/-- The engine-side create that `freshCreate` leads to. -/
def freshInfo : CreateInfo :=
  { Name := "shop", Format := "UTF8", Username := "shop_user", Password := "p3",
    Version := "15", Timeout := 300 }

/-- A password change for the row `appDb`. -/
def rotateAppDb : ChangeDBInfo :=
  { ID := 1, From := "remote", Type_ := "postgresql", Database := "pgA", Value := "n3w" }

/-- The engine-side password change that `rotateAppDb` leads to. -/
def rotateInfo : PasswordChangeInfo :=
  { Name := "app_db", Username := "app_user", Password := "n3w", Version := "15",
    Timeout := 300 }

/-- The backup cleanup lets `Delete` go on to the catalog row. -/
def cleanupPasses (env : Env) (req : PostgresqlDBDelete) : Prop :=
  req.DeleteBackup = false ∨ req.ForceDelete = true ∨ env.loadLocalDir.2 = none

/-- A plain delete of the row `appDb`. -/
def deleteAppDb : PostgresqlDBDelete := { ID := 1, Type_ := "postgresql", Database := "pgA" }

/-- A forced delete of the row `appDb`, backups included. -/
def forcedDeleteAppDb : PostgresqlDBDelete :=
  { ID := 1, Type_ := "postgresql", Database := "pgA", ForceDelete := true,
    DeleteBackup := true }

/-- An environment in which the catalog refuses every row removal and every
row update, all else succeeding. -/
def lockedCatalog : Env :=
  { CheckIllegal := semicolonIllegal
    pgDeleteErr := fun _ => some "database is locked"
    pgUpdateErr := fun _ _ _ => some "database is locked"
    StringEncrypt := fun s => .ok ("enc:" ++ s) }

/-- An environment in which the local backup directory cannot be looked up,
all else succeeding. -/
def noLocalDir : Env :=
  { CheckIllegal := semicolonIllegal
    loadLocalDir := ("", some "load local backup dir failed") }

/-- A delete of the row `appDb` with its backups, not forced. -/
def deleteWithBackups : PostgresqlDBDelete :=
  { ID := 1, Type_ := "postgresql", Database := "pgA", DeleteBackup := true }

/-- An environment in which every removal of a directory and every deletion
of a backup record fails, all else succeeding. -/
def cleanupFails : Env :=
  { CheckIllegal := semicolonIllegal
    osRemoveAll := fun _ => some "permission denied"
    backupDeleteRecordErr := fun _ _ _ => some "database is locked" }

/-- An access change for the row `appDb`. -/
def openAppDb : ChangeDBInfo :=
  { ID := 1, From := "remote", Type_ := "postgresql", Database := "pgA",
    Value := "172.16.0.0/12" }

/-- The engine-side access change that `openAppDb` leads to. -/
def openInfo : AccessChangeInfo :=
  { Name := "app_db", Username := "app_user", Password := "p1",
    Permission := "172.16.0.0/12", Version := "15", Timeout := 300 }

/-! ## Vocabulary of the rotation of linked credentials -/

/-- The application key and installation name a link leads to, looked up the
way the loop of `ChangePassword` does. -/
def linkTarget (installs : List AppInstall) (apps : List App) (l : AppInstallResource) :
    Except Err (String × String) :=
  match installs.find? (fun a => a.ID == l.AppInstallId) with
  | none => .error ErrRecordNotFound
  | some a =>
    match apps.find? (fun p => p.ID == a.AppId) with
    | none => .error ErrRecordNotFound
    | some p => .ok (p.Key, a.Name)

/-- The error, if any, of the `i`-th rewrite, the one for the link `l`: a
failed lookup of its installation or application, or the error of the rewrite
itself. -/
def stepErr (env : Env) (installs : List AppInstall) (apps : List App) (i : Nat)
    (l : AppInstallResource) : Option Err :=
  match linkTarget installs apps l with
  | .error e => some e
  | .ok t => env.updateInstallErr i t.1 t.2 "user-password"

/-- The installation `a` is one whose user-password a rewrite for one of the
links `ls` sets. -/
def touchedBy (installs : List AppInstall) (apps : List App) (ls : List AppInstallResource)
    (a : AppInstall) : Bool :=
  ls.any (fun l =>
    match linkTarget installs apps l with
    | .ok t => a.Name == t.2 && keyOf apps a == some t.1
    | .error _ => false)

/-- The installations once the rewrites for the links `ls` are applied: the
touched ones hold `value` as user-password, the others are as before. -/
def rotated (installs : List AppInstall) (apps : List App) (value : String)
    (ls : List AppInstallResource) : List AppInstall :=
  installs.map (fun a => if touchedBy installs apps ls a then { a with UserPassword := value }
    else a)

/-- The stored user-password the link `l` refers to. -/
def credential (installs : List AppInstall) (l : AppInstallResource) : Option String :=
  (installs.find? (fun a => a.ID == l.AppInstallId)).map (fun a => a.UserPassword)

/-- The filters of the link query of `ChangePassword`. -/
def linkFilters (req : ChangeDBInfo) (app : RootInfo) (db : DatabasePostgresql) :
    List ResFilter :=
  if req.From = "local" then [.WithLinkId app.ID, .WithResourceId db.ID]
  else [.WithResourceId db.ID]

/-- The links the link query of `ChangePassword` answers, in query order: the
links of the table that meet the filters, or none when the query fails (its
error is discarded, `appRess, _ = ...`). -/
def linksOf (env : Env) (w : World) (req : ChangeDBInfo) (app : RootInfo)
    (db : DatabasePostgresql) : List AppInstallResource :=
  (appInstallResourceRepo.GetBy env w (linkFilters req app db)).1.1

/-- A world where two application installations are linked to the row `appDb`. -/
def linkedWorld : World :=
  { databases := [pgA], postgresqls := [appDb], nextID := 2
    resources := [{ AppInstallId := 7, ResourceId := 1 }, { AppInstallId := 8, ResourceId := 1 }]
    installs := [{ ID := 7, Name := "blog", AppId := 3, UserPassword := "p1" },
                 { ID := 8, Name := "git", AppId := 4, UserPassword := "p1" }]
    apps := [{ ID := 3, Key := "wordpress" }, { ID := 4, Key := "gitea" }] }

/-- An environment in which the new password cannot be encrypted, all else
succeeding. -/
def noEncryption : Env :=
  { CheckIllegal := semicolonIllegal
    StringEncrypt := fun _ => .error "encrypt key not set" }

/-- An environment in which the second rewrite of a rotation fails, all else
succeeding. -/
def secondRewriteFails : Env :=
  { CheckIllegal := semicolonIllegal
    updateInstallErr := fun i _ _ _ => if i = 1 then some "restart failed" else none
    StringEncrypt := fun s => .ok ("enc:" ++ s) }

/-- An environment in which passwords are encrypted by a visible prefix and
everything succeeds. -/
def prefixEncryption : Env :=
  { CheckIllegal := semicolonIllegal
    StringEncrypt := fun s => .ok ("enc:" ++ s) }

/-- The client and version that resolving `pgL` yields in `localEnv`. -/
def pgLClient : DBInfo × String :=
  ({ From := "local", Database := "pgL", Address := "c1", Port := 5432,
     Username := "postgres", Password := "rootpw", Timeout := 300 }, "")

/-- A status request for the engine instance `pgL`. -/
def statusOfPgL : OperationWithNameAndType := { Name := "pgL", Type_ := "postgresql" }

/-- An environment like `localEnv` whose client reports a live engine with
three connections. -/
def liveEnv : Env :=
  { CheckIllegal := semicolonIllegal
    LoadBaseInfo := fun _ _ =>
      .ok { ID := 5, Name := "pgL", ContainerName := "c1", UserName := "postgres",
            Password := "rootpw", Port := 5432 }
    cliStatus := { Alive := true, Connections := 3, Health := "ok" } }

/-- An environment like `localEnv` in which no client can be constructed. -/
def unreachableEnv : Env :=
  { CheckIllegal := semicolonIllegal
    LoadBaseInfo := fun _ _ =>
      .ok { ID := 5, Name := "pgL", ContainerName := "c1", UserName := "postgres",
            Password := "rootpw", Port := 5432 }
    NewPostgresqlClient := fun _ => some "connection refused" }

/-! ## Vocabulary of the client's life cycle -/

/-- Calls other than the construction of a client and `cli.Close()`. -/
def Event.isInner : Event → Bool
  | .newClient _ => false
  | .cliClose => false
  | _ => true

/-- How often `cli.Close()` is called in a run. -/
def closes : List Event → Nat
  | [] => 0
  | .cliClose :: rest => closes rest + 1
  | _ :: rest => closes rest

/-- Backend resolution returned a client in a run: a client was constructed
and the constructor answered without error. -/
def resolved (env : Env) : List Event → Bool
  | [] => false
  | .newClient info :: rest => (env.NewPostgresqlClient info).isNone || resolved env rest
  | _ :: rest => resolved env rest

/-- `cli.Close()` is called exactly once in a run in which backend resolution
returned a client, and never in a run in which it did not. -/
def Balanced (env : Env) (evs : List Event) : Prop :=
  closes evs = if resolved env evs then 1 else 0

/-- From `w` to `w2` no client was constructed and none was closed. -/
def Inner (w w2 : World) : Prop :=
  ∃ evs, w2.trace = w.trace ++ evs ∧ ∀ ev ∈ evs, ev.isInner = true

/-- A plain delete request for the identifier 9, which no row of `oneRow`
carries: the later of two deletes of one logical database. -/
def staleDelete : PostgresqlDBDelete := { ID := 9, Type_ := "postgresql", Database := "pgA" }

/-- The request `staleDelete`, forced and with backup removal. -/
def forcedStaleDelete : PostgresqlDBDelete :=
  { ID := 9, Type_ := "postgresql", Database := "pgA", ForceDelete := true,
    DeleteBackup := true }

/-- The engine-side delete `Delete` issues for the zero row that a failed
lookup leaves in `db`. -/
def zeroRowDelete (version : String) : DeleteInfo :=
  { Name := "", Version := version, Username := "", Permission := "", Timeout := 300 }

/-- An environment in which every lookup of a catalog row fails for a reason
other than Not Found, all else succeeding. -/
def lookupFails : Env :=
  { CheckIllegal := semicolonIllegal
    pgGetErr := fun _ => some "database is locked" }

/-- The row a create of `sameOriginCreate` stores next to `appDb` when the
collision lookup fails. -/
def duplicateRow : DatabasePostgresql :=
  { ID := 2, Name := "app_db", From := "remote", PostgresqlName := "pgA", Format := "UTF8",
    Username := "app_user", Password := "p2" }

/-- The engine-side create `sameOriginCreate` leads to. -/
def duplicateInfo : CreateInfo :=
  { Name := "app_db", Format := "UTF8", Username := "app_user", Password := "p2",
    Version := "15", Timeout := 300 }

/-- An environment in which the link query of a rotation fails, all else
succeeding. -/
def linkQueryFails : Env :=
  { CheckIllegal := semicolonIllegal
    StringEncrypt := fun s => .ok ("enc:" ++ s)
    resGetByErr := fun _ => some "database is locked" }

/-! # Properties -/

/-! ## Joining paths -/

/-- `path.Join` on the shapes of path the service builds and on the corner
cases of `path.Clean`: an empty first element is ignored, a trailing or doubled
slash goes, `.` goes, `..` takes the element before it with it, stops at the
root and stays at the start of a relative path. -/
theorem path_join_examples :
    path.Join "/opt" "1panel/uploads/database/postgresql/pgA/app_db" =
      "/opt/1panel/uploads/database/postgresql/pgA/app_db" ∧
    path.Join "" "1panel/uploads/database/postgresql/pgA/app_db" =
      "1panel/uploads/database/postgresql/pgA/app_db" ∧
    path.Join "/opt/backup" "database/postgresql//" = "/opt/backup/database/postgresql" ∧
    path.Join "" "" = "" ∧
    path.Join "a" "" = "a" ∧
    path.Join "a/" "/b" = "a/b" ∧
    path.Join "a" "./b" = "a/b" ∧
    path.Join "a" "../b" = "b" ∧
    path.Join "/" ".." = "/" ∧
    path.Join ".." "a" = "../a" ∧
    path.Join "a/b" "../../.." = ".." ∧
    path.Join "" "." = "." ∧
    path.Clean "" = "." ∧
    path.Clean "a/.." = "." ∧
    path.Clean "//a//b/" = "/a/b" :=
  ⟨rfl, rfl, rfl, rfl, rfl, rfl, rfl, rfl, rfl, rfl, rfl, rfl, rfl, rfl, rfl⟩

/-! ## Backend resolution only reads -/

theorem resolve_world (env : Env) (w : World) (d : String) :
    ∃ evs, (LoadPostgresqlClientByFrom env w d).2 = { w with trace := w.trace ++ evs } ∧
      ∀ ev ∈ evs, ev.isResolve = true := by
  unfold LoadPostgresqlClientByFrom databaseRepo.Get appInstallRepo.LoadBaseInfo
  cases hf : w.databases.find? (fun r => [DbFilter.WithByName d].all (fun f => f.holds r)) with
  | none => exact ⟨[.dbGet [.WithByName d]], by simp [emit], by simp [Event.isResolve]⟩
  | some item =>
    simp only [hf]
    by_cases hl : item.From = "local"
    · simp only [hl, ne_eq, not_true_eq_false, not_false_eq_true, ↓reduceIte]
      cases hb : env.LoadBaseInfo item.Type_ d with
      | error e =>
        exact ⟨[.dbGet [.WithByName d], .loadBaseInfo item.Type_ d], by simp [emit],
          by simp [Event.isResolve]⟩
      | ok app =>
        simp only []
        split
        · exact ⟨[.dbGet [.WithByName d], .loadBaseInfo item.Type_ d, .newClient _],
            by simp [emit]; rfl, by simp [Event.isResolve]⟩
        · exact ⟨[.dbGet [.WithByName d], .loadBaseInfo item.Type_ d, .newClient _],
            by simp [emit]; rfl, by simp [Event.isResolve]⟩
    · simp only [hl, ne_eq, not_true_eq_false, not_false_eq_true, ↓reduceIte]
      split
      · exact ⟨[.dbGet [.WithByName d], .newClient _], by simp [emit]; rfl,
          by simp [Event.isResolve]⟩
      · exact ⟨[.dbGet [.WithByName d], .newClient _], by simp [emit]; rfl,
          by simp [Event.isResolve]⟩

theorem resolve_result (env : Env) (w w2 : World) (d : String)
    (h : w.databases = w2.databases) :
    (LoadPostgresqlClientByFrom env w d).1 = (LoadPostgresqlClientByFrom env w2 d).1 := by
  unfold LoadPostgresqlClientByFrom databaseRepo.Get appInstallRepo.LoadBaseInfo
  rw [h]
  cases hf : w2.databases.find? (fun r => [DbFilter.WithByName d].all (fun f => f.holds r)) with
  | none => rfl
  | some item =>
    simp only []
    by_cases hl : item.From = "local"
    · simp only [hl, ne_eq, not_true_eq_false, not_false_eq_true, ↓reduceIte]
      cases hb : env.LoadBaseInfo item.Type_ d with
      | error e => rfl
      | ok app => simp only []; split <;> rfl
    · simp only [hl, ne_eq, not_true_eq_false, not_false_eq_true, ↓reduceIte]
      split <;> rfl

/-! ## C1: illegal input is rejected before anything else happens -/

/-- C1: when the legality checker reports an illegal character (in name,
username, password or format for `Create`, in the new value for
`ChangePassword` and `ChangeAccess`), the operation returns `ErrCmdIllegal`
and hands back the world it received: no table is touched and no collaborator
(catalog, backend resolution, engine client) is called. -/
theorem illegal_input_rejected (env : Env) (w : World) :
    (∀ req : PostgresqlDBCreate,
      env.CheckIllegal [req.Name, req.Username, req.Password, req.Format] = true →
      Create env w req = (.error ErrCmdIllegal, w) ∧ calls w (Create env w req).2 = []) ∧
    (∀ req : ChangeDBInfo, env.CheckIllegal [req.Value] = true →
      ChangePassword env w req = (some ErrCmdIllegal, w) ∧
      ChangeAccess env w req = (some ErrCmdIllegal, w) ∧
      calls w (ChangePassword env w req).2 = [] ∧ calls w (ChangeAccess env w req).2 = []) := by
  refine ⟨fun req h => ?_, fun req h => ?_⟩
  · simp [Create, h, calls]
  · simp [ChangePassword, ChangeAccess, h, calls]

/-- Witness of C1: a password and a new value carrying a semicolon. -/
theorem illegal_input_rejected_witness :
    (Create { CheckIllegal := semicolonIllegal } oneRow
        { Name := "db2", Database := "pgA", Username := "u", Password := "a;b" } =
      (.error ErrCmdIllegal, oneRow)) ∧
    (ChangePassword { CheckIllegal := semicolonIllegal } oneRow
        { ID := 1, Database := "pgA", Value := "x;drop" } = (some ErrCmdIllegal, oneRow)) :=
  ⟨((illegal_input_rejected { CheckIllegal := semicolonIllegal } oneRow).1
      { Name := "db2", Database := "pgA", Username := "u", Password := "a;b" } (by decide)).1,
   ((illegal_input_rejected { CheckIllegal := semicolonIllegal } oneRow).2
      { ID := 1, Database := "pgA", Value := "x;drop" } (by decide)).1⟩

/-! ## Catalog lookups -/

theorem find_matching_row (rows : List DatabasePostgresql) (fs : List PgFilter)
    (h : ∃ row ∈ rows, fs.all (fun f => f.holds row) = true) :
    ∃ r, rows.find? (fun r => fs.all (fun f => f.holds r)) = some r ∧ r ∈ rows := by
  cases hf : rows.find? (fun r => fs.all (fun f => f.holds r)) with
  | none =>
    obtain ⟨row, hmem, hrow⟩ := h
    have := List.find?_eq_none.mp hf row hmem
    exact absurd hrow this
  | some r => exact ⟨r, rfl, List.mem_of_find?_eq_some hf⟩

theorem pgGet_world (env : Env) (w : World) (fs : List PgFilter) :
    (postgresqlRepo.Get env w fs).2 = emit w (.pgGet fs) := by
  unfold postgresqlRepo.Get
  cases env.pgGetErr fs with
  | some e => rfl
  | none =>
    simp only []
    split <;> rfl

theorem resGetBy_world (env : Env) (w : World) (fs : List ResFilter) :
    (appInstallResourceRepo.GetBy env w fs).2 = emit w (.resGetBy fs) := by
  unfold appInstallResourceRepo.GetBy
  cases env.resGetByErr fs <;> rfl

theorem pgGet_result_trace (env : Env) (w : World) (evs : List Event) (fs : List PgFilter) :
    (postgresqlRepo.Get env { w with trace := w.trace ++ evs } fs).1 =
      (postgresqlRepo.Get env w fs).1 := by
  unfold postgresqlRepo.Get
  cases env.pgGetErr fs with
  | some e => rfl
  | none =>
    simp only []
    split <;> rfl

/-- The answer of the link query depends on the table of links only. -/
theorem resGetBy_result (env : Env) (w w2 : World) (fs : List ResFilter)
    (h : w2.resources = w.resources) :
    (appInstallResourceRepo.GetBy env w2 fs).1 = (appInstallResourceRepo.GetBy env w fs).1 := by
  unfold appInstallResourceRepo.GetBy
  cases env.resGetByErr fs with
  | some e => rfl
  | none => simp only [h]

theorem pgGet_some (env : Env) (w : World) (fs : List PgFilter) (r : DatabasePostgresql)
    (herr : env.pgGetErr fs = none)
    (h : w.postgresqls.find? (fun r => fs.all (fun f => f.holds r)) = some r) :
    postgresqlRepo.Get env w fs = ((r, none), emit w (.pgGet fs)) := by
  unfold postgresqlRepo.Get
  rw [herr, h]

theorem pgGet_none (env : Env) (w : World) (fs : List PgFilter)
    (herr : env.pgGetErr fs = none)
    (h : w.postgresqls.find? (fun r => fs.all (fun f => f.holds r)) = none) :
    postgresqlRepo.Get env w fs = (({}, some ErrRecordNotFound), emit w (.pgGet fs)) := by
  unfold postgresqlRepo.Get
  rw [herr, h]

theorem pgGet_failed (env : Env) (w : World) (fs : List PgFilter) (e : Err)
    (herr : env.pgGetErr fs = some e) :
    postgresqlRepo.Get env w fs = (({}, some e), emit w (.pgGet fs)) := by
  unfold postgresqlRepo.Get
  rw [herr]

/-- A lookup that finds no row, or fails, answers the zero row and an error. -/
theorem pgGet_absent (env : Env) (w : World) (fs : List PgFilter)
    (h : w.postgresqls.find? (fun r => fs.all (fun f => f.holds r)) = none) :
    (postgresqlRepo.Get env w fs).1.1 = {} ∧ (postgresqlRepo.Get env w fs).1.2 ≠ none := by
  unfold postgresqlRepo.Get
  rw [h]
  cases env.pgGetErr fs <;> simp

/-! ## C2: a colliding create is refused before any engine call -/

/-- C2 as stated fails, in two ways.  The catalog holds `app_db` on `pgA`
(origin remote) and the request names the same parent and the same database
under origin local: `Create` does not answer `ErrRecordExist`, it issues the
engine-side create and inserts a second row for the pair.  And when the
collision lookup itself fails, its error is discarded: a request for the very
row `app_db` (same name, parent and origin) is not refused either, the
engine-side create is issued and a duplicate row is inserted. -/
theorem create_conflict_counterexample :
    (calmEnv.CheckIllegal [otherOriginCreate.Name, otherOriginCreate.Username,
      otherOriginCreate.Password, otherOriginCreate.Format] = false ∧
    (∃ row ∈ oneRow.postgresqls,
      row.PostgresqlName = otherOriginCreate.Database ∧ row.Name = otherOriginCreate.Name) ∧
    (Create calmEnv oneRow otherOriginCreate).1 = .ok otherOriginRow ∧
    Event.cliCreate otherOriginInfo ∈ calls oneRow (Create calmEnv oneRow otherOriginCreate).2 ∧
    (Create calmEnv oneRow otherOriginCreate).2.postgresqls = [appDb, otherOriginRow]) ∧
    (lookupFails.CheckIllegal [sameOriginCreate.Name, sameOriginCreate.Username,
      sameOriginCreate.Password, sameOriginCreate.Format] = false ∧
    (∃ row ∈ oneRow.postgresqls,
      row.PostgresqlName = sameOriginCreate.Database ∧ row.Name = sameOriginCreate.Name ∧
      row.From = sameOriginCreate.From) ∧
    (Create lookupFails oneRow sameOriginCreate).1 = .ok duplicateRow ∧
    Event.cliCreate duplicateInfo ∈
      calls oneRow (Create lookupFails oneRow sameOriginCreate).2 ∧
    (Create lookupFails oneRow sameOriginCreate).2.postgresqls = [appDb, duplicateRow]) := by
  refine ⟨⟨by decide, ⟨appDb, by simp [oneRow], rfl, rfl⟩, rfl, ?_, rfl⟩,
    ⟨by decide, ⟨appDb, by simp [oneRow], rfl, rfl, rfl⟩, rfl, ?_, rfl⟩⟩
  · decide
  · decide

/-- C2, amended: when the request is free of illegal characters, the catalog
(whose rows carry non-zero identifiers) holds a row with the same database
name, the same parent engine name and the same origin, and the lookup of that
row does not itself fail, `Create` returns `ErrRecordExist`; its only
collaborator call is the catalog lookup, so no client is resolved, no engine
command is issued and no row is inserted. -/
theorem create_conflict (env : Env) (w : World) (req : PostgresqlDBCreate)
    (hlegal : env.CheckIllegal [req.Name, req.Username, req.Password, req.Format] = false)
    (hids : ∀ row ∈ w.postgresqls, row.ID ≠ 0)
    (hrow : ∃ row ∈ w.postgresqls,
      row.Name = req.Name ∧ row.PostgresqlName = req.Database ∧ row.From = req.From)
    (hlookup : env.pgGetErr [.WithByName req.Name, .WithByPostgresqlName req.Database,
      .WithByFrom req.From] = none) :
    Create env w req =
      (.error ErrRecordExist,
        emit w (.pgGet [.WithByName req.Name, .WithByPostgresqlName req.Database,
          .WithByFrom req.From])) ∧
    calls w (Create env w req).2 =
      [.pgGet [.WithByName req.Name, .WithByPostgresqlName req.Database,
        .WithByFrom req.From]] ∧
    (Create env w req).2.postgresqls = w.postgresqls := by
  obtain ⟨r, hfind, hmem⟩ := find_matching_row w.postgresqls
    [.WithByName req.Name, .WithByPostgresqlName req.Database, .WithByFrom req.From]
    (by
      obtain ⟨row, hm, h1, h2, h3⟩ := hrow
      exact ⟨row, hm, by simp [PgFilter.holds, h1, h2, h3]⟩)
  have hid := hids r hmem
  have hget := pgGet_some env w _ r hlookup hfind
  have hC : Create env w req = (.error ErrRecordExist,
      emit w (.pgGet [.WithByName req.Name, .WithByPostgresqlName req.Database,
        .WithByFrom req.From])) := by
    unfold Create
    rw [hget]
    simp [hlegal, hid]
  rw [hC]
  simp [calls, emit]

/-- Witness of C2 amended: a second create of `app_db` on `pgA`, origin remote. -/
theorem create_conflict_witness :
    Create calmEnv oneRow sameOriginCreate =
      (.error ErrRecordExist,
        emit oneRow (.pgGet [.WithByName sameOriginCreate.Name,
          .WithByPostgresqlName sameOriginCreate.Database,
          .WithByFrom sameOriginCreate.From])) :=
  (create_conflict calmEnv oneRow sameOriginCreate (by decide)
    (by simp [oneRow, appDb]) ⟨appDb, by simp [oneRow], rfl, rfl, rfl⟩ rfl).1

/-! ## C3: a successful create -/

theorem find_no_row (rows : List DatabasePostgresql) (fs : List PgFilter)
    (h : ∀ row ∈ rows, fs.all (fun f => f.holds row) = false) :
    rows.find? (fun r => fs.all (fun f => f.holds r)) = none := by
  apply List.find?_eq_none.mpr
  intro x hx
  simp [h x hx]

/-- C3 as stated fails: the request is free of illegal characters, collides
with no row, the engine instance `pgL` resolves and the engine-side create and
the catalog insert would succeed, yet `Create` refuses the user name `root` on
a local origin and stores nothing. -/
theorem create_success_counterexample :
    localEnv.CheckIllegal [rootCreate.Name, rootCreate.Username, rootCreate.Password,
      rootCreate.Format] = false ∧
    (∀ row ∈ localWorld.postgresqls,
      ¬ (row.PostgresqlName = rootCreate.Database ∧ row.Name = rootCreate.Name)) ∧
    (∃ cv, (LoadPostgresqlClientByFrom localEnv localWorld rootCreate.Database).1 = .ok cv) ∧
    (∀ info, localEnv.cliCreate info = none) ∧
    (∀ row, localEnv.pgCreateErr row = none) ∧
    (Create localEnv localWorld rootCreate).1 = .error "Cannot set root as user name" ∧
    (Create localEnv localWorld rootCreate).2.postgresqls = [] := by
  refine ⟨by decide, by simp [localWorld], ⟨_, rfl⟩, fun _ => rfl, fun _ => rfl, rfl, rfl⟩

/-- C3, amended: for a create request free of illegal characters, colliding
with no (parent, name) pair of the catalog and not asking for the user name
`root` on the origin `local`, if the engine instance resolves and the
engine-side create and the catalog insert succeed, then `Create` succeeds, the
catalog afterwards is the old one followed by the returned row, whose name,
origin, format, username and password are the request's and whose parent is
the requested engine instance, and the engine-side create was issued with the
request's name, format, username, password, the resolved version and the
timeout 300. -/
theorem create_success (env : Env) (w : World) (req : PostgresqlDBCreate)
    (cv : DBInfo × String)
    (hlegal : env.CheckIllegal [req.Name, req.Username, req.Password, req.Format] = false)
    (hfresh : ∀ row ∈ w.postgresqls,
      ¬ (row.PostgresqlName = req.Database ∧ row.Name = req.Name))
    (hroot : ¬ (req.From = "local" ∧ req.Username = "root"))
    (hres : (LoadPostgresqlClientByFrom env w req.Database).1 = .ok cv)
    (hcreate : env.cliCreate
      { Name := req.Name, Format := req.Format, Username := req.Username,
        Password := req.Password, Version := cv.2, Timeout := 300 } = none)
    (hinsert : env.pgCreateErr
      { Name := req.Name, From := req.From, PostgresqlName := req.Database,
        Format := req.Format, Username := req.Username, Password := req.Password } = none) :
    (Create env w req).1 =
      .ok { ID := w.nextID, Name := req.Name, From := req.From,
            PostgresqlName := req.Database, Format := req.Format,
            Username := req.Username, Password := req.Password } ∧
    (Create env w req).2.postgresqls = w.postgresqls ++
      [{ ID := w.nextID, Name := req.Name, From := req.From,
         PostgresqlName := req.Database, Format := req.Format,
         Username := req.Username, Password := req.Password }] ∧
    Event.cliCreate
      { Name := req.Name, Format := req.Format, Username := req.Username,
        Password := req.Password, Version := cv.2, Timeout := 300 } ∈
      calls w (Create env w req).2 := by
  have hfind := find_no_row w.postgresqls
    [.WithByName req.Name, .WithByPostgresqlName req.Database, .WithByFrom req.From]
    (by
      intro row hm
      have := hfresh row hm
      simp only [List.all_cons, List.all_nil, PgFilter.holds, Bool.and_true,
        Bool.and_eq_false_imp, beq_iff_eq, beq_eq_false_iff_ne]
      intro h1 h2
      exact absurd ⟨h2, h1⟩ this)
  have hget := (pgGet_absent env w _ hfind).1
  obtain ⟨evs, hw, -⟩ := resolve_world env
    (emit w (.pgGet [.WithByName req.Name, .WithByPostgresqlName req.Database,
      .WithByFrom req.From])) req.Database
  have h1 : (LoadPostgresqlClientByFrom env
      (emit w (.pgGet [.WithByName req.Name, .WithByPostgresqlName req.Database,
        .WithByFrom req.From])) req.Database).1 = .ok cv := by
    rw [← hres]
    exact resolve_result env (emit w _) w req.Database rfl
  unfold Create
  simp only [pgGet_world, hget, hlegal, h1, hw, hcreate, copierCopy, postgresqlRepo.Create,
    hinsert, hroot]
  simp [calls, emit]

/-- Witness of C3 amended: `shop` is created on `pgA`. -/
theorem create_success_witness :
    (Create calmEnv oneRow freshCreate).1 =
      .ok { ID := 2, Name := "shop", From := "remote", PostgresqlName := "pgA",
            Format := "UTF8", Username := "shop_user", Password := "p3" } :=
  (create_success calmEnv oneRow freshCreate
    pgAClient
    (by decide) (by simp [oneRow, appDb, freshCreate]) (by decide) rfl rfl rfl).1

/-! ## What the operations leave untouched -/

theorem dbGet_world (w : World) (fs : List DbFilter) :
    (databaseRepo.Get w fs).2 = emit w (.dbGet fs) := by
  unfold databaseRepo.Get
  split <;> rfl

theorem create_engine_error (env : Env) (w : World) (req : PostgresqlDBCreate)
    (info : CreateInfo) (e : Err)
    (hcall : Event.cliCreate info ∈ calls w (Create env w req).2)
    (herr : env.cliCreate info = some e) :
    (Create env w req).1 = .error e ∧ (Create env w req).2.postgresqls = w.postgresqls ∧
      (Create env w req).2.installs = w.installs := by
  obtain ⟨evs, hw, hev⟩ := resolve_world env
    (emit w (.pgGet [.WithByName req.Name, .WithByPostgresqlName req.Database,
      .WithByFrom req.From])) req.Database
  have hnot : Event.cliCreate info ∉ evs := fun h => by simpa [Event.isResolve] using hev _ h
  revert hcall
  unfold Create
  simp only [pgGet_world, copierCopy, hw]
  generalize (postgresqlRepo.Get env w _).1.1 = pgsql
  generalize (LoadPostgresqlClientByFrom env _ req.Database).1 = res
  by_cases hill : env.CheckIllegal [req.Name, req.Username, req.Password, req.Format] = true
  · simp [hill, calls]
  · simp only [hill]
    by_cases hid : pgsql.ID = 0
    · by_cases hroot : req.From = "local" ∧ req.Username = "root"
      · simp [hid, hroot, calls, emit]
      · cases res with
        | error e2 => simp [hid, hroot, calls, emit, hnot]
        | ok cv =>
          simp only [hid, hroot, ne_eq, not_true_eq_false, not_false_eq_true, ↓reduceIte]
          generalize ({ Name := req.Name, Format := req.Format, Username := req.Username,
                        Password := req.Password, Version := cv.2,
                        Timeout := 300 } : CreateInfo) = info0
          cases hc : env.cliCreate info0 with
          | some e2 =>
            simp only [calls, emit]
            simp [hnot]
            intro h
            subst h
            rw [hc] at herr
            simpa using herr
          | none =>
            simp only [calls, emit, postgresqlRepo.Create]
            cases hp : env.pgCreateErr { Name := req.Name, From := req.From,
                                         PostgresqlName := req.Database, Format := req.Format,
                                         Username := req.Username, Password := req.Password } with
            | some e3 =>
              simp [hnot]
              intro h
              rw [h, hc] at herr
              cases herr
            | none =>
              simp [hnot]
              intro h
              rw [h, hc] at herr
              cases herr
    · simp [hid, calls, emit]

theorem installGetFirst_world (w : World) (id : Nat) :
    (appInstallRepo.GetFirst w id).2 = emit w (.installGetFirst id) := by
  unfold appInstallRepo.GetFirst
  split <;> rfl

theorem appGetFirst_world (w : World) (id : Nat) :
    (appRepo.GetFirst w id).2 = emit w (.appGetFirst id) := by
  unfold appRepo.GetFirst
  split <;> rfl

theorem propagate_trace (env : Env) (v : String) :
    ∀ (l : List AppInstallResource) (i : Nat) (w : World),
      ∃ evs, (propagate env v i l w).2.trace = w.trace ++ evs ∧
        (∀ ev ∈ evs, ev.isLinkStep = true) ∧
        (propagate env v i l w).2.postgresqls = w.postgresqls
  | [], i, w => ⟨[], by simp [propagate], by simp, by simp [propagate]⟩
  | appRes :: rest, i, w => by
    unfold propagate
    simp only [installGetFirst_world, appGetFirst_world]
    generalize (appInstallRepo.GetFirst w appRes.AppInstallId).1 = a
    cases ha : a.2 with
    | some e => exact ⟨[.installGetFirst appRes.AppInstallId], by simp [emit], by simp [Event.isLinkStep], by simp [emit]⟩
    | none =>
      simp only []
      generalize (appRepo.GetFirst (emit w (.installGetFirst appRes.AppInstallId)) a.1.AppId).1 = m
      cases hm : m.2 with
      | some e =>
        exact ⟨[.installGetFirst appRes.AppInstallId, .appGetFirst a.1.AppId], by simp [emit],
          by simp [Event.isLinkStep], by simp [emit]⟩
      | none =>
        simp only [updateInstallInfoInDB]
        cases hu : env.updateInstallErr i m.1.Key a.1.Name "user-password" with
        | some e =>
          exact ⟨[.installGetFirst appRes.AppInstallId, .appGetFirst a.1.AppId,
            .updateInstallInfo m.1.Key a.1.Name "user-password" v], by simp [emit],
            by simp [Event.isLinkStep], by simp [emit]⟩
        | none =>
          simp only []
          obtain ⟨evs, h1, h2, h3⟩ := propagate_trace env v rest (i + 1)
            (emit { (emit (emit w (.installGetFirst appRes.AppInstallId))
                (.appGetFirst a.1.AppId)) with
              installs := (emit (emit w (.installGetFirst appRes.AppInstallId))
                  (.appGetFirst a.1.AppId)).installs.map (fun x =>
                if x.Name = a.1.Name ∧ keyOf (emit (emit w (.installGetFirst appRes.AppInstallId))
                  (.appGetFirst a.1.AppId)).apps x = some m.1.Key
                then setSecret x "user-password" v else x) }
              (.updateInstallInfo m.1.Key a.1.Name "user-password" v))
          refine ⟨[.installGetFirst appRes.AppInstallId, .appGetFirst a.1.AppId,
            .updateInstallInfo m.1.Key a.1.Name "user-password" v] ++ evs, ?_, ?_, ?_⟩
          · rw [h1]; simp [emit]
          · intro ev hev
            rcases List.mem_append.mp hev with h | h
            · simp at h
              rcases h with h | h | h <;> subst h <;> rfl
            · exact h2 ev h
          · rw [h3]; simp [emit]

theorem quiet_refl (w : World) : Quiet w w := ⟨[], by simp, by simp⟩

theorem quiet_of_trace {w w2 w3 : World} (h : w3.trace = w2.trace) (hq : Quiet w w2) :
    Quiet w w3 := by
  obtain ⟨evs, h1, h2⟩ := hq
  exact ⟨evs, by rw [h, h1], h2⟩

theorem quiet_emit {w w2 : World} {e : Event} (he : e.isEngine = false) (hq : Quiet w w2) :
    Quiet w (emit w2 e) := by
  obtain ⟨evs, h1, h2⟩ := hq
  refine ⟨evs ++ [e], by simp [emit, h1], ?_⟩
  intro ev hev
  rcases List.mem_append.mp hev with h | h
  · exact h2 ev h
  · simp at h; subst h; exact he

theorem quiet_propagate {w w2 : World} (env : Env) (v : String) (l : List AppInstallResource)
    (i : Nat) (hq : Quiet w w2) : Quiet w (propagate env v i l w2).2 := by
  obtain ⟨evs, h1, h2⟩ := hq
  obtain ⟨evs2, h3, h4, -⟩ := propagate_trace env v l i w2
  refine ⟨evs ++ evs2, by rw [h3, h1, List.append_assoc], ?_⟩
  intro ev hev
  rcases List.mem_append.mp hev with h | h
  · exact h2 ev h
  · have := h4 ev h
    cases ev <;> simp_all [Event.isLinkStep, Event.isEngine]

theorem quiet_update {w w2 : World} (env : Env) (id : Nat) (f v : String) (hq : Quiet w w2) :
    Quiet w (postgresqlRepo.Update env w2 id f v).2 := by
  unfold postgresqlRepo.Update
  split
  · exact quiet_emit rfl hq
  · exact quiet_emit rfl (quiet_of_trace rfl hq)

theorem quiet_updateInstall {w w2 : World} (env : Env) (i : Nat) (k n p v : String)
    (hq : Quiet w w2) : Quiet w (updateInstallInfoInDB env w2 i k n p v).2 := by
  unfold updateInstallInfoInDB
  split
  · exact quiet_emit rfl hq
  · exact quiet_emit rfl (quiet_of_trace rfl hq)

theorem afterEngine_quiet (env : Env) (w w1 : World) (req : ChangeDBInfo)
    (pd : DatabasePostgresql) (hq : Quiet w w1) :
    Quiet w (ChangePassword.afterEngine env w1 req pd).2 := by
  unfold ChangePassword.afterEngine
  by_cases hid : req.ID = 0
  · simp only [hid, ne_eq, not_true_eq_false, ↓reduceIte]
    split
    · exact quiet_updateInstall env _ _ _ _ _ hq
    · exact quiet_updateInstall env _ _ _ _ _ hq
  · simp only [hid, ne_eq, not_false_eq_true, ↓reduceIte]
    have tail : ∀ (l : List AppInstallResource) (wq : World), Quiet w wq →
        Quiet w (match (propagate env req.Value 0 l wq).1 with
          | some e => (some e, (propagate env req.Value 0 l wq).2)
          | none =>
            match env.StringEncrypt req.Value with
            | .error e => (some ("decrypt database db password failed, err: " ++ e),
                emit (propagate env req.Value 0 l wq).2 (.encrypt req.Value))
            | .ok pass => ((none : Option Err),
                (postgresqlRepo.Update env (emit (propagate env req.Value 0 l wq).2
                  (.encrypt req.Value)) pd.ID "password" pass).2)).2 := by
      intro l wq hwq
      have hp := quiet_propagate env req.Value l 0 hwq
      split
      · exact hp
      · split
        · exact quiet_emit rfl hp
        · exact quiet_update env _ _ _ (quiet_emit rfl hp)
    by_cases hl : req.From = "local"
    · simp only [hl, ↓reduceIte, appInstallRepo.LoadBaseInfo, resGetBy_world]
      cases hb : env.LoadBaseInfo req.Type_ req.Database with
      | error e => exact quiet_emit rfl hq
      | ok app => exact tail _ _ (quiet_emit rfl (quiet_emit rfl hq))
    · simp only [hl, ↓reduceIte, resGetBy_world]
      exact tail _ _ (quiet_emit rfl hq)

theorem changePassword_engine_error (env : Env) (w : World) (req : ChangeDBInfo)
    (info : PasswordChangeInfo) (e : Err)
    (hcall : Event.cliChangePassword info ∈ calls w (ChangePassword env w req).2)
    (herr : env.cliChangePassword info = some e) :
    (ChangePassword env w req).1 = some e ∧
      (ChangePassword env w req).2.postgresqls = w.postgresqls ∧
      (ChangePassword env w req).2.installs = w.installs := by
  obtain ⟨evs, hw, hev⟩ := resolve_world env w req.Database
  have hnot : Event.cliChangePassword info ∉ evs :=
    fun h => by simpa [Event.isResolve] using hev _ h
  -- what follows the engine command, whatever the row found
  have tail : ∀ (info0 : PasswordChangeInfo) (pd : DatabasePostgresql) (W : World),
      W.postgresqls = w.postgresqls → W.installs = w.installs →
      (∃ pre, W.trace = w.trace ++ pre ∧ Event.cliChangePassword info ∉ pre) →
      Event.cliChangePassword info ∈ calls w
        (emit (match env.cliChangePassword info0 with
          | some e => (some e, emit W (.cliChangePassword info0))
          | none => ChangePassword.afterEngine env (emit W (.cliChangePassword info0)) req pd).2
          .cliClose) →
      (match env.cliChangePassword info0 with
          | some e => (some e, emit W (.cliChangePassword info0))
          | none => ChangePassword.afterEngine env (emit W (.cliChangePassword info0)) req pd).1
        = some e ∧
      (emit (match env.cliChangePassword info0 with
          | some e => (some e, emit W (.cliChangePassword info0))
          | none => ChangePassword.afterEngine env (emit W (.cliChangePassword info0)) req pd).2
          .cliClose).postgresqls = w.postgresqls ∧
      (emit (match env.cliChangePassword info0 with
          | some e => (some e, emit W (.cliChangePassword info0))
          | none => ChangePassword.afterEngine env (emit W (.cliChangePassword info0)) req pd).2
          .cliClose).installs = w.installs := by
    intro info0 pd W hpg hin ⟨pre, hpre, hnpre⟩
    cases hc : env.cliChangePassword info0 with
    | some e2 =>
      simp only [calls, emit, hpre]
      simp [hnpre, hpg, hin]
      intro h
      rw [h, hc] at herr
      simpa using herr
    | none =>
      simp only []
      intro hmem
      exfalso
      obtain ⟨evs2, h1, h2⟩ := afterEngine_quiet env _ (emit W (.cliChangePassword info0))
        req pd (quiet_refl _)
      simp only [calls, emit] at hmem h1
      rw [h1, hpre] at hmem
      simp [hnpre] at hmem
      rcases hmem with h | h
      · rw [h, hc] at herr
        cases herr
      · simpa [Event.isEngine] using h2 _ h
  revert hcall
  unfold ChangePassword
  by_cases hill : env.CheckIllegal [req.Value] = true
  · simp [hill, calls]
  · simp only [hill, hw, pgGet_world, dbGet_world]
    generalize (LoadPostgresqlClientByFrom env w req.Database).1 = res
    cases res with
    | error e2 => simp [calls, hnot]
    | ok cv =>
      by_cases hid : req.ID = 0
      · simp only [hid, ne_eq, not_true_eq_false, ↓reduceIte]
        generalize (databaseRepo.Get _ [DbFilter.WithByType req.Type_,
          DbFilter.WithByFrom req.From]).1 = d
        cases hd : d.2 with
        | some e2 => simp [calls, emit, hnot]
        | none =>
          simp only []
          exact tail _ _ _ rfl rfl ⟨evs ++ [.dbGet [.WithByType req.Type_, .WithByFrom req.From]],
            by simp [emit], by simp [hnot]⟩
      · simp only [hid, ne_eq, not_false_eq_true, ↓reduceIte]
        generalize (postgresqlRepo.Get env _ [PgFilter.WithByID req.ID]).1 = g
        cases hg : g.2 with
        | some e2 => simp [calls, emit, hnot]
        | none =>
          simp only []
          exact tail _ _ _ rfl rfl ⟨evs ++ [.pgGet [.WithByID req.ID]],
            by simp [emit], by simp [hnot]⟩

/-! ## C4: an engine-side error reaches the caller and nothing is stored -/

/-- C4: whenever `Create` (resp. `ChangePassword`) has called the client's
`Create` (resp. `ChangePassword`) with some `info` and the client answers that
call with an error, the service operation returns that very error, and the
catalog and the stored secrets of all application installations are exactly
what they were before the call. -/
theorem engine_error_leaves_state (env : Env) (w : World) :
    (∀ (req : PostgresqlDBCreate) (info : CreateInfo) (e : Err),
      Event.cliCreate info ∈ calls w (Create env w req).2 → env.cliCreate info = some e →
      (Create env w req).1 = .error e ∧ (Create env w req).2.postgresqls = w.postgresqls ∧
        (Create env w req).2.installs = w.installs) ∧
    (∀ (req : ChangeDBInfo) (info : PasswordChangeInfo) (e : Err),
      Event.cliChangePassword info ∈ calls w (ChangePassword env w req).2 →
      env.cliChangePassword info = some e →
      (ChangePassword env w req).1 = some e ∧
        (ChangePassword env w req).2.postgresqls = w.postgresqls ∧
        (ChangePassword env w req).2.installs = w.installs) :=
  ⟨fun req info e hcall herr => create_engine_error env w req info e hcall herr,
   fun req info e hcall herr => changePassword_engine_error env w req info e hcall herr⟩

/-- Witness of C4: the engine times out on the create of `shop` and on the
password change of `app_db`. -/
theorem engine_error_leaves_state_witness :
    ((Create engineDown oneRow freshCreate).1 = .error "timeout" ∧
      (Create engineDown oneRow freshCreate).2.postgresqls = [appDb] ∧
      (Create engineDown oneRow freshCreate).2.installs = []) ∧
    ((ChangePassword engineDown oneRow rotateAppDb).1 = some "timeout" ∧
      (ChangePassword engineDown oneRow rotateAppDb).2.postgresqls = [appDb] ∧
      (ChangePassword engineDown oneRow rotateAppDb).2.installs = []) :=
  ⟨(engine_error_leaves_state engineDown oneRow).1 freshCreate freshInfo "timeout"
      (by decide) rfl,
   (engine_error_leaves_state engineDown oneRow).2 rotateAppDb rotateInfo "timeout"
      (by decide) rfl⟩

/-! ## The tail of Delete -/

theorem removeIfExists_tables (env : Env) (w : World) (dir : String) :
    { removeIfExists env w dir with trace := w.trace } = w := by
  unfold removeIfExists
  split <;> rfl

theorem removeIfExists_postgresqls (env : Env) (w : World) (dir : String) :
    (removeIfExists env w dir).postgresqls = w.postgresqls := by
  unfold removeIfExists
  split <;> rfl

theorem deleteBackup_postgresqls (env : Env) (w1 : World) (req : PostgresqlDBDelete)
    (db : DatabasePostgresql) :
    (Delete.deleteBackup env w1 req db).2.postgresqls = w1.postgresqls := by
  unfold Delete.deleteBackup
  simp only []
  split <;> simp [emit, removeIfExists_postgresqls]

theorem deleteBackup_result (env : Env) (w1 : World) (req : PostgresqlDBDelete)
    (db : DatabasePostgresql) :
    (Delete.deleteBackup env w1 req db).1 =
      if req.ForceDelete = false then env.loadLocalDir.2 else none := by
  unfold Delete.deleteBackup
  simp only []
  cases hf : req.ForceDelete <;> cases hl : env.loadLocalDir.2 <;> simp

theorem pgDelete_postgresqls (env : Env) (w : World) (id : Nat) :
    (postgresqlRepo.Delete env w id).2.postgresqls =
      if env.pgDeleteErr id = none then w.postgresqls.filter (fun r => r.ID != id)
      else w.postgresqls := by
  unfold postgresqlRepo.Delete
  cases h : env.pgDeleteErr id <;> simp [emit]

theorem delete_afterEngine_passes (env : Env) (w1 : World) (req : PostgresqlDBDelete)
    (db : DatabasePostgresql) (h : cleanupPasses env req) :
    (Delete.afterEngine env w1 req db).1 = none ∧
    (Delete.afterEngine env w1 req db).2.postgresqls =
      if env.pgDeleteErr db.ID = none then w1.postgresqls.filter (fun r => r.ID != db.ID)
      else w1.postgresqls := by
  unfold Delete.afterEngine
  by_cases hb : req.DeleteBackup = true
  · have hr : (Delete.deleteBackup env w1 req db).1 = none := by
      rw [deleteBackup_result]
      rcases h with h | h | h
      · simp [hb] at h
      · simp [h]
      · simp [h]
    simp only [hb, ↓reduceIte, hr, pgDelete_postgresqls, deleteBackup_postgresqls, true_and]
  · simp only [hb, Bool.false_eq_true, ↓reduceIte, pgDelete_postgresqls, true_and]

theorem delete_afterEngine_blocked (env : Env) (w1 : World) (req : PostgresqlDBDelete)
    (db : DatabasePostgresql) (e : Err) (hb : req.DeleteBackup = true)
    (hf : req.ForceDelete = false) (hl : env.loadLocalDir.2 = some e) :
    (Delete.afterEngine env w1 req db).1 = some e ∧
    (Delete.afterEngine env w1 req db).2.postgresqls = w1.postgresqls := by
  unfold Delete.afterEngine
  have hr : (Delete.deleteBackup env w1 req db).1 = some e := by
    rw [deleteBackup_result]; simp [hf, hl]
  simp only [hb, ↓reduceIte, hr, deleteBackup_postgresqls, and_self]

/-! ## C5: the three outcomes of Delete -/

theorem pgGet_byID (env : Env) (w : World) (id : Nat) (db : DatabasePostgresql)
    (h : (postgresqlRepo.Get env w [.WithByID id]).1 = (db, none)) :
    db ∈ w.postgresqls ∧ db.ID = id := by
  unfold postgresqlRepo.Get at h
  cases he : env.pgGetErr [.WithByID id] with
  | some e => rw [he] at h; simp at h
  | none =>
    rw [he] at h
    simp only [] at h
    cases hf : w.postgresqls.find?
        (fun r => [PgFilter.WithByID id].all (fun f => f.holds r)) with
    | none => rw [hf] at h; simp at h
    | some r =>
      rw [hf] at h
      simp only [Prod.mk.injEq, and_true] at h
      subst h
      refine ⟨List.mem_of_find?_eq_some hf, ?_⟩
      have := List.find?_some hf
      simpa [PgFilter.holds] using this

theorem mem_filter_ne (rows : List DatabasePostgresql) (id : Nat) :
    ∀ r ∈ rows.filter (fun r => r.ID != id), r.ID ≠ id := by
  intro r hr
  simpa using (List.mem_filter.mp hr).2

/-- C5: for a delete request whose catalog row `db` exists, whose engine
instance resolves and for which the removal of the catalog row succeeds: if
the engine-side delete fails and `ForceDelete` is false, `Delete` returns the
engine error and the catalog is unchanged, `db` still in it; if the engine-side
delete fails and `ForceDelete` is true, `Delete` returns success and no row
with the identifier is left; if the engine-side delete succeeds and no backup
removal is requested, `Delete` returns success and no row with the identifier
is left. -/
theorem delete_outcomes (env : Env) (w : World) (req : PostgresqlDBDelete)
    (db : DatabasePostgresql) (cv : DBInfo × String)
    (hrow : (postgresqlRepo.Get env w [.WithByID req.ID]).1 = (db, none))
    (hres : (LoadPostgresqlClientByFrom env w req.Database).1 = .ok cv)
    (hremove : env.pgDeleteErr db.ID = none) :
    (∀ e, env.cliDelete { Name := db.Name, Version := cv.2, Username := db.Username,
                          Permission := "", Timeout := 300 } = some e →
        req.ForceDelete = false →
        (Delete env w req).1 = some e ∧ (Delete env w req).2.postgresqls = w.postgresqls ∧
          db ∈ (Delete env w req).2.postgresqls) ∧
    (∀ e, env.cliDelete { Name := db.Name, Version := cv.2, Username := db.Username,
                          Permission := "", Timeout := 300 } = some e →
        req.ForceDelete = true →
        (Delete env w req).1 = none ∧
          (Delete env w req).2.postgresqls = w.postgresqls.filter (fun r => r.ID != req.ID) ∧
          ∀ r ∈ (Delete env w req).2.postgresqls, r.ID ≠ req.ID) ∧
    (env.cliDelete { Name := db.Name, Version := cv.2, Username := db.Username,
                     Permission := "", Timeout := 300 } = none →
        req.DeleteBackup = false →
        (Delete env w req).1 = none ∧
          (Delete env w req).2.postgresqls = w.postgresqls.filter (fun r => r.ID != req.ID) ∧
          ∀ r ∈ (Delete env w req).2.postgresqls, r.ID ≠ req.ID) := by
  obtain ⟨hmem, hid⟩ := pgGet_byID env w req.ID db hrow
  obtain ⟨evs, hw, -⟩ := resolve_world env (emit w (.pgGet [.WithByID req.ID])) req.Database
  have h1 : (LoadPostgresqlClientByFrom env (emit w (.pgGet [.WithByID req.ID]))
      req.Database).1 = .ok cv := by
    rw [← hres]
    exact resolve_result env (emit w _) w req.Database rfl
  have hD : ∀ W : World, W.postgresqls = w.postgresqls → cleanupPasses env req →
      (Delete.afterEngine env W req db).1 = none ∧
      (Delete.afterEngine env W req db).2.postgresqls =
        w.postgresqls.filter (fun r => r.ID != req.ID) := by
    intro W hW hp
    have := delete_afterEngine_passes env W req db hp
    rw [hremove, hW, hid] at this
    simpa using this
  unfold Delete
  simp only [pgGet_world, hrow, h1, hw]
  refine ⟨fun e he hf => ?_, fun e he hf => ?_, fun he hb => ?_⟩
  · simp [he, hf, emit, hmem]
  · obtain ⟨a, b⟩ := hD (emit { emit w (.pgGet [.WithByID req.ID]) with
        trace := (emit w (.pgGet [.WithByID req.ID])).trace ++ evs }
      (.cliDelete { Name := db.Name, Version := cv.2, Username := db.Username,
                    Permission := "", Timeout := 300 })) rfl (Or.inr (Or.inl hf))
    simp only [he, hf, ne_eq, not_true_eq_false, false_and, and_false, Bool.true_eq_false,
      ↓reduceIte]
    exact ⟨a, b, fun r hr => mem_filter_ne w.postgresqls req.ID r (b ▸ hr)⟩
  · obtain ⟨a, b⟩ := hD (emit { emit w (.pgGet [.WithByID req.ID]) with
        trace := (emit w (.pgGet [.WithByID req.ID])).trace ++ evs }
      (.cliDelete { Name := db.Name, Version := cv.2, Username := db.Username,
                    Permission := "", Timeout := 300 })) rfl (Or.inl hb)
    simp only [he, ne_eq, not_true_eq_false, false_and, ↓reduceIte]
    exact ⟨a, b, fun r hr => mem_filter_ne w.postgresqls req.ID r (b ▸ hr)⟩

/-- Witness of C5: the engine times out on the delete of `app_db`, once without
and once with `ForceDelete`; and the engine succeeds on a plain delete. -/
theorem delete_outcomes_witness :
    ((Delete engineDown oneRow deleteAppDb).1 = some "timeout" ∧
      (Delete engineDown oneRow deleteAppDb).2.postgresqls = [appDb]) ∧
    ((Delete engineDown oneRow forcedDeleteAppDb).1 = none ∧
      (Delete engineDown oneRow forcedDeleteAppDb).2.postgresqls = []) ∧
    ((Delete calmEnv oneRow deleteAppDb).1 = none ∧
      (Delete calmEnv oneRow deleteAppDb).2.postgresqls = []) :=
  ⟨⟨((delete_outcomes engineDown oneRow deleteAppDb appDb pgAClient rfl rfl rfl).1
        "timeout" rfl rfl).1,
    ((delete_outcomes engineDown oneRow deleteAppDb appDb pgAClient rfl rfl rfl).1
        "timeout" rfl rfl).2.1⟩,
   ⟨((delete_outcomes engineDown oneRow forcedDeleteAppDb appDb pgAClient rfl rfl rfl).2.1
        "timeout" rfl rfl).1,
    ((delete_outcomes engineDown oneRow forcedDeleteAppDb appDb pgAClient rfl rfl rfl).2.1
        "timeout" rfl rfl).2.1⟩,
   ⟨((delete_outcomes calmEnv oneRow deleteAppDb appDb pgAClient rfl rfl rfl).2.2
        rfl rfl).1,
    ((delete_outcomes calmEnv oneRow deleteAppDb appDb pgAClient rfl rfl rfl).2.2
        rfl rfl).2.1⟩⟩

/-! ## The catalog after Delete -/

theorem find_by_id_none (rows : List DatabasePostgresql) (id : Nat)
    (h : ∀ r ∈ rows, r.ID ≠ id) :
    rows.find? (fun r => [PgFilter.WithByID id].all (fun f => f.holds r)) = none := by
  apply find_no_row
  intro r hr
  simp [PgFilter.holds, h r hr]

theorem pgGet_notFound (env : Env) (w : World) (id : Nat)
    (herr : env.pgGetErr [.WithByID id] = none) (h : ∀ r ∈ w.postgresqls, r.ID ≠ id) :
    (postgresqlRepo.Get env w [.WithByID id]).1 = ({}, some ErrRecordNotFound) := by
  rw [pgGet_none env w _ herr (find_by_id_none w.postgresqls id h)]

/-- The lookup of an identifier no row carries answers the zero row and an
error, whether or not the lookup itself fails. -/
theorem pgGet_gone (env : Env) (w : World) (id : Nat) (h : ∀ r ∈ w.postgresqls, r.ID ≠ id) :
    (postgresqlRepo.Get env w [.WithByID id]).1.1 = {} ∧
    (postgresqlRepo.Get env w [.WithByID id]).1.2 ≠ none :=
  pgGet_absent env w _ (find_by_id_none w.postgresqls id h)

/-- The answer of a lookup by identifier that does not itself fail: the row of
that identifier, or the zero row when no row carries it. -/
theorem pgGet_cases (env : Env) (w : World) (id : Nat)
    (herr : env.pgGetErr [.WithByID id] = none) :
    (∃ db, (postgresqlRepo.Get env w [.WithByID id]).1 = (db, none) ∧ db.ID = id) ∨
    ((postgresqlRepo.Get env w [.WithByID id]).1 = ({}, some ErrRecordNotFound) ∧
      ∀ r ∈ w.postgresqls, r.ID ≠ id) := by
  unfold postgresqlRepo.Get
  rw [herr]
  simp only []
  cases hf : w.postgresqls.find? (fun r => [PgFilter.WithByID id].all (fun f => f.holds r)) with
  | none =>
    right
    refine ⟨rfl, fun r hr => ?_⟩
    have := List.find?_eq_none.mp hf r hr
    simpa [PgFilter.holds] using this
  | some r =>
    left
    exact ⟨r, rfl, by simpa [PgFilter.holds] using List.find?_some hf⟩

theorem delete_afterEngine_success (env : Env) (w1 : World) (req : PostgresqlDBDelete)
    (db : DatabasePostgresql) (h : (Delete.afterEngine env w1 req db).1 = none) :
    (Delete.afterEngine env w1 req db).2.postgresqls =
      if env.pgDeleteErr db.ID = none then w1.postgresqls.filter (fun r => r.ID != db.ID)
      else w1.postgresqls := by
  revert h
  unfold Delete.afterEngine
  by_cases hb : req.DeleteBackup = true
  · simp only [hb, ↓reduceIte]
    cases hr : (Delete.deleteBackup env w1 req db).1 with
    | some e => simp
    | none => simp [pgDelete_postgresqls, deleteBackup_postgresqls]
  · simp [hb, pgDelete_postgresqls]

/-- The catalog after a `Delete` that returned success. -/
theorem delete_success_catalog (env : Env) (w : World) (req : PostgresqlDBDelete)
    (h : (Delete env w req).1 = none) :
    (Delete env w req).2.postgresqls =
      if env.pgDeleteErr (postgresqlRepo.Get env w [.WithByID req.ID]).1.1.ID = none then
        w.postgresqls.filter
          (fun r => r.ID != (postgresqlRepo.Get env w [.WithByID req.ID]).1.1.ID)
      else w.postgresqls := by
  obtain ⟨evs, hw, -⟩ := resolve_world env (emit w (.pgGet [.WithByID req.ID])) req.Database
  revert h
  unfold Delete
  simp only [pgGet_world, hw]
  generalize (postgresqlRepo.Get env w [.WithByID req.ID]).1 = g
  generalize (LoadPostgresqlClientByFrom env _ req.Database).1 = res
  by_cases h0 : g.2 ≠ none ∧ req.ForceDelete = false
  · rw [if_pos h0]
    intro h; exact absurd h h0.1
  · rw [if_neg h0]
    cases res with
    | error e => simp
    | ok cv =>
      simp only []
      split
      · rename_i hc
        intro h; exact absurd h hc.1
      · intro h
        exact delete_afterEngine_success env _ req g.1 h

/-! ## C6: delete, then get -/

/-- C6 as stated fails, in two ways.  When the catalog refuses the row removal,
`Delete` discards that error and returns success, and the row `app_db` is
still found under the identifier of the request.  And when the lookup of the
row fails while `ForceDelete` is set, `Delete` passes over the error, goes on
with the zero row, removes by the identifier 0, which fails for nobody, and
returns success: a later lookup that works still finds `app_db`. -/
theorem delete_then_get_counterexample :
    ((Delete lockedCatalog oneRow deleteAppDb).1 = none ∧
    (postgresqlRepo.Get lockedCatalog (Delete lockedCatalog oneRow deleteAppDb).2
      [.WithByID deleteAppDb.ID]).1 = (appDb, none)) ∧
    ((Delete lookupFails oneRow forcedDeleteAppDb).1 = none ∧
    Event.pgDelete 0 ∈ calls oneRow (Delete lookupFails oneRow forcedDeleteAppDb).2 ∧
    lookupFails.pgDeleteErr 0 = none ∧
    (postgresqlRepo.Get calmEnv (Delete lookupFails oneRow forcedDeleteAppDb).2
      [.WithByID forcedDeleteAppDb.ID]).1 = (appDb, none)) := by
  refine ⟨⟨rfl, rfl⟩, ⟨rfl, ?_, rfl, rfl⟩⟩
  decide

/-- C6, amended: for every delete request and every behaviour of the
collaborators, if `Delete` returns success, the lookup of the row it makes
does not fail for a reason other than Not Found, and the removal of the
catalog row it issued did not fail, then the resulting catalog holds no row
with the identifier of the request: a subsequent catalog `Get` by that
identifier, however the collaborators behave by then (`env2`), answers the zero
row and an error, which is Not Found whenever that lookup does not itself
fail. -/
theorem delete_then_get (env env2 : Env) (w : World) (req : PostgresqlDBDelete)
    (hok : (Delete env w req).1 = none)
    (hlookup : env.pgGetErr [.WithByID req.ID] = none)
    (hremove : env.pgDeleteErr (postgresqlRepo.Get env w [.WithByID req.ID]).1.1.ID = none) :
    (∀ r ∈ (Delete env w req).2.postgresqls, r.ID ≠ req.ID) ∧
    (postgresqlRepo.Get env2 (Delete env w req).2 [.WithByID req.ID]).1.1 = {} ∧
    (postgresqlRepo.Get env2 (Delete env w req).2 [.WithByID req.ID]).1.2 ≠ none ∧
    (env2.pgGetErr [.WithByID req.ID] = none →
      (postgresqlRepo.Get env2 (Delete env w req).2 [.WithByID req.ID]).1 =
        ({}, some ErrRecordNotFound)) := by
  have hgone : ∀ r ∈ (Delete env w req).2.postgresqls, r.ID ≠ req.ID := by
    rw [delete_success_catalog env w req hok, if_pos hremove]
    intro r hr
    obtain ⟨hr1, hr2⟩ := List.mem_filter.mp hr
    rcases pgGet_cases env w req.ID hlookup with ⟨db, hg, hid⟩ | ⟨-, hnone⟩
    · rw [hg] at hr2
      simpa [hid] using hr2
    · exact hnone r hr1
  exact ⟨hgone, (pgGet_gone env2 _ req.ID hgone).1, (pgGet_gone env2 _ req.ID hgone).2,
    fun h2 => pgGet_notFound env2 _ req.ID h2 hgone⟩

/-- Witness of C6 amended: a plain delete of `app_db` with a willing catalog. -/
theorem delete_then_get_witness :
    (Delete calmEnv oneRow deleteAppDb).2.postgresqls = [] ∧
    (postgresqlRepo.Get calmEnv (Delete calmEnv oneRow deleteAppDb).2
      [.WithByID deleteAppDb.ID]).1 = ({}, some ErrRecordNotFound) :=
  ⟨rfl, (delete_then_get calmEnv calmEnv oneRow deleteAppDb rfl rfl rfl).2.2.2 rfl⟩

/-! ## C7: backup cleanup and the catalog row -/

theorem removeIfExists_trace (env : Env) (w : World) (dir : String) :
    ∃ evs, (removeIfExists env w dir).trace = w.trace ++ evs := by
  unfold removeIfExists
  split
  · exact ⟨[.stat dir, .removeAll dir], by simp [emit]⟩
  · exact ⟨[.stat dir], by simp [emit]⟩

theorem deleteBackup_trace (env : Env) (w1 : World) (req : PostgresqlDBDelete)
    (db : DatabasePostgresql) :
    ∃ evs, (Delete.deleteBackup env w1 req db).2.trace = w1.trace ++ evs := by
  unfold Delete.deleteBackup
  simp only []
  obtain ⟨e1, h1⟩ := removeIfExists_trace env w1 (env.pathJoin env.BaseDir
    ("1panel/uploads/database/" ++ req.Type_ ++ "/" ++ req.Database ++ "/" ++ db.Name))
  split
  · exact ⟨e1 ++ [.loadLocalDir], by simp [emit, h1]⟩
  · obtain ⟨e2, h2⟩ := removeIfExists_trace env
      (emit (removeIfExists env w1 (env.pathJoin env.BaseDir
        ("1panel/uploads/database/" ++ req.Type_ ++ "/" ++ req.Database ++ "/" ++ db.Name)))
        .loadLocalDir)
      (env.pathJoin env.loadLocalDir.1
        ("database/" ++ req.Type_ ++ "/" ++ db.PostgresqlName ++ "/" ++ db.Name))
    refine ⟨e1 ++ [.loadLocalDir] ++ e2 ++
      [.backupDeleteRecord req.Type_ req.Database db.Name], ?_⟩
    simp only [emit] at h2 ⊢
    rw [h2, h1]
    simp

theorem pgDelete_trace (env : Env) (w : World) (id : Nat) :
    (postgresqlRepo.Delete env w id).2.trace = w.trace ++ [.pgDelete id] := by
  unfold postgresqlRepo.Delete
  split <;> rfl

theorem delete_afterEngine_trace (env : Env) (w1 : World) (req : PostgresqlDBDelete)
    (db : DatabasePostgresql) (h : cleanupPasses env req) :
    ∃ evs, (Delete.afterEngine env w1 req db).2.trace = w1.trace ++ evs ++ [.pgDelete db.ID] := by
  unfold Delete.afterEngine
  by_cases hb : req.DeleteBackup = true
  · have hr : (Delete.deleteBackup env w1 req db).1 = none := by
      rw [deleteBackup_result]
      rcases h with h | h | h
      · simp [hb] at h
      · simp [h]
      · simp [h]
    obtain ⟨evs, ht⟩ := deleteBackup_trace env w1 req db
    simp only [hb, ↓reduceIte, hr, pgDelete_trace, ht]
    exact ⟨evs, rfl⟩
  · simp only [hb, Bool.false_eq_true, ↓reduceIte, pgDelete_trace]
    exact ⟨[], by simp⟩

/-- C7 as stated fails: backup removal is requested, the engine-side delete
succeeds, the lookup of the local backup directory fails and `ForceDelete` is
not set; `Delete` returns the lookup error, never calls the row removal and
the row `app_db` stays in the catalog. -/
theorem cleanup_never_blocks_counterexample :
    deleteWithBackups.DeleteBackup = true ∧
    (∀ info, noLocalDir.cliDelete info = none) ∧
    (Delete noLocalDir oneRow deleteWithBackups).1 = some "load local backup dir failed" ∧
    Event.pgDelete 1 ∉ calls oneRow (Delete noLocalDir oneRow deleteWithBackups).2 ∧
    (Delete noLocalDir oneRow deleteWithBackups).2.postgresqls = [appDb] := by
  refine ⟨rfl, fun _ => rfl, rfl, ?_, rfl⟩
  decide

/-- C7, amended: for a delete request with backup removal requested whose
catalog row `db` exists, whose engine instance resolves and whose engine-side
delete succeeded, whatever the answers of the directory checks, directory
removals and backup-record deletion: if `ForceDelete` is set or the lookup of
the local backup directory succeeds, `Delete` calls the removal of the
catalog row and returns success (and no row with the identifier is left when
that removal succeeds); if the lookup fails and `ForceDelete` is not set,
`Delete` returns the lookup error and the catalog is unchanged. -/
theorem cleanup_never_blocks (env : Env) (w : World) (req : PostgresqlDBDelete)
    (db : DatabasePostgresql) (cv : DBInfo × String)
    (hrow : (postgresqlRepo.Get env w [.WithByID req.ID]).1 = (db, none))
    (hres : (LoadPostgresqlClientByFrom env w req.Database).1 = .ok cv)
    (hengine : env.cliDelete { Name := db.Name, Version := cv.2, Username := db.Username,
                               Permission := "", Timeout := 300 } = none)
    (hbackup : req.DeleteBackup = true) :
    (req.ForceDelete = true ∨ env.loadLocalDir.2 = none →
      (Delete env w req).1 = none ∧
      Event.pgDelete db.ID ∈ calls w (Delete env w req).2 ∧
      (env.pgDeleteErr db.ID = none →
        ∀ r ∈ (Delete env w req).2.postgresqls, r.ID ≠ req.ID)) ∧
    (∀ e, req.ForceDelete = false → env.loadLocalDir.2 = some e →
      (Delete env w req).1 = some e ∧ (Delete env w req).2.postgresqls = w.postgresqls) := by
  obtain ⟨-, hid⟩ := pgGet_byID env w req.ID db hrow
  obtain ⟨evs, hw, -⟩ := resolve_world env (emit w (.pgGet [.WithByID req.ID])) req.Database
  have h1 : (LoadPostgresqlClientByFrom env (emit w (.pgGet [.WithByID req.ID]))
      req.Database).1 = .ok cv := by
    rw [← hres]
    exact resolve_result env (emit w _) w req.Database rfl
  refine ⟨fun hpass => ?_, fun e hf hl => ?_⟩
  · have hp : cleanupPasses env req := Or.inr hpass
    obtain ⟨a, b⟩ := delete_afterEngine_passes env
      (emit { emit w (.pgGet [.WithByID req.ID]) with
          trace := (emit w (.pgGet [.WithByID req.ID])).trace ++ evs }
        (.cliDelete { Name := db.Name, Version := cv.2, Username := db.Username,
                      Permission := "", Timeout := 300 })) req db hp
    obtain ⟨evs2, c⟩ := delete_afterEngine_trace env
      (emit { emit w (.pgGet [.WithByID req.ID]) with
          trace := (emit w (.pgGet [.WithByID req.ID])).trace ++ evs }
        (.cliDelete { Name := db.Name, Version := cv.2, Username := db.Username,
                      Permission := "", Timeout := 300 })) req db hp
    unfold Delete
    simp only [pgGet_world, hrow, h1, hw, hengine, ne_eq, not_true_eq_false, false_and,
      ↓reduceIte]
    refine ⟨a, ?_, fun hrm r hr => ?_⟩
    · simp only [calls, emit] at c ⊢
      rw [c]
      simp
    · have hr2 : r ∈ (Delete.afterEngine env
          (emit { emit w (.pgGet [.WithByID req.ID]) with
              trace := (emit w (.pgGet [.WithByID req.ID])).trace ++ evs }
            (.cliDelete { Name := db.Name, Version := cv.2, Username := db.Username,
                          Permission := "", Timeout := 300 })) req db).2.postgresqls := hr
      rw [b, if_pos hrm, hid] at hr2
      exact mem_filter_ne _ _ r hr2
  · obtain ⟨a, b⟩ := delete_afterEngine_blocked env
      (emit { emit w (.pgGet [.WithByID req.ID]) with
          trace := (emit w (.pgGet [.WithByID req.ID])).trace ++ evs }
        (.cliDelete { Name := db.Name, Version := cv.2, Username := db.Username,
                      Permission := "", Timeout := 300 })) req db e hbackup hf hl
    unfold Delete
    simp only [pgGet_world, hrow, h1, hw, hengine, ne_eq, not_true_eq_false, false_and,
      ↓reduceIte]
    exact ⟨a, b⟩

/-- Witness of C7 amended: every directory removal and the backup-record
deletion fail, and the row `app_db` is removed all the same. -/
theorem cleanup_never_blocks_witness :
    (Delete cleanupFails oneRow deleteWithBackups).1 = none ∧
    Event.pgDelete 1 ∈ calls oneRow (Delete cleanupFails oneRow deleteWithBackups).2 :=
  ⟨((cleanup_never_blocks cleanupFails oneRow deleteWithBackups appDb pgAClient
      rfl rfl rfl rfl).1 (Or.inr rfl)).1,
   ((cleanup_never_blocks cleanupFails oneRow deleteWithBackups appDb pgAClient
      rfl rfl rfl rfl).1 (Or.inr rfl)).2.1⟩

/-! ## C8: what ChangeAccess changes -/

theorem pgUpdate_postgresqls (env : Env) (w : World) (id : Nat) (f v : String) :
    (postgresqlRepo.Update env w id f v).2.postgresqls =
      if env.pgUpdateErr id f v = none then
        w.postgresqls.map (fun r => if r.ID = id then setField r f v else r)
      else w.postgresqls := by
  unfold postgresqlRepo.Update
  cases h : env.pgUpdateErr id f v <;> simp [emit]

/-- C8 as stated fails: the engine-side access change of `app_db` succeeds,
the catalog refuses the update, `ChangeAccess` returns success and the
permission of the row is still the old one. -/
theorem change_access_counterexample :
    lockedCatalog.CheckIllegal [openAppDb.Value] = false ∧ openAppDb.ID ≠ 0 ∧
    (postgresqlRepo.Get calmEnv oneRow [.WithByID openAppDb.ID]).1 = (appDb, none) ∧
    (LoadPostgresqlClientByFrom lockedCatalog oneRow openAppDb.Database).1 = .ok pgAClient ∧
    lockedCatalog.cliChangeAccess openInfo = none ∧
    Event.cliChangeAccess openInfo ∈ calls oneRow (ChangeAccess lockedCatalog oneRow openAppDb).2 ∧
    (ChangeAccess lockedCatalog oneRow openAppDb).1 = none ∧
    (ChangeAccess lockedCatalog oneRow openAppDb).2.postgresqls = [appDb] ∧
    appDb.Permission ≠ openAppDb.Value := by
  refine ⟨rfl, by decide, rfl, rfl, rfl, by decide, rfl, rfl, by decide⟩

/-- C8, amended: for a `ChangeAccess` request with a legal value and a
non-zero identifier naming the existing row `db`, whose engine instance
resolves: if the engine-side access change succeeds and the catalog update
succeeds, `ChangeAccess` returns success and the catalog is the old one with
the permission of the rows of that identifier set to the requested value,
every other field and every other row, and the installations, unchanged; if
the engine-side access change fails, `ChangeAccess` returns that error and the
catalog is unchanged. -/
theorem change_access (env : Env) (w : World) (req : ChangeDBInfo)
    (db : DatabasePostgresql) (cv : DBInfo × String)
    (hlegal : env.CheckIllegal [req.Value] = false) (hid : req.ID ≠ 0)
    (hrow : (postgresqlRepo.Get env w [.WithByID req.ID]).1 = (db, none))
    (hres : (LoadPostgresqlClientByFrom env w req.Database).1 = .ok cv) :
    (env.cliChangeAccess { Name := db.Name, Username := db.Username, Password := db.Password,
                           Permission := req.Value, Version := cv.2, Timeout := 300 } = none →
      env.pgUpdateErr req.ID "permission" req.Value = none →
      (ChangeAccess env w req).1 = none ∧
      (ChangeAccess env w req).2.postgresqls =
        w.postgresqls.map (fun r => if r.ID = req.ID then { r with Permission := req.Value }
          else r) ∧
      (ChangeAccess env w req).2.installs = w.installs) ∧
    (∀ e, env.cliChangeAccess { Name := db.Name, Username := db.Username,
                                Password := db.Password, Permission := req.Value,
                                Version := cv.2, Timeout := 300 } = some e →
      (ChangeAccess env w req).1 = some e ∧
      (ChangeAccess env w req).2.postgresqls = w.postgresqls) := by
  obtain ⟨evs, hw, -⟩ := resolve_world env w req.Database
  have hrow2 := (pgGet_result_trace env w evs [.WithByID req.ID]).trans hrow
  obtain ⟨-, hdb⟩ := pgGet_byID env w req.ID db hrow
  have hdb0 : db.ID ≠ 0 := by rw [hdb]; exact hid
  unfold ChangeAccess
  simp only [hlegal, hres, hw, pgGet_world, hrow2, hid, ne_eq, not_false_eq_true, ↓reduceIte,
    Bool.false_eq_true]
  refine ⟨fun he hu => ?_, fun e he => ?_⟩
  · simp only [he, hdb0, not_false_eq_true, ↓reduceIte, hdb, hid]
    refine ⟨trivial, ?_, ?_⟩
    · simp [pgUpdate_postgresqls, hu, emit, setField]
    · simp [postgresqlRepo.Update, hu, emit]
  · simp [he, emit]

/-- Witness of C8 amended: `app_db` is opened to 172.16.0.0/12. -/
theorem change_access_witness :
    (ChangeAccess calmEnv oneRow openAppDb).1 = none ∧
    (ChangeAccess calmEnv oneRow openAppDb).2.postgresqls =
      [{ appDb with Permission := "172.16.0.0/12" }] ∧
    (ChangeAccess engineDown oneRow openAppDb).1 = some "timeout" :=
  ⟨((change_access calmEnv oneRow openAppDb appDb pgAClient rfl (by decide) rfl rfl).1
      rfl rfl).1,
   ((change_access calmEnv oneRow openAppDb appDb pgAClient rfl (by decide) rfl rfl).1
      rfl rfl).2.1,
   ((change_access engineDown oneRow openAppDb appDb pgAClient rfl (by decide) rfl rfl).2
      "timeout" rfl).1⟩

/-! ## One rewrite of the propagation loop -/

/-- The rewrite `updateInstallInfoInDB` applies to one installation. -/
theorem rewrite_fields (apps : List App) (k n v : String) (a : AppInstall) :
    (if a.Name = n ∧ keyOf apps a = some k then setSecret a "user-password" v else a).ID = a.ID ∧
    (if a.Name = n ∧ keyOf apps a = some k then setSecret a "user-password" v else a).Name
      = a.Name ∧
    (if a.Name = n ∧ keyOf apps a = some k then setSecret a "user-password" v else a).AppId
      = a.AppId := by
  split <;> simp [setSecret]

theorem find_install_map (installs : List AppInstall) (g : AppInstall → AppInstall)
    (hg : ∀ a, (g a).ID = a.ID) (id : Nat) :
    (installs.map g).find? (fun a => a.ID == id) =
      (installs.find? (fun a => a.ID == id)).map g := by
  induction installs with
  | nil => rfl
  | cons a rest ih =>
    simp only [List.map_cons, List.find?_cons, hg]
    split
    · rfl
    · exact ih

theorem keyOf_congr (apps : List App) (a b : AppInstall) (h : a.AppId = b.AppId) :
    keyOf apps a = keyOf apps b := by
  unfold keyOf
  rw [h]

theorem linkTarget_map (installs : List AppInstall) (apps : List App)
    (g : AppInstall → AppInstall)
    (hg : ∀ a, (g a).ID = a.ID ∧ (g a).Name = a.Name ∧ (g a).AppId = a.AppId)
    (l : AppInstallResource) :
    linkTarget (installs.map g) apps l = linkTarget installs apps l := by
  unfold linkTarget
  rw [find_install_map installs g (fun a => (hg a).1)]
  cases installs.find? (fun a => a.ID == l.AppInstallId) with
  | none => rfl
  | some a => simp only [Option.map_some', (hg a).2.1, (hg a).2.2]

theorem touchedBy_map (installs : List AppInstall) (apps : List App)
    (g : AppInstall → AppInstall)
    (hg : ∀ a, (g a).ID = a.ID ∧ (g a).Name = a.Name ∧ (g a).AppId = a.AppId)
    (ls : List AppInstallResource) (a : AppInstall) :
    touchedBy (installs.map g) apps ls (g a) = touchedBy installs apps ls a := by
  unfold touchedBy
  congr 1
  funext l
  rw [linkTarget_map installs apps g hg l, (hg a).2.1, keyOf_congr apps (g a) a (hg a).2.2]

theorem rotated_nil (installs : List AppInstall) (apps : List App) (v : String) :
    rotated installs apps v [] = installs := by
  simp [rotated, touchedBy]

theorem rotated_cons (installs : List AppInstall) (apps : List App) (v : String)
    (l : AppInstallResource) (rest : List AppInstallResource) (t : String × String)
    (ht : linkTarget installs apps l = .ok t) :
    rotated (installs.map (fun a =>
        if a.Name = t.2 ∧ keyOf apps a = some t.1 then setSecret a "user-password" v else a))
      apps v rest = rotated installs apps v (l :: rest) := by
  unfold rotated
  rw [List.map_map]
  apply List.map_congr_left
  intro a _
  simp only [Function.comp_apply]
  rw [touchedBy_map installs apps _ (fun a => rewrite_fields apps t.1 t.2 v a) rest a]
  have hcons : touchedBy installs apps (l :: rest) a =
      ((a.Name == t.2 && keyOf apps a == some t.1) || touchedBy installs apps rest a) := by
    simp [touchedBy, ht]
  rw [hcons]
  by_cases h1 : a.Name = t.2 ∧ keyOf apps a = some t.1
  · have h1b : (a.Name == t.2 && keyOf apps a == some t.1) = true := by simp [h1.1, h1.2]
    rw [if_pos h1, h1b, Bool.true_or, if_pos rfl]
    have hs : setSecret a "user-password" v = { a with UserPassword := v } := by
      simp [setSecret]
    rw [hs]
    split <;> rfl
  · have h1b : (a.Name == t.2 && keyOf apps a == some t.1) = false := by
      rcases not_and_or.mp h1 with h | h
      · simp [h]
      · simp [h]
    rw [if_neg h1, h1b, Bool.false_or]

theorem installGetFirst_result (w : World) (id : Nat) :
    (appInstallRepo.GetFirst w id).1 =
      match w.installs.find? (fun a => a.ID == id) with
      | some a => (a, none)
      | none => ({}, some ErrRecordNotFound) := by
  unfold appInstallRepo.GetFirst
  split <;> rfl

theorem appGetFirst_result (w : World) (id : Nat) :
    (appRepo.GetFirst w id).1 =
      match w.apps.find? (fun a => a.ID == id) with
      | some a => (a, none)
      | none => ({}, some ErrRecordNotFound) := by
  unfold appRepo.GetFirst
  split <;> rfl

theorem propagate_cons_err (env : Env) (v : String) (i : Nat) (l : AppInstallResource)
    (rest : List AppInstallResource) (W : World) (e : Err)
    (h : stepErr env W.installs W.apps i l = some e) :
    (propagate env v i (l :: rest) W).1 = some e ∧
    (propagate env v i (l :: rest) W).2.installs = W.installs := by
  unfold stepErr linkTarget at h
  unfold propagate
  simp only [installGetFirst_world, appGetFirst_world, installGetFirst_result,
    appGetFirst_result, emit]
  cases hf : W.installs.find? (fun a => a.ID == l.AppInstallId) with
  | none =>
    rw [hf] at h
    simp only [Option.some.injEq] at h
    simp [h]
  | some a =>
    rw [hf] at h
    simp only [] at h ⊢
    cases hp : W.apps.find? (fun p => p.ID == a.AppId) with
    | none =>
      rw [hp] at h
      simp only [Option.some.injEq] at h
      simp [h]
    | some p =>
      rw [hp] at h
      simp only [] at h ⊢
      simp [updateInstallInfoInDB, h, emit]

theorem propagate_cons_ok (env : Env) (v : String) (i : Nat) (l : AppInstallResource)
    (rest : List AppInstallResource) (W : World) (t : String × String)
    (ht : linkTarget W.installs W.apps l = .ok t)
    (hu : env.updateInstallErr i t.1 t.2 "user-password" = none) :
    ∃ W2, propagate env v i (l :: rest) W = propagate env v (i + 1) rest W2 ∧
      W2.installs = W.installs.map (fun a =>
        if a.Name = t.2 ∧ keyOf W.apps a = some t.1 then setSecret a "user-password" v else a) ∧
      W2.apps = W.apps := by
  unfold linkTarget at ht
  cases hf : W.installs.find? (fun a => a.ID == l.AppInstallId) with
  | none => rw [hf] at ht; cases ht
  | some a =>
    rw [hf] at ht
    simp only [] at ht
    cases hp : W.apps.find? (fun p => p.ID == a.AppId) with
    | none => rw [hp] at ht; cases ht
    | some p =>
      rw [hp] at ht
      simp only [Except.ok.injEq] at ht
      subst ht
      simp only [] at hu
      refine ⟨emit { emit (emit W (.installGetFirst l.AppInstallId)) (.appGetFirst a.AppId) with
          installs := W.installs.map (fun x =>
            if x.Name = a.Name ∧ keyOf W.apps x = some p.Key
            then setSecret x "user-password" v else x) }
        (.updateInstallInfo p.Key a.Name "user-password" v), ?_, rfl, rfl⟩
      have happs : ∀ (w : World) (ev : Event), (emit w ev).apps = w.apps := fun _ _ => rfl
      rw [propagate]
      simp only [installGetFirst_world, appGetFirst_world, installGetFirst_result,
        appGetFirst_result, hf, happs, hp, updateInstallInfoInDB, hu]
      rfl

/-! ## The propagation loop as a whole -/

theorem stepErr_map (env : Env) (installs : List AppInstall) (apps : List App)
    (k n v : String) (i : Nat) (l : AppInstallResource) :
    stepErr env (installs.map (fun a =>
        if a.Name = n ∧ keyOf apps a = some k then setSecret a "user-password" v else a))
      apps i l = stepErr env installs apps i l := by
  unfold stepErr
  rw [linkTarget_map installs apps _ (fun a => rewrite_fields apps k n v a) l]

theorem stepErr_none (env : Env) (installs : List AppInstall) (apps : List App) (i : Nat)
    (l : AppInstallResource) (h : stepErr env installs apps i l = none) :
    ∃ t, linkTarget installs apps l = .ok t ∧
      env.updateInstallErr i t.1 t.2 "user-password" = none := by
  unfold stepErr at h
  cases ht : linkTarget installs apps l with
  | error e => rw [ht] at h; cases h
  | ok t => rw [ht] at h; exact ⟨t, rfl, h⟩

theorem propagate_all_ok (env : Env) (v : String) :
    ∀ (ls : List AppInstallResource) (i : Nat) (W : World),
      (∀ j l, ls[j]? = some l → stepErr env W.installs W.apps (i + j) l = none) →
      (propagate env v i ls W).1 = none ∧
      (propagate env v i ls W).2.installs = rotated W.installs W.apps v ls
  | [], i, W, _ => by simp [propagate, rotated_nil]
  | l :: rest, i, W, h => by
    obtain ⟨t, ht, hu⟩ := stepErr_none env W.installs W.apps i l (by simpa using h 0 l (by simp))
    obtain ⟨W2, heq, hin, hap⟩ := propagate_cons_ok env v i l rest W t ht hu
    have ih := propagate_all_ok env v rest (i + 1) W2 (by
      intro j l2 hj
      rw [hin, hap, stepErr_map]
      have := h (j + 1) l2 (by simpa using hj)
      rwa [show i + (j + 1) = i + 1 + j by omega] at this)
    rw [heq, ih.2, hin, hap]
    exact ⟨ih.1, rotated_cons W.installs W.apps v l rest t ht⟩

theorem propagate_fails_at (env : Env) (v : String) :
    ∀ (ls : List AppInstallResource) (i : Nat) (W : World) (k : Nat)
      (lk : AppInstallResource) (e : Err),
      (∀ j l, j < k → ls[j]? = some l → stepErr env W.installs W.apps (i + j) l = none) →
      ls[k]? = some lk → stepErr env W.installs W.apps (i + k) lk = some e →
      (propagate env v i ls W).1 = some e ∧
      (propagate env v i ls W).2.installs = rotated W.installs W.apps v (ls.take k)
  | [], _, _, _, _, _, _, hk, _ => by simp at hk
  | l :: rest, i, W, 0, lk, e, _, hk, he => by
    simp only [List.getElem?_cons_zero, Option.some.injEq] at hk
    subst hk
    have := propagate_cons_err env v i l rest W e (by simpa using he)
    simpa [rotated_nil] using this
  | l :: rest, i, W, k + 1, lk, e, h, hk, he => by
    obtain ⟨t, ht, hu⟩ := stepErr_none env W.installs W.apps i l
      (by simpa using h 0 l (by omega) (by simp))
    obtain ⟨W2, heq, hin, hap⟩ := propagate_cons_ok env v i l rest W t ht hu
    have ih := propagate_fails_at env v rest (i + 1) W2 k lk e (by
        intro j l2 hjk hj
        rw [hin, hap, stepErr_map]
        have := h (j + 1) l2 (by omega) (by simpa using hj)
        rwa [show i + (j + 1) = i + 1 + j by omega] at this)
      (by simpa using hk)
      (by
        rw [hin, hap, stepErr_map]
        rwa [show i + (k + 1) = i + 1 + k by omega] at he)
    rw [heq, ih.2, hin, hap]
    exact ⟨ih.1, by simpa using rotated_cons W.installs W.apps v l (rest.take k) t ht⟩

/-- The credentials of the links whose rewrite was applied hold the new value. -/
theorem credential_rotated (installs : List AppInstall) (apps : List App) (v : String)
    (ls : List AppInstallResource) (l : AppInstallResource) (t : String × String)
    (hl : l ∈ ls) (ht : linkTarget installs apps l = .ok t) :
    credential (rotated installs apps v ls) l = some v := by
  unfold credential rotated
  rw [find_install_map installs _ (by intro a; split <;> rfl)]
  unfold linkTarget at ht
  cases hf : installs.find? (fun a => a.ID == l.AppInstallId) with
  | none => rw [hf] at ht; cases ht
  | some a =>
    rw [hf] at ht
    simp only [] at ht
    cases hp : apps.find? (fun p => p.ID == a.AppId) with
    | none => rw [hp] at ht; cases ht
    | some p =>
      rw [hp] at ht
      simp only [Except.ok.injEq] at ht
      have htouched : touchedBy installs apps ls a = true := by
        unfold touchedBy
        rw [List.any_eq_true]
        refine ⟨l, hl, ?_⟩
        simp [linkTarget, hf, hp, keyOf]
      simp [htouched]

/-- An installation no applied rewrite touches is left as it was. -/
theorem untouched_rotated (installs : List AppInstall) (apps : List App) (v : String)
    (ls : List AppInstallResource) (a : AppInstall) (ha : a ∈ installs)
    (hno : touchedBy installs apps ls a = false) :
    a ∈ rotated installs apps v ls := by
  unfold rotated
  refine List.mem_map.mpr ⟨a, ha, ?_⟩
  simp [hno]

theorem pgUpdate_installs (env : Env) (w : World) (id : Nat) (f v : String) :
    (postgresqlRepo.Update env w id f v).2.installs = w.installs := by
  unfold postgresqlRepo.Update
  split <;> rfl

theorem changePassword_afterEngine_rotation (env : Env) (W : World) (req : ChangeDBInfo)
    (pd : DatabasePostgresql) (app : RootInfo) (hid : req.ID ≠ 0)
    (hbase : req.From = "local" → env.LoadBaseInfo req.Type_ req.Database = .ok app) :
    (∀ pass,
      (∀ j l, (linksOf env W req app pd)[j]? = some l →
        stepErr env W.installs W.apps j l = none) →
      env.StringEncrypt req.Value = .ok pass →
      (ChangePassword.afterEngine env W req pd).1 = none ∧
      (ChangePassword.afterEngine env W req pd).2.installs =
        rotated W.installs W.apps req.Value (linksOf env W req app pd) ∧
      (ChangePassword.afterEngine env W req pd).2.postgresqls =
        if env.pgUpdateErr pd.ID "password" pass = none then
          W.postgresqls.map (fun r => if r.ID = pd.ID then setField r "password" pass else r)
        else W.postgresqls) ∧
    (∀ e,
      (∀ j l, (linksOf env W req app pd)[j]? = some l →
        stepErr env W.installs W.apps j l = none) →
      env.StringEncrypt req.Value = .error e →
      (ChangePassword.afterEngine env W req pd).1 =
        some ("decrypt database db password failed, err: " ++ e) ∧
      (ChangePassword.afterEngine env W req pd).2.installs =
        rotated W.installs W.apps req.Value (linksOf env W req app pd) ∧
      (ChangePassword.afterEngine env W req pd).2.postgresqls = W.postgresqls) ∧
    (∀ k lk e,
      (∀ j l, j < k → (linksOf env W req app pd)[j]? = some l →
        stepErr env W.installs W.apps j l = none) →
      (linksOf env W req app pd)[k]? = some lk →
      stepErr env W.installs W.apps k lk = some e →
      (ChangePassword.afterEngine env W req pd).1 = some e ∧
      (ChangePassword.afterEngine env W req pd).2.installs =
        rotated W.installs W.apps req.Value ((linksOf env W req app pd).take k) ∧
      (ChangePassword.afterEngine env W req pd).2.postgresqls = W.postgresqls) := by
  have hshape : ∃ wq : World, wq.installs = W.installs ∧ wq.apps = W.apps ∧
      wq.postgresqls = W.postgresqls ∧
      ChangePassword.afterEngine env W req pd =
        (match (propagate env req.Value 0 (linksOf env W req app pd) wq).1 with
          | some e => (some e, (propagate env req.Value 0 (linksOf env W req app pd) wq).2)
          | none =>
            match env.StringEncrypt req.Value with
            | .error e => (some ("decrypt database db password failed, err: " ++ e),
                emit (propagate env req.Value 0 (linksOf env W req app pd) wq).2
                  (.encrypt req.Value))
            | .ok pass => ((none : Option Err),
                (postgresqlRepo.Update env
                  (emit (propagate env req.Value 0 (linksOf env W req app pd) wq).2
                    (.encrypt req.Value)) pd.ID "password" pass).2)) := by
    unfold ChangePassword.afterEngine
    by_cases hl : req.From = "local"
    · refine ⟨emit (emit W (.loadBaseInfo req.Type_ req.Database))
        (.resGetBy [.WithLinkId app.ID, .WithResourceId pd.ID]), rfl, rfl, rfl, ?_⟩
      have hq := resGetBy_result env W (emit W (.loadBaseInfo req.Type_ req.Database))
        [.WithLinkId app.ID, .WithResourceId pd.ID] rfl
      simp only [hid, ne_eq, not_false_eq_true, ↓reduceIte, hl, appInstallRepo.LoadBaseInfo,
        hbase hl, resGetBy_world, hq, linksOf, linkFilters]
    · refine ⟨emit W (.resGetBy [.WithResourceId pd.ID]), rfl, rfl, rfl, ?_⟩
      simp only [hid, ne_eq, not_false_eq_true, ↓reduceIte, hl, resGetBy_world,
        linksOf, linkFilters]
  obtain ⟨wq, hin, hap, hpg, heq⟩ := hshape
  obtain ⟨evs, -, -, hp3⟩ := propagate_trace env req.Value (linksOf env W req app pd) 0 wq
  rw [heq]
  refine ⟨fun pass hall henc => ?_, fun e hall henc => ?_, fun k lk e hpre hk he => ?_⟩
  rotate_left
  · obtain ⟨a, b⟩ := propagate_all_ok env req.Value (linksOf env W req app pd) 0 wq (by
      intro j l hj
      rw [hin, hap, Nat.zero_add]
      exact hall j l hj)
    simp only [a, henc, true_and]
    refine ⟨?_, ?_⟩
    · show (propagate env req.Value 0 (linksOf env W req app pd) wq).2.installs = _
      rw [b, hin, hap]
    · show (propagate env req.Value 0 (linksOf env W req app pd) wq).2.postgresqls = _
      rw [hp3, hpg]
  rotate_left
  · obtain ⟨a, b⟩ := propagate_all_ok env req.Value (linksOf env W req app pd) 0 wq (by
      intro j l hj
      rw [hin, hap, Nat.zero_add]
      exact hall j l hj)
    simp only [a, henc, pgUpdate_installs, pgUpdate_postgresqls, true_and]
    refine ⟨?_, ?_⟩
    · show (propagate env req.Value 0 (linksOf env W req app pd) wq).2.installs = _
      rw [b, hin, hap]
    · show (if _ then List.map _ (propagate env req.Value 0 (linksOf env W req app pd)
        wq).2.postgresqls else (propagate env req.Value 0 (linksOf env W req app pd)
        wq).2.postgresqls) = _
      rw [hp3, hpg]
  · obtain ⟨a, b⟩ := propagate_fails_at env req.Value (linksOf env W req app pd) 0 wq k lk e (by
        intro j l hjk hj
        rw [hin, hap, Nat.zero_add]
        exact hpre j l hjk hj)
      hk (by rw [hin, hap, Nat.zero_add]; exact he)
    simp only [a, true_and]
    rw [b, hin, hap, hp3, hpg]
    exact ⟨rfl, rfl⟩

/-! ## C9: the rotation of linked credentials -/

theorem linksOf_congr (env : Env) (w w2 : World) (req : ChangeDBInfo) (app : RootInfo)
    (db : DatabasePostgresql) (h : w2.resources = w.resources) :
    linksOf env w2 req app db = linksOf env w req app db := by
  unfold linksOf
  rw [resGetBy_result env w w2 _ h]

/-- A link query that does not fail answers the links of the table that meet
its filters, in table order. -/
theorem linksOf_table (env : Env) (w : World) (req : ChangeDBInfo) (app : RootInfo)
    (db : DatabasePostgresql) (h : env.resGetByErr (linkFilters req app db) = none) :
    linksOf env w req app db =
      w.resources.filter (fun r => (linkFilters req app db).all (fun f => f.holds r)) := by
  unfold linksOf appInstallResourceRepo.GetBy
  rw [h]

/-- A link query that fails answers no link. -/
theorem linksOf_failed (env : Env) (w : World) (req : ChangeDBInfo) (app : RootInfo)
    (db : DatabasePostgresql) (e : Err) (h : env.resGetByErr (linkFilters req app db) = some e) :
    linksOf env w req app db = [] := by
  unfold linksOf appInstallResourceRepo.GetBy
  rw [h]

/-- C9 as stated fails, in two ways.  Both linked credentials of `app_db` are
rewritten to the new value after the engine-side change, every rewrite
succeeds, but the new password cannot be encrypted: `ChangePassword` returns an
error instead of success and the stored password of the catalog row is the old
one, not an encryption of the new value.  And when the link query fails, its
error is discarded: the two installations linked to `app_db` in the table are
not visited, `ChangePassword` succeeds and stores the encryption of the new
value, while both linked credentials still hold the old one. -/
theorem rotation_counterexample :
    (rotateAppDb.ID ≠ 0 ∧
    linksOf noEncryption linkedWorld rotateAppDb {} appDb =
      [{ AppInstallId := 7, ResourceId := 1 }, { AppInstallId := 8, ResourceId := 1 }] ∧
    Event.cliChangePassword rotateInfo ∈
      calls linkedWorld (ChangePassword noEncryption linkedWorld rotateAppDb).2 ∧
    noEncryption.cliChangePassword rotateInfo = none ∧
    (∀ i k n p, noEncryption.updateInstallErr i k n p = none) ∧
    (∀ l ∈ linksOf noEncryption linkedWorld rotateAppDb {} appDb,
      stepErr noEncryption linkedWorld.installs linkedWorld.apps 0 l = none ∧
      credential (ChangePassword noEncryption linkedWorld rotateAppDb).2.installs l
        = some "n3w") ∧
    (ChangePassword noEncryption linkedWorld rotateAppDb).1 =
      some "decrypt database db password failed, err: encrypt key not set" ∧
    (ChangePassword noEncryption linkedWorld rotateAppDb).2.postgresqls = [appDb] ∧
    appDb.Password = "p1") ∧
    (linkedWorld.resources.filter
        (fun r => (linkFilters rotateAppDb {} appDb).all (fun f => f.holds r)) =
      [{ AppInstallId := 7, ResourceId := 1 }, { AppInstallId := 8, ResourceId := 1 }] ∧
    Event.cliChangePassword rotateInfo ∈
      calls linkedWorld (ChangePassword linkQueryFails linkedWorld rotateAppDb).2 ∧
    linkQueryFails.cliChangePassword rotateInfo = none ∧
    (∀ i k n p, linkQueryFails.updateInstallErr i k n p = none) ∧
    (ChangePassword linkQueryFails linkedWorld rotateAppDb).1 = none ∧
    (ChangePassword linkQueryFails linkedWorld rotateAppDb).2.postgresqls =
      [{ appDb with Password := "enc:n3w" }] ∧
    (ChangePassword linkQueryFails linkedWorld rotateAppDb).2.installs =
      linkedWorld.installs ∧
    credential (ChangePassword linkQueryFails linkedWorld rotateAppDb).2.installs
      { AppInstallId := 7, ResourceId := 1 } = some "p1" ∧
    credential (ChangePassword linkQueryFails linkedWorld rotateAppDb).2.installs
      { AppInstallId := 8, ResourceId := 1 } = some "p1") := by
  refine ⟨⟨by decide, rfl, by decide, rfl, fun _ _ _ _ => rfl, ?_, rfl, rfl, rfl⟩,
    ⟨rfl, by decide, rfl, fun _ _ _ _ => rfl, rfl, rfl, rfl, rfl, rfl⟩⟩
  intro l hl
  have hls : linksOf noEncryption linkedWorld rotateAppDb {} appDb =
    [{ AppInstallId := 7, ResourceId := 1 }, { AppInstallId := 8, ResourceId := 1 }] := rfl
  rw [hls] at hl
  simp only [List.mem_cons, List.mem_singleton, List.not_mem_nil, or_false] at hl
  rcases hl with rfl | rfl <;> exact ⟨rfl, rfl⟩

/-- C9, amended: for a `ChangePassword` request free of illegal characters on
the existing catalog row `db` (ID non-zero), whose engine instance resolves,
whose engine-side password change succeeds and whose link query answers the
links `linksOf` (those of the table, or none when the query fails, its error
being discarded; on a local origin the base info is found): the rewrites go
through these links in order.  If every rewrite succeeds and the new value can
be encrypted to `pass`, the operation succeeds, the installations are the old
ones with the user-password of those the links lead to set to the new value,
so that every link's credential holds the new value, and the password of the
row is `pass` if the catalog update succeeds, the catalog being unchanged if it
fails.  If every rewrite succeeds and the encryption fails with `e`, the
operation returns the error built from `e`, every link's credential holds the
new value all the same, and the catalog is unchanged.  If the rewrites before
position `k` succeed and the one at position `k` fails with `e` (its
installation or application is not found, or the rewrite fails), the operation
returns `e`, exactly the rewrites of the first `k` links are applied, every
other installation is as before, and the catalog is unchanged. -/
theorem rotation_outcomes (env : Env) (w : World) (req : ChangeDBInfo)
    (db : DatabasePostgresql) (cv : DBInfo × String) (app : RootInfo)
    (hlegal : env.CheckIllegal [req.Value] = false) (hid : req.ID ≠ 0)
    (hrow : (postgresqlRepo.Get env w [.WithByID req.ID]).1 = (db, none))
    (hres : (LoadPostgresqlClientByFrom env w req.Database).1 = .ok cv)
    (hengine : env.cliChangePassword
      { Name := db.Name, Username := db.Username, Password := req.Value,
        Version := cv.2, Timeout := 300 } = none)
    (hbase : req.From = "local" → env.LoadBaseInfo req.Type_ req.Database = .ok app) :
    (∀ pass,
      (∀ j l, (linksOf env w req app db)[j]? = some l →
        stepErr env w.installs w.apps j l = none) →
      env.StringEncrypt req.Value = .ok pass →
      (ChangePassword env w req).1 = none ∧
      (ChangePassword env w req).2.installs =
        rotated w.installs w.apps req.Value (linksOf env w req app db) ∧
      (∀ l ∈ linksOf env w req app db,
        credential (ChangePassword env w req).2.installs l = some req.Value) ∧
      (env.pgUpdateErr req.ID "password" pass = none →
        (ChangePassword env w req).2.postgresqls =
          w.postgresqls.map (fun r => if r.ID = req.ID then { r with Password := pass }
            else r)) ∧
      (env.pgUpdateErr req.ID "password" pass ≠ none →
        (ChangePassword env w req).2.postgresqls = w.postgresqls)) ∧
    (∀ e,
      (∀ j l, (linksOf env w req app db)[j]? = some l →
        stepErr env w.installs w.apps j l = none) →
      env.StringEncrypt req.Value = .error e →
      (ChangePassword env w req).1 =
        some ("decrypt database db password failed, err: " ++ e) ∧
      (ChangePassword env w req).2.installs =
        rotated w.installs w.apps req.Value (linksOf env w req app db) ∧
      (∀ l ∈ linksOf env w req app db,
        credential (ChangePassword env w req).2.installs l = some req.Value) ∧
      (ChangePassword env w req).2.postgresqls = w.postgresqls) ∧
    (∀ k lk e,
      (∀ j l, j < k → (linksOf env w req app db)[j]? = some l →
        stepErr env w.installs w.apps j l = none) →
      (linksOf env w req app db)[k]? = some lk →
      stepErr env w.installs w.apps k lk = some e →
      (ChangePassword env w req).1 = some e ∧
      (ChangePassword env w req).2.installs =
        rotated w.installs w.apps req.Value ((linksOf env w req app db).take k) ∧
      (∀ l ∈ (linksOf env w req app db).take k,
        credential (ChangePassword env w req).2.installs l = some req.Value) ∧
      (∀ a ∈ w.installs,
        touchedBy w.installs w.apps ((linksOf env w req app db).take k) a = false →
        a ∈ (ChangePassword env w req).2.installs) ∧
      (ChangePassword env w req).2.postgresqls = w.postgresqls) := by
  obtain ⟨evs, hw, -⟩ := resolve_world env w req.Database
  obtain ⟨-, hdb⟩ := pgGet_byID env w req.ID db hrow
  have hrow2 := (pgGet_result_trace env w evs [.WithByID req.ID]).trans hrow
  have key := changePassword_afterEngine_rotation env
    (emit (emit { w with trace := w.trace ++ evs } (.pgGet [.WithByID req.ID]))
      (.cliChangePassword { Name := db.Name, Username := db.Username, Password := req.Value,
                            Version := cv.2, Timeout := 300 })) req db app hid hbase
  have hL : linksOf env
      (emit (emit { w with trace := w.trace ++ evs } (.pgGet [.WithByID req.ID]))
        (.cliChangePassword { Name := db.Name, Username := db.Username,
                              Password := req.Value, Version := cv.2, Timeout := 300 }))
      req app db = linksOf env w req app db := linksOf_congr env w _ req app db rfl
  rw [hL] at key
  have hCP : ChangePassword env w req =
      ((ChangePassword.afterEngine env
        (emit (emit { w with trace := w.trace ++ evs } (.pgGet [.WithByID req.ID]))
          (.cliChangePassword { Name := db.Name, Username := db.Username,
                                Password := req.Value, Version := cv.2,
                                Timeout := 300 })) req db).1,
       emit (ChangePassword.afterEngine env
        (emit (emit { w with trace := w.trace ++ evs } (.pgGet [.WithByID req.ID]))
          (.cliChangePassword { Name := db.Name, Username := db.Username,
                                Password := req.Value, Version := cv.2,
                                Timeout := 300 })) req db).2 .cliClose) := by
    unfold ChangePassword
    simp only [hlegal, Bool.false_eq_true, ↓reduceIte, hres, hw, pgGet_world, hid, ne_eq,
      not_false_eq_true, hrow2, hengine]
  have hcred : ∀ (ls : List AppInstallResource) (installs2 : List AppInstall),
      installs2 = rotated w.installs w.apps req.Value ls →
      (∀ j l, ls[j]? = some l → stepErr env w.installs w.apps j l = none) →
      ∀ l ∈ ls, credential installs2 l = some req.Value := by
    intro ls installs2 hi hall l hl
    obtain ⟨j, hj⟩ := List.mem_iff_getElem?.mp hl
    obtain ⟨t, ht, -⟩ := stepErr_none env w.installs w.apps j l (hall j l hj)
    rw [hi]
    exact credential_rotated w.installs w.apps req.Value ls l t hl ht
  rw [hCP]
  refine ⟨fun pass hall henc => ?_, fun e hall henc => ?_, fun k lk e hpre hk he => ?_⟩
  · obtain ⟨a, b, c⟩ := key.1 pass hall henc
    refine ⟨a, b, hcred _ _ b hall, fun hu => ?_, fun hu => ?_⟩
    · have c2 := c
      rw [hdb, if_pos hu] at c2
      refine c2.trans ?_
      apply List.map_congr_left
      intro r _
      simp [setField]
    · have c2 := c
      rw [hdb, if_neg hu] at c2
      exact c2
  · obtain ⟨a, b, c⟩ := key.2.1 e hall henc
    exact ⟨a, b, hcred _ _ b hall, c⟩
  · obtain ⟨a, b, c⟩ := key.2.2 k lk e hpre hk he
    refine ⟨a, b, fun l hl => ?_, fun x hx hno => ?_, c⟩
    · obtain ⟨j, hj⟩ := List.mem_iff_getElem?.mp hl
      rw [List.getElem?_take] at hj
      split at hj
      · rename_i hjk
        obtain ⟨t, ht, -⟩ := stepErr_none env w.installs w.apps j l (hpre j l hjk hj)
        have := credential_rotated w.installs w.apps req.Value
          ((linksOf env w req app db).take k) l t hl ht
        rw [← this]
        exact congrArg (fun x => credential x l) b
      · cases hj
    · have := untouched_rotated w.installs w.apps req.Value
        ((linksOf env w req app db).take k) x hx hno
      exact (congrArg (fun y => x ∈ y) b).mpr this

/-- Witness of C9 amended: of the two links of `app_db` the second rewrite
fails; a rotation in which everything succeeds; and one in which both rewrites
succeed and the encryption fails. -/
theorem rotation_outcomes_witness :
    ((ChangePassword secondRewriteFails linkedWorld rotateAppDb).1 = some "restart failed" ∧
      (ChangePassword secondRewriteFails linkedWorld rotateAppDb).2.installs =
        [{ ID := 7, Name := "blog", AppId := 3, UserPassword := "n3w" },
         { ID := 8, Name := "git", AppId := 4, UserPassword := "p1" }] ∧
      (ChangePassword secondRewriteFails linkedWorld rotateAppDb).2.postgresqls = [appDb]) ∧
    ((ChangePassword prefixEncryption linkedWorld rotateAppDb).1 = none ∧
      (ChangePassword prefixEncryption linkedWorld rotateAppDb).2.installs =
        [{ ID := 7, Name := "blog", AppId := 3, UserPassword := "n3w" },
         { ID := 8, Name := "git", AppId := 4, UserPassword := "n3w" }] ∧
      (ChangePassword prefixEncryption linkedWorld rotateAppDb).2.postgresqls =
        [{ appDb with Password := "enc:n3w" }]) ∧
    ((ChangePassword noEncryption linkedWorld rotateAppDb).1 =
        some "decrypt database db password failed, err: encrypt key not set" ∧
      (ChangePassword noEncryption linkedWorld rotateAppDb).2.installs =
        [{ ID := 7, Name := "blog", AppId := 3, UserPassword := "n3w" },
         { ID := 8, Name := "git", AppId := 4, UserPassword := "n3w" }] ∧
      (ChangePassword noEncryption linkedWorld rotateAppDb).2.postgresqls = [appDb]) := by
  have hfail := (rotation_outcomes secondRewriteFails linkedWorld rotateAppDb appDb pgAClient {}
    rfl (by decide) rfl rfl rfl (fun h => absurd h (by decide))).2.2 1
    { AppInstallId := 8, ResourceId := 1 } "restart failed"
    (fun j l hj hl => by
      have hls : linksOf secondRewriteFails linkedWorld rotateAppDb {} appDb =
        [{ AppInstallId := 7, ResourceId := 1 }, { AppInstallId := 8, ResourceId := 1 }] := rfl
      rw [hls] at hl
      have : j = 0 := by omega
      subst this
      simp at hl
      subst hl
      rfl)
    rfl rfl
  have hok := (rotation_outcomes prefixEncryption linkedWorld rotateAppDb appDb pgAClient {}
    rfl (by decide) rfl rfl rfl (fun h => absurd h (by decide))).1 "enc:n3w"
    (fun j l hl => by
      have hls : linksOf prefixEncryption linkedWorld rotateAppDb {} appDb =
        [{ AppInstallId := 7, ResourceId := 1 }, { AppInstallId := 8, ResourceId := 1 }] := rfl
      rw [hls] at hl
      rcases j with _ | _ | j
      · simp at hl; subst hl; rfl
      · simp at hl; subst hl; rfl
      · simp at hl)
    rfl
  have henc := (rotation_outcomes noEncryption linkedWorld rotateAppDb appDb pgAClient {}
    rfl (by decide) rfl rfl rfl (fun h => absurd h (by decide))).2.1 "encrypt key not set"
    (fun j l hl => by
      have hls : linksOf noEncryption linkedWorld rotateAppDb {} appDb =
        [{ AppInstallId := 7, ResourceId := 1 }, { AppInstallId := 8, ResourceId := 1 }] := rfl
      rw [hls] at hl
      rcases j with _ | _ | j
      · simp at hl; subst hl; rfl
      · simp at hl; subst hl; rfl
      · simp at hl)
    rfl
  exact ⟨⟨hfail.1, hfail.2.1, hfail.2.2.2.2⟩, ⟨hok.1, hok.2.1, hok.2.2.2.1 rfl⟩,
    ⟨henc.1, henc.2.1, henc.2.2.2⟩⟩

/-! ## C10: a failed catalog update after a successful engine command -/

theorem updateInstall_postgresqls (env : Env) (w : World) (i : Nat) (k n p v : String) :
    (updateInstallInfoInDB env w i k n p v).2.postgresqls = w.postgresqls ∧
    (updateInstallInfoInDB env w i k n p v).2.trace =
      w.trace ++ [.updateInstallInfo k n p v] := by
  unfold updateInstallInfoInDB
  split <;> exact ⟨rfl, rfl⟩

theorem changePassword_afterEngine_persist (env : Env) (W : World) (req : ChangeDBInfo)
    (pd : DatabasePostgresql) (id : Nat) (f v : String) (e : Err)
    (herr : env.pgUpdateErr id f v = some e) :
    ∃ evsA, (ChangePassword.afterEngine env W req pd).2.trace = W.trace ++ evsA ∧
      (Event.pgUpdate id f v ∈ evsA →
        (ChangePassword.afterEngine env W req pd).1 = none ∧
        (ChangePassword.afterEngine env W req pd).2.postgresqls = W.postgresqls) := by
  unfold ChangePassword.afterEngine
  by_cases hid : req.ID = 0
  · simp only [hid, ne_eq, not_true_eq_false, ↓reduceIte]
    refine ⟨[.updateInstallInfo req.Type_ req.Database "password" req.Value], ?_, by simp⟩
    split <;> exact (updateInstall_postgresqls env W 0 _ _ _ _).2
  · simp only [hid, ne_eq, not_false_eq_true, ↓reduceIte]
    have tail : ∀ (l : List AppInstallResource) (wq : World) (pre : List Event),
        wq.trace = W.trace ++ pre → Event.pgUpdate id f v ∉ pre →
        wq.postgresqls = W.postgresqls →
        ∃ evsA, (match (propagate env req.Value 0 l wq).1 with
          | some e => (some e, (propagate env req.Value 0 l wq).2)
          | none =>
            match env.StringEncrypt req.Value with
            | .error e => (some ("decrypt database db password failed, err: " ++ e),
                emit (propagate env req.Value 0 l wq).2 (.encrypt req.Value))
            | .ok pass => ((none : Option Err),
                (postgresqlRepo.Update env (emit (propagate env req.Value 0 l wq).2
                  (.encrypt req.Value)) pd.ID "password" pass).2)).2.trace = W.trace ++ evsA ∧
          (Event.pgUpdate id f v ∈ evsA →
            (match (propagate env req.Value 0 l wq).1 with
            | some e => (some e, (propagate env req.Value 0 l wq).2)
            | none =>
              match env.StringEncrypt req.Value with
              | .error e => (some ("decrypt database db password failed, err: " ++ e),
                  emit (propagate env req.Value 0 l wq).2 (.encrypt req.Value))
              | .ok pass => ((none : Option Err),
                  (postgresqlRepo.Update env (emit (propagate env req.Value 0 l wq).2
                    (.encrypt req.Value)) pd.ID "password" pass).2)).1 = none ∧
            (match (propagate env req.Value 0 l wq).1 with
            | some e => (some e, (propagate env req.Value 0 l wq).2)
            | none =>
              match env.StringEncrypt req.Value with
              | .error e => (some ("decrypt database db password failed, err: " ++ e),
                  emit (propagate env req.Value 0 l wq).2 (.encrypt req.Value))
              | .ok pass => ((none : Option Err),
                  (postgresqlRepo.Update env (emit (propagate env req.Value 0 l wq).2
                    (.encrypt req.Value)) pd.ID "password" pass).2)).2.postgresqls
              = W.postgresqls) := by
      intro l wq pre hpre hnpre hpg
      obtain ⟨evs, h1, h2, h3⟩ := propagate_trace env req.Value l 0 wq
      have hnev : Event.pgUpdate id f v ∉ evs := fun h => by
        simpa [Event.isLinkStep] using h2 _ h
      cases hp : (propagate env req.Value 0 l wq).1 with
      | some e2 =>
        refine ⟨pre ++ evs, by simp [h1, hpre], ?_⟩
        intro h
        simp [hnpre, hnev] at h
      | none =>
        cases he : env.StringEncrypt req.Value with
        | error e2 =>
          refine ⟨pre ++ evs ++ [.encrypt req.Value], by simp [emit, h1, hpre], ?_⟩
          intro h
          simp [hnpre, hnev] at h
        | ok pass =>
          refine ⟨pre ++ evs ++ [.encrypt req.Value, .pgUpdate pd.ID "password" pass], ?_, ?_⟩
          · simp only [postgresqlRepo.Update]
            split <;> simp [emit, h1, hpre]
          · intro h
            simp [hnpre, hnev] at h
            obtain ⟨rfl, rfl, rfl⟩ := h
            simp [postgresqlRepo.Update, herr, emit, h3, hpg]
    by_cases hl : req.From = "local"
    · simp only [hl, ↓reduceIte, appInstallRepo.LoadBaseInfo, resGetBy_world]
      cases hb : env.LoadBaseInfo req.Type_ req.Database with
      | error e => exact ⟨[.loadBaseInfo req.Type_ req.Database], by simp [emit], by simp⟩
      | ok app =>
        exact tail _ _ [.loadBaseInfo req.Type_ req.Database,
          .resGetBy [.WithLinkId app.ID, .WithResourceId pd.ID]] (by simp [emit]) (by simp) rfl
    · simp only [hl, ↓reduceIte, resGetBy_world]
      exact tail _ _ [.resGetBy [.WithResourceId pd.ID]] (by simp [emit]) (by simp) rfl

theorem changePassword_persist_failure (env : Env) (w : World) (req : ChangeDBInfo)
    (id : Nat) (f v : String) (e : Err)
    (hcall : Event.pgUpdate id f v ∈ calls w (ChangePassword env w req).2)
    (herr : env.pgUpdateErr id f v = some e) :
    (ChangePassword env w req).1 = none ∧
      (ChangePassword env w req).2.postgresqls = w.postgresqls := by
  obtain ⟨evs, hw, hev⟩ := resolve_world env w req.Database
  have hnot : Event.pgUpdate id f v ∉ evs :=
    fun h => by simpa [Event.isResolve] using hev _ h
  have tail : ∀ (info0 : PasswordChangeInfo) (pd : DatabasePostgresql) (W : World),
      W.postgresqls = w.postgresqls →
      (∃ pre, W.trace = w.trace ++ pre ∧ Event.pgUpdate id f v ∉ pre) →
      Event.pgUpdate id f v ∈ calls w
        (emit (match env.cliChangePassword info0 with
          | some e => (some e, emit W (.cliChangePassword info0))
          | none => ChangePassword.afterEngine env (emit W (.cliChangePassword info0)) req pd).2
          .cliClose) →
      (match env.cliChangePassword info0 with
          | some e => (some e, emit W (.cliChangePassword info0))
          | none => ChangePassword.afterEngine env (emit W (.cliChangePassword info0)) req pd).1
        = none ∧
      (emit (match env.cliChangePassword info0 with
          | some e => (some e, emit W (.cliChangePassword info0))
          | none => ChangePassword.afterEngine env (emit W (.cliChangePassword info0)) req pd).2
          .cliClose).postgresqls = w.postgresqls := by
    intro info0 pd W hpg ⟨pre, hpre, hnpre⟩
    cases hc : env.cliChangePassword info0 with
    | some e2 =>
      simp only [calls, emit, hpre]
      simp [hnpre]
    | none =>
      simp only []
      intro hmem
      obtain ⟨evsA, h1, h2⟩ := changePassword_afterEngine_persist env
        (emit W (.cliChangePassword info0)) req pd id f v e herr
      simp only [calls, emit] at hmem h1
      rw [h1, hpre] at hmem
      simp [hnpre] at hmem
      obtain ⟨a, b⟩ := h2 hmem
      exact ⟨a, by rw [← hpg]; exact b⟩
  revert hcall
  unfold ChangePassword
  by_cases hill : env.CheckIllegal [req.Value] = true
  · simp [hill, calls]
  · simp only [hill, hw, pgGet_world, dbGet_world]
    generalize (LoadPostgresqlClientByFrom env w req.Database).1 = res
    cases res with
    | error e2 => simp [calls, hnot]
    | ok cv =>
      by_cases hid : req.ID = 0
      · simp only [hid, ne_eq, not_true_eq_false, ↓reduceIte]
        generalize (databaseRepo.Get _ [DbFilter.WithByType req.Type_,
          DbFilter.WithByFrom req.From]).1 = d
        cases hd : d.2 with
        | some e2 => simp [calls, emit, hnot]
        | none =>
          simp only []
          exact tail _ _ _ rfl ⟨evs ++ [.dbGet [.WithByType req.Type_, .WithByFrom req.From]],
            by simp [emit], by simp [hnot]⟩
      · simp only [hid, ne_eq, not_false_eq_true, ↓reduceIte]
        generalize (postgresqlRepo.Get env _ [PgFilter.WithByID req.ID]).1 = g
        cases hg : g.2 with
        | some e2 => simp [calls, emit, hnot]
        | none =>
          simp only []
          exact tail _ _ _ rfl ⟨evs ++ [.pgGet [.WithByID req.ID]],
            by simp [emit], by simp [hnot]⟩

theorem changeAccess_persist_failure (env : Env) (w : World) (req : ChangeDBInfo)
    (id : Nat) (f v : String) (e : Err)
    (hcall : Event.pgUpdate id f v ∈ calls w (ChangeAccess env w req).2)
    (herr : env.pgUpdateErr id f v = some e) :
    (ChangeAccess env w req).1 = none ∧
      (ChangeAccess env w req).2.postgresqls = w.postgresqls := by
  obtain ⟨evs, hw, hev⟩ := resolve_world env w req.Database
  have hnot : Event.pgUpdate id f v ∉ evs :=
    fun h => by simpa [Event.isResolve] using hev _ h
  have tail : ∀ (info0 : AccessChangeInfo) (pd : DatabasePostgresql) (W : World),
      W.postgresqls = w.postgresqls →
      (∃ pre, W.trace = w.trace ++ pre ∧ Event.pgUpdate id f v ∉ pre) →
      Event.pgUpdate id f v ∈ calls w
        (emit (match env.cliChangeAccess info0 with
          | some e => ((some e : Option Err), emit W (.cliChangeAccess info0))
          | none =>
            if pd.ID ≠ 0 then
              (none, (postgresqlRepo.Update env (emit W (.cliChangeAccess info0)) pd.ID
                "permission" req.Value).2)
            else (none, emit W (.cliChangeAccess info0))).2 .cliClose) →
      (match env.cliChangeAccess info0 with
          | some e => ((some e : Option Err), emit W (.cliChangeAccess info0))
          | none =>
            if pd.ID ≠ 0 then
              (none, (postgresqlRepo.Update env (emit W (.cliChangeAccess info0)) pd.ID
                "permission" req.Value).2)
            else (none, emit W (.cliChangeAccess info0))).1 = none ∧
      (emit (match env.cliChangeAccess info0 with
          | some e => ((some e : Option Err), emit W (.cliChangeAccess info0))
          | none =>
            if pd.ID ≠ 0 then
              (none, (postgresqlRepo.Update env (emit W (.cliChangeAccess info0)) pd.ID
                "permission" req.Value).2)
            else (none, emit W (.cliChangeAccess info0))).2 .cliClose).postgresqls
        = w.postgresqls := by
    intro info0 pd W hpg ⟨pre, hpre, hnpre⟩
    cases hc : env.cliChangeAccess info0 with
    | some e2 =>
      simp only [calls, emit, hpre]
      simp [hnpre]
    | none =>
      by_cases h0 : pd.ID = 0
      · simp only [h0, ne_eq, not_true_eq_false, ↓reduceIte, calls, emit, hpre]
        simp [hnpre]
      · simp only [h0, ne_eq, not_false_eq_true, ↓reduceIte, postgresqlRepo.Update]
        cases hu : env.pgUpdateErr pd.ID "permission" req.Value with
        | some e3 => simp [emit, hpg]
        | none =>
          simp only [calls, emit, hpre]
          simp [hnpre]
          rintro rfl rfl rfl
          rw [hu] at herr
          cases herr
  revert hcall
  unfold ChangeAccess
  by_cases hill : env.CheckIllegal [req.Value] = true
  · simp [hill, calls]
  · simp only [hill, hw, pgGet_world, Bool.false_eq_true, ↓reduceIte]
    generalize (LoadPostgresqlClientByFrom env w req.Database).1 = res
    cases res with
    | error e2 => simp [calls, hnot]
    | ok cv =>
      by_cases hid : req.ID = 0
      · simp only [hid, ne_eq, not_true_eq_false, ↓reduceIte]
        exact tail _ {} { w with trace := w.trace ++ evs } rfl ⟨evs, rfl, hnot⟩
      · simp only [hid, ne_eq, not_false_eq_true, ↓reduceIte]
        generalize (postgresqlRepo.Get env _ [PgFilter.WithByID req.ID]).1 = g
        cases hg : g.2 with
        | some e2 => simp [calls, emit, hnot]
        | none =>
          simp only []
          exact tail _ _ _ rfl ⟨evs ++ [.pgGet [.WithByID req.ID]],
            by simp [emit], by simp [hnot]⟩

/-- C10 as stated fails: for the password change and for the access change of
`app_db` the engine-side command succeeds, the catalog refuses the update, and
the operation returns success with the old row in the catalog. -/
theorem persist_failure_counterexample :
    (rotateAppDb.ID ≠ 0 ∧
      Event.cliChangePassword rotateInfo ∈
        calls oneRow (ChangePassword lockedCatalog oneRow rotateAppDb).2 ∧
      lockedCatalog.cliChangePassword rotateInfo = none ∧
      Event.pgUpdate 1 "password" "enc:n3w" ∈
        calls oneRow (ChangePassword lockedCatalog oneRow rotateAppDb).2 ∧
      lockedCatalog.pgUpdateErr 1 "password" "enc:n3w" = some "database is locked" ∧
      (ChangePassword lockedCatalog oneRow rotateAppDb).1 = none ∧
      (ChangePassword lockedCatalog oneRow rotateAppDb).2.postgresqls = [appDb]) ∧
    (openAppDb.ID ≠ 0 ∧
      Event.cliChangeAccess openInfo ∈
        calls oneRow (ChangeAccess lockedCatalog oneRow openAppDb).2 ∧
      lockedCatalog.cliChangeAccess openInfo = none ∧
      Event.pgUpdate 1 "permission" "172.16.0.0/12" ∈
        calls oneRow (ChangeAccess lockedCatalog oneRow openAppDb).2 ∧
      lockedCatalog.pgUpdateErr 1 "permission" "172.16.0.0/12" = some "database is locked" ∧
      (ChangeAccess lockedCatalog oneRow openAppDb).1 = none ∧
      (ChangeAccess lockedCatalog oneRow openAppDb).2.postgresqls = [appDb]) := by
  refine ⟨⟨by decide, by decide, rfl, by decide, rfl, rfl, rfl⟩,
    ⟨by decide, by decide, rfl, by decide, rfl, rfl, rfl⟩⟩

/-- C10, amended: whenever `ChangePassword` (resp. `ChangeAccess`) has called
the catalog update, which it does only after the engine-side command
succeeded, and the catalog answers that call with an error, the operation
discards the error: it returns success and the catalog is what it was before
the call. -/
theorem persist_failure_discarded (env : Env) (w : World) (req : ChangeDBInfo)
    (id : Nat) (f v : String) (e : Err) (herr : env.pgUpdateErr id f v = some e) :
    (Event.pgUpdate id f v ∈ calls w (ChangePassword env w req).2 →
      (ChangePassword env w req).1 = none ∧
      (ChangePassword env w req).2.postgresqls = w.postgresqls) ∧
    (Event.pgUpdate id f v ∈ calls w (ChangeAccess env w req).2 →
      (ChangeAccess env w req).1 = none ∧
      (ChangeAccess env w req).2.postgresqls = w.postgresqls) :=
  ⟨fun hcall => changePassword_persist_failure env w req id f v e hcall herr,
   fun hcall => changeAccess_persist_failure env w req id f v e hcall herr⟩

/-- Witness of C10 amended: the catalog is locked during the password change
and during the access change of `app_db`. -/
theorem persist_failure_discarded_witness :
    (ChangePassword lockedCatalog oneRow rotateAppDb).1 = none ∧
    (ChangeAccess lockedCatalog oneRow openAppDb).1 = none :=
  ⟨((persist_failure_discarded lockedCatalog oneRow rotateAppDb 1 "password" "enc:n3w"
      "database is locked" rfl).1 (by decide)).1,
   ((persist_failure_discarded lockedCatalog oneRow openAppDb 1 "permission" "172.16.0.0/12"
      "database is locked" rfl).2 (by decide)).1⟩

/-! ## C11: the connection parameters of the resolved client -/

theorem dbGet_found (w : World) (fs : List DbFilter) (item : Database)
    (h : (databaseRepo.Get w fs).1 = (item, none)) :
    w.databases.find? (fun r => fs.all (fun f => f.holds r)) = some item := by
  unfold databaseRepo.Get at h
  cases hf : w.databases.find? (fun r => fs.all (fun f => f.holds r)) with
  | none => rw [hf] at h; simp at h
  | some r =>
    rw [hf] at h
    simp only [Prod.mk.injEq, and_true] at h
    rw [h]

/-- C11: when the engine instance `item` is found under the given name,
`LoadPostgresqlClientByFrom` constructs the client from parameters whose
timeout is 300 and whose database is the given name.  If the origin of `item`
is not local, address, port, username, password, SSL flag, client key, client
certificate, root certificate and skip-verify flag are those of `item` and the
version returned with the client is `item.Version`.  If the origin is local and
the paired base info `app` is found, the address is the container name, the
username and password are those of `app`, the port is `uint(app.Port)` (the
port of `app` whenever that is not negative), and the version returned with
the client is the empty string.  A client that cannot be constructed from these
parameters makes the resolution fail with the constructor's error. -/
theorem resolver_parameters (env : Env) (w : World) (database : String) (item : Database)
    (hitem : (databaseRepo.Get w [.WithByName database]).1 = (item, none)) :
    (item.From ≠ "local" →
      Event.newClient
        { From := item.From, Database := database, Address := item.Address, Port := item.Port,
          Username := item.Username, Password := item.Password, SSL := item.SSL,
          RootCert := item.RootCert, ClientKey := item.ClientKey,
          ClientCert := item.ClientCert, SkipVerify := item.SkipVerify, Timeout := 300 } ∈
        calls w (LoadPostgresqlClientByFrom env w database).2 ∧
      (LoadPostgresqlClientByFrom env w database).1 =
        match env.NewPostgresqlClient
          { From := item.From, Database := database, Address := item.Address,
            Port := item.Port, Username := item.Username, Password := item.Password,
            SSL := item.SSL, RootCert := item.RootCert, ClientKey := item.ClientKey,
            ClientCert := item.ClientCert, SkipVerify := item.SkipVerify, Timeout := 300 } with
        | some e => .error e
        | none => .ok
          ({ From := item.From, Database := database, Address := item.Address,
             Port := item.Port, Username := item.Username, Password := item.Password,
             SSL := item.SSL, RootCert := item.RootCert, ClientKey := item.ClientKey,
             ClientCert := item.ClientCert, SkipVerify := item.SkipVerify, Timeout := 300 },
           item.Version)) ∧
    (item.From = "local" → ∀ app, env.LoadBaseInfo item.Type_ database = .ok app →
      Event.newClient
        { From := "local", Database := database, Address := app.ContainerName,
          Port := toUint app.Port, Username := app.UserName, Password := app.Password,
          Timeout := 300 } ∈
        calls w (LoadPostgresqlClientByFrom env w database).2 ∧
      (0 ≤ app.Port → app.Port < 2 ^ 64 → ((toUint app.Port : Nat) : Int) = app.Port) ∧
      (LoadPostgresqlClientByFrom env w database).1 =
        match env.NewPostgresqlClient
          { From := "local", Database := database, Address := app.ContainerName,
            Port := toUint app.Port, Username := app.UserName, Password := app.Password,
            Timeout := 300 } with
        | some e => .error e
        | none => .ok
          ({ From := "local", Database := database, Address := app.ContainerName,
             Port := toUint app.Port, Username := app.UserName, Password := app.Password,
             Timeout := 300 }, "")) := by
  have hf := dbGet_found w _ item hitem
  refine ⟨fun hl => ?_, fun hl app happ => ?_⟩
  · unfold LoadPostgresqlClientByFrom databaseRepo.Get
    simp only [hf, hl, ne_eq, not_false_eq_true, ↓reduceIte]
    split <;> simp [calls, emit]
  · unfold LoadPostgresqlClientByFrom databaseRepo.Get appInstallRepo.LoadBaseInfo
    simp only [hf, hl, ne_eq, not_true_eq_false, ↓reduceIte, happ]
    refine ⟨?_, ?_, ?_⟩
    · split <;> simp [calls, emit]
    · intro h0 h1
      unfold toUint
      rw [Int.emod_eq_of_lt h0 h1]
      exact Int.toNat_of_nonneg h0
    · split <;> simp_all

/-- Witness of C11: the remote instance `pgA` and the local instance `pgL`. -/
theorem resolver_parameters_witness :
    (LoadPostgresqlClientByFrom calmEnv oneRow "pgA").1 = .ok pgAClient ∧
    (LoadPostgresqlClientByFrom localEnv localWorld "pgL").1 = .ok pgLClient :=
  ⟨((resolver_parameters calmEnv oneRow "pgA" pgA rfl).1 (by decide)).2,
   ((resolver_parameters localEnv localWorld "pgL" pgL rfl).2 rfl
      { ID := 5, Name := "pgL", ContainerName := "c1", UserName := "postgres",
        Password := "rootpw", Port := 5432 } rfl).2.2⟩

/-! ## C12: LoadStatus and errors -/

/-- C12 as stated fails: the base-info lookup fails for a status request,
resp. the base info is found and no client can be constructed, and
`LoadStatus` hands the error to the caller instead of a zero-value status. -/
theorem load_status_counterexample :
    (calmEnv.LoadBaseInfo statusOfPgL.Type_ statusOfPgL.Name = .error ErrRecordNotFound ∧
      (LoadStatus calmEnv localWorld statusOfPgL).1 = .error ErrRecordNotFound) ∧
    (unreachableEnv.NewPostgresqlClient pgLClient.1 = some "connection refused" ∧
      Event.newClient pgLClient.1 ∈
        calls localWorld (LoadStatus unreachableEnv localWorld statusOfPgL).2 ∧
      (LoadStatus unreachableEnv localWorld statusOfPgL).1 = .error "connection refused") := by
  refine ⟨⟨rfl, rfl⟩, ⟨rfl, by decide, rfl⟩⟩

/-- C12, amended: `LoadStatus` returns the error of the base-info lookup, and
the error of the backend resolution (engine-instance lookup, base-info lookup,
client construction) for the name of the base info, without a status.  Once the
client is obtained it does not fail: it returns the status the client reports,
field by field, so a client that reports the zero-value status (no live
connection) yields the zero-value status and no error. -/
theorem load_status_outcomes (env : Env) (w : World) (req : OperationWithNameAndType) :
    (∀ e, env.LoadBaseInfo req.Type_ req.Name = .error e →
      LoadStatus env w req = (.error e, emit w (.loadBaseInfo req.Type_ req.Name))) ∧
    (∀ app, env.LoadBaseInfo req.Type_ req.Name = .ok app →
      (∀ e, (LoadPostgresqlClientByFrom env w app.Name).1 = .error e →
        (LoadStatus env w req).1 = .error e) ∧
      (∀ cv, (LoadPostgresqlClientByFrom env w app.Name).1 = .ok cv →
        (LoadStatus env w req).1 = .ok (copyStatus env.cliStatus) ∧
        (env.cliStatus = {} → (LoadStatus env w req).1 = .ok {}))) := by
  refine ⟨fun e he => ?_, fun app ha => ⟨fun e he => ?_, fun cv hc => ?_⟩⟩
  · simp [LoadStatus, appInstallRepo.LoadBaseInfo, he]
  · have h1 := resolve_result env (emit w (.loadBaseInfo req.Type_ req.Name)) w app.Name rfl
    simp only [LoadStatus, appInstallRepo.LoadBaseInfo, ha, h1, he]
  · have h1 := resolve_result env (emit w (.loadBaseInfo req.Type_ req.Name)) w app.Name rfl
    simp only [LoadStatus, appInstallRepo.LoadBaseInfo, ha, h1, hc, true_and]
    intro h0
    rw [h0]
    rfl

/-- Witness of C12 amended: a live engine, and a client without a live
connection. -/
theorem load_status_outcomes_witness :
    (LoadStatus liveEnv localWorld statusOfPgL).1 =
      .ok { Alive := true, Connections := 3, Health := "ok" } ∧
    (LoadStatus localEnv localWorld statusOfPgL).1 = .ok {} :=
  ⟨(((load_status_outcomes liveEnv localWorld statusOfPgL).2
      { ID := 5, Name := "pgL", ContainerName := "c1", UserName := "postgres",
        Password := "rootpw", Port := 5432 } rfl).2 pgLClient rfl).1,
   (((load_status_outcomes localEnv localWorld statusOfPgL).2
      { ID := 5, Name := "pgL", ContainerName := "c1", UserName := "postgres",
        Password := "rootpw", Port := 5432 } rfl).2 pgLClient rfl).2 rfl⟩

/-! ## Counting the calls of Close -/

theorem closes_cons_inner (ev : Event) (rest : List Event) (h : ev.isInner = true) :
    closes (ev :: rest) = closes rest := by
  cases ev <;> simp_all [closes, Event.isInner]

theorem resolved_cons_inner (env : Env) (ev : Event) (rest : List Event)
    (h : ev.isInner = true) : resolved env (ev :: rest) = resolved env rest := by
  cases ev <;> simp_all [resolved, Event.isInner]

theorem closes_append (a b : List Event) : closes (a ++ b) = closes a + closes b := by
  induction a with
  | nil => simp [closes]
  | cons ev rest ih =>
    cases ev <;> simp [closes, ih]
    omega

theorem resolved_append (env : Env) (a b : List Event) :
    resolved env (a ++ b) = (resolved env a || resolved env b) := by
  induction a with
  | nil => simp [resolved]
  | cons ev rest ih =>
    cases ev <;> simp [resolved, ih, Bool.or_assoc]

theorem inner_list (env : Env) (evs : List Event) (h : ∀ ev ∈ evs, ev.isInner = true) :
    closes evs = 0 ∧ resolved env evs = false := by
  induction evs with
  | nil => simp [closes, resolved]
  | cons ev rest ih =>
    have h1 := h ev (List.mem_cons_self _ _)
    have h2 := ih (fun x hx => h x (List.mem_cons_of_mem _ hx))
    rw [closes_cons_inner ev rest h1, resolved_cons_inner env ev rest h1]
    exact h2

theorem calls_of_trace (w w2 : World) (l : List Event) (h : w2.trace = w.trace ++ l) :
    calls w w2 = l := by
  simp [calls, h]

theorem balanced_inner (env : Env) (l : List Event) (h : ∀ ev ∈ l, ev.isInner = true) :
    Balanced env l := by
  obtain ⟨a, b⟩ := inner_list env l h
  simp [Balanced, a, b]

theorem balanced_failed (env : Env) (pre evs post : List Event)
    (hpre : ∀ ev ∈ pre, ev.isInner = true) (hc : closes evs = 0)
    (hr : resolved env evs = false) (hpost : ∀ ev ∈ post, ev.isInner = true) :
    Balanced env (pre ++ evs ++ post) := by
  obtain ⟨a, b⟩ := inner_list env pre hpre
  obtain ⟨c, d⟩ := inner_list env post hpost
  simp [Balanced, closes_append, resolved_append, a, b, c, d, hc, hr]

theorem balanced_closed (env : Env) (pre evs body post : List Event)
    (hpre : ∀ ev ∈ pre, ev.isInner = true) (hc : closes evs = 0)
    (hr : resolved env evs = true) (hbody : ∀ ev ∈ body, ev.isInner = true)
    (hpost : ∀ ev ∈ post, ev.isInner = true) :
    Balanced env (pre ++ evs ++ body ++ [.cliClose] ++ post) := by
  obtain ⟨a, b⟩ := inner_list env pre hpre
  obtain ⟨c, d⟩ := inner_list env post hpost
  obtain ⟨e, f⟩ := inner_list env body hbody
  simp [Balanced, closes_append, resolved_append, a, b, c, d, e, f, hc, hr, closes]

/-- The calls of backend resolution: no `Close`, and a client was constructed
without error exactly when the resolution returns one. -/
theorem resolve_calls (env : Env) (w : World) (d : String) :
    ∃ evs, (LoadPostgresqlClientByFrom env w d).2 = { w with trace := w.trace ++ evs } ∧
      closes evs = 0 ∧
      resolved env evs = (match (LoadPostgresqlClientByFrom env w d).1 with
        | .ok _ => true
        | .error _ => false) := by
  unfold LoadPostgresqlClientByFrom databaseRepo.Get appInstallRepo.LoadBaseInfo
  cases hf : w.databases.find? (fun r => [DbFilter.WithByName d].all (fun f => f.holds r)) with
  | none => exact ⟨[.dbGet [.WithByName d]], by simp [emit], by simp [closes], by simp [resolved]⟩
  | some item =>
    simp only [hf]
    by_cases hl : item.From = "local"
    · simp only [hl, ne_eq, not_true_eq_false, not_false_eq_true, ↓reduceIte]
      cases hb : env.LoadBaseInfo item.Type_ d with
      | error e =>
        exact ⟨[.dbGet [.WithByName d], .loadBaseInfo item.Type_ d], by simp [emit],
          by simp [closes], by simp [resolved]⟩
      | ok app =>
        simp only []
        cases hn : env.NewPostgresqlClient
            { From := "local", Database := d, Address := app.ContainerName,
              Port := toUint app.Port, Username := app.UserName, Password := app.Password,
              Timeout := 300 } with
        | some e =>
          exact ⟨[.dbGet [.WithByName d], .loadBaseInfo item.Type_ d, .newClient _],
            by simp [emit]; rfl, by simp [closes], by simp [resolved, hn]⟩
        | none =>
          exact ⟨[.dbGet [.WithByName d], .loadBaseInfo item.Type_ d, .newClient _],
            by simp [emit]; rfl, by simp [closes], by simp [resolved, hn]⟩
    · simp only [hl, ne_eq, not_true_eq_false, not_false_eq_true, ↓reduceIte]
      cases hn : env.NewPostgresqlClient
          { From := item.From, Database := d, Address := item.Address, Port := item.Port,
            Username := item.Username, Password := item.Password, SSL := item.SSL,
            RootCert := item.RootCert, ClientKey := item.ClientKey,
            ClientCert := item.ClientCert, SkipVerify := item.SkipVerify,
            Timeout := 300 } with
      | some e =>
        exact ⟨[.dbGet [.WithByName d], .newClient _], by simp [emit]; rfl,
          by simp [closes], by simp [resolved, hn]⟩
      | none =>
        exact ⟨[.dbGet [.WithByName d], .newClient _], by simp [emit]; rfl,
          by simp [closes], by simp [resolved, hn]⟩

/-! ## Blocks that neither construct nor close a client -/

theorem inner_refl (w : World) : Inner w w := ⟨[], by simp, by simp⟩

theorem inner_of_trace {w w2 w3 : World} (h : w3.trace = w2.trace) (hq : Inner w w2) :
    Inner w w3 := by
  obtain ⟨evs, h1, h2⟩ := hq
  exact ⟨evs, by rw [h, h1], h2⟩

theorem inner_emit {w w2 : World} {e : Event} (he : e.isInner = true) (hq : Inner w w2) :
    Inner w (emit w2 e) := by
  obtain ⟨evs, h1, h2⟩ := hq
  refine ⟨evs ++ [e], by simp [emit, h1], ?_⟩
  intro ev hev
  rcases List.mem_append.mp hev with h | h
  · exact h2 ev h
  · simp at h; subst h; exact he

theorem inner_propagate {w w2 : World} (env : Env) (v : String) (l : List AppInstallResource)
    (i : Nat) (hq : Inner w w2) : Inner w (propagate env v i l w2).2 := by
  obtain ⟨evs, h1, h2⟩ := hq
  obtain ⟨evs2, h3, h4, -⟩ := propagate_trace env v l i w2
  refine ⟨evs ++ evs2, by rw [h3, h1, List.append_assoc], ?_⟩
  intro ev hev
  rcases List.mem_append.mp hev with h | h
  · exact h2 ev h
  · have := h4 ev h
    cases ev <;> simp_all [Event.isLinkStep, Event.isInner]

theorem inner_update {w w2 : World} (env : Env) (id : Nat) (f v : String) (hq : Inner w w2) :
    Inner w (postgresqlRepo.Update env w2 id f v).2 := by
  unfold postgresqlRepo.Update
  split
  · exact inner_emit rfl hq
  · exact inner_emit rfl (inner_of_trace rfl hq)

theorem inner_updateInstall {w w2 : World} (env : Env) (i : Nat) (k n p v : String)
    (hq : Inner w w2) : Inner w (updateInstallInfoInDB env w2 i k n p v).2 := by
  unfold updateInstallInfoInDB
  split
  · exact inner_emit rfl hq
  · exact inner_emit rfl (inner_of_trace rfl hq)

theorem inner_pgGet {w w2 : World} (env : Env) (fs : List PgFilter) (hq : Inner w w2) :
    Inner w (postgresqlRepo.Get env w2 fs).2 := by
  rw [pgGet_world]
  exact inner_emit rfl hq

theorem inner_pgDelete {w w2 : World} (env : Env) (id : Nat) (hq : Inner w w2) :
    Inner w (postgresqlRepo.Delete env w2 id).2 := by
  unfold postgresqlRepo.Delete
  split
  · exact inner_emit rfl hq
  · exact inner_emit rfl (inner_of_trace rfl hq)

theorem inner_removeIfExists {w w2 : World} (env : Env) (dir : String) (hq : Inner w w2) :
    Inner w (removeIfExists env w2 dir) := by
  unfold removeIfExists
  split
  · exact inner_emit rfl (inner_emit rfl hq)
  · exact inner_emit rfl hq

theorem inner_deleteBackup {w w2 : World} (env : Env) (req : PostgresqlDBDelete)
    (db : DatabasePostgresql) (hq : Inner w w2) :
    Inner w (Delete.deleteBackup env w2 req db).2 := by
  unfold Delete.deleteBackup
  simp only []
  split
  · exact inner_emit rfl (inner_removeIfExists env _ hq)
  · exact inner_emit rfl (inner_removeIfExists env _
      (inner_emit rfl (inner_removeIfExists env _ hq)))

theorem delete_afterEngine_inner {w w2 : World} (env : Env) (req : PostgresqlDBDelete)
    (db : DatabasePostgresql) (hq : Inner w w2) :
    Inner w (Delete.afterEngine env w2 req db).2 := by
  unfold Delete.afterEngine
  by_cases hb : req.DeleteBackup = true
  · simp only [hb, ↓reduceIte]
    split
    · exact inner_deleteBackup env req db hq
    · exact inner_pgDelete env _ (inner_deleteBackup env req db hq)
  · simp only [hb, Bool.false_eq_true, ↓reduceIte]
    exact inner_pgDelete env _ hq

theorem changePassword_afterEngine_inner {w w1 : World} (env : Env) (req : ChangeDBInfo)
    (pd : DatabasePostgresql) (hq : Inner w w1) :
    Inner w (ChangePassword.afterEngine env w1 req pd).2 := by
  unfold ChangePassword.afterEngine
  by_cases hid : req.ID = 0
  · simp only [hid, ne_eq, not_true_eq_false, ↓reduceIte]
    split
    · exact inner_updateInstall env _ _ _ _ _ hq
    · exact inner_updateInstall env _ _ _ _ _ hq
  · simp only [hid, ne_eq, not_false_eq_true, ↓reduceIte]
    have tail : ∀ (l : List AppInstallResource) (wq : World), Inner w wq →
        Inner w (match (propagate env req.Value 0 l wq).1 with
          | some e => (some e, (propagate env req.Value 0 l wq).2)
          | none =>
            match env.StringEncrypt req.Value with
            | .error e => (some ("decrypt database db password failed, err: " ++ e),
                emit (propagate env req.Value 0 l wq).2 (.encrypt req.Value))
            | .ok pass => ((none : Option Err),
                (postgresqlRepo.Update env (emit (propagate env req.Value 0 l wq).2
                  (.encrypt req.Value)) pd.ID "password" pass).2)).2 := by
      intro l wq hwq
      have hp := inner_propagate env req.Value l 0 hwq
      split
      · exact hp
      · split
        · exact inner_emit rfl hp
        · exact inner_update env _ _ _ (inner_emit rfl hp)
    by_cases hl : req.From = "local"
    · simp only [hl, ↓reduceIte, appInstallRepo.LoadBaseInfo, resGetBy_world]
      cases hb : env.LoadBaseInfo req.Type_ req.Database with
      | error e => exact inner_emit rfl hq
      | ok app => exact tail _ _ (inner_emit rfl (inner_emit rfl hq))
    · simp only [hl, ↓reduceIte, resGetBy_world]
      exact tail _ _ (inner_emit rfl hq)

/-- A resolution followed by a block without client calls and by `Close`, or a
failed resolution, is balanced. -/
theorem balanced_resolution (env : Env) (w w0 wEnd : World) (d : String)
    (post : List Event) (h0 : Inner w w0) (hpost : ∀ ev ∈ post, ev.isInner = true)
    (hok : ∀ cv, (LoadPostgresqlClientByFrom env w0 d).1 = .ok cv →
      ∃ wb, Inner (LoadPostgresqlClientByFrom env w0 d).2 wb ∧
        wEnd.trace = wb.trace ++ (.cliClose :: post))
    (herr : ∀ e, (LoadPostgresqlClientByFrom env w0 d).1 = .error e →
      wEnd.trace = (LoadPostgresqlClientByFrom env w0 d).2.trace ++ post) :
    Balanced env (calls w wEnd) := by
  obtain ⟨pre, hpre, hpreI⟩ := h0
  obtain ⟨evs, hw, hc, hr⟩ := resolve_calls env w0 d
  cases hres : (LoadPostgresqlClientByFrom env w0 d).1 with
  | error e =>
    have ht := herr e hres
    rw [hw] at ht
    simp only [hpre] at ht
    rw [calls_of_trace w wEnd (pre ++ evs ++ post) (by rw [ht]; simp)]
    exact balanced_failed env pre evs post hpreI hc (by rw [hr, hres]) hpost
  | ok cv =>
    obtain ⟨wb, ⟨body, hb, hbI⟩, ht⟩ := hok cv hres
    rw [hw] at hb
    simp only [hpre] at hb
    rw [calls_of_trace w wEnd (pre ++ evs ++ body ++ [.cliClose] ++ post)
      (by rw [ht, hb]; simp)]
    exact balanced_closed env pre evs body post hpreI hc (by rw [hr, hres]) hbI hpost

/-! ## Close in each operation -/

theorem calls_self (w : World) : calls w w = [] := by simp [calls]

theorem changeAccess_balanced (env : Env) (w : World) (req : ChangeDBInfo) :
    Balanced env (calls w (ChangeAccess env w req).2) := by
  by_cases hill : env.CheckIllegal [req.Value] = true
  · have : (ChangeAccess env w req).2 = w := by simp [ChangeAccess, hill]
    rw [this, calls_self]
    exact balanced_inner env [] (by simp)
  · refine balanced_resolution env w w _ req.Database [] (inner_refl w) (by simp) ?_ ?_
    · intro cv hres
      simp only [ChangeAccess, hill, Bool.false_eq_true, ↓reduceIte, hres]
      refine ⟨_, ?_, rfl⟩
      by_cases hid : req.ID = 0
      · simp only [hid, ne_eq, not_true_eq_false, ↓reduceIte]
        split
        · exact inner_emit rfl (inner_refl _)
        · exact inner_emit rfl (inner_refl _)
      · simp only [hid, ne_eq, not_false_eq_true, ↓reduceIte, pgGet_world]
        generalize (postgresqlRepo.Get env _ [PgFilter.WithByID req.ID]).1 = g
        cases hg : g.2 with
        | some e => exact inner_emit rfl (inner_refl _)
        | none =>
          simp only []
          split
          · exact inner_emit rfl (inner_emit rfl (inner_refl _))
          · split
            · exact inner_update env _ _ _ (inner_emit rfl (inner_emit rfl (inner_refl _)))
            · exact inner_emit rfl (inner_emit rfl (inner_refl _))
    · intro e hres
      simp [ChangeAccess, hill, hres]

theorem changePassword_balanced (env : Env) (w : World) (req : ChangeDBInfo) :
    Balanced env (calls w (ChangePassword env w req).2) := by
  by_cases hill : env.CheckIllegal [req.Value] = true
  · have : (ChangePassword env w req).2 = w := by simp [ChangePassword, hill]
    rw [this, calls_self]
    exact balanced_inner env [] (by simp)
  · refine balanced_resolution env w w _ req.Database [] (inner_refl w) (by simp) ?_ ?_
    · intro cv hres
      simp only [ChangePassword, hill, Bool.false_eq_true, ↓reduceIte, hres]
      refine ⟨_, ?_, rfl⟩
      have tail : ∀ (info0 : PasswordChangeInfo) (pd : DatabasePostgresql) (W : World),
          Inner (LoadPostgresqlClientByFrom env w req.Database).2 W →
          Inner (LoadPostgresqlClientByFrom env w req.Database).2
            (match env.cliChangePassword info0 with
              | some e => (some e, emit W (.cliChangePassword info0))
              | none => ChangePassword.afterEngine env (emit W (.cliChangePassword info0))
                  req pd).2 := by
        intro info0 pd W hW
        split
        · exact inner_emit rfl hW
        · exact changePassword_afterEngine_inner env req pd (inner_emit rfl hW)
      by_cases hid : req.ID = 0
      · simp only [hid, ne_eq, not_true_eq_false, ↓reduceIte, dbGet_world]
        generalize (databaseRepo.Get _ [DbFilter.WithByType req.Type_,
          DbFilter.WithByFrom req.From]).1 = d
        cases hd : d.2 with
        | some e => exact inner_emit rfl (inner_refl _)
        | none => exact tail _ _ _ (inner_emit rfl (inner_refl _))
      · simp only [hid, ne_eq, not_false_eq_true, ↓reduceIte, pgGet_world]
        generalize (postgresqlRepo.Get env _ [PgFilter.WithByID req.ID]).1 = g
        cases hg : g.2 with
        | some e => exact inner_emit rfl (inner_refl _)
        | none => exact tail _ _ _ (inner_emit rfl (inner_refl _))
    · intro e hres
      simp [ChangePassword, hill, hres]

theorem balanced_of_inner_world (env : Env) (w w2 : World) (h : Inner w w2) :
    Balanced env (calls w w2) := by
  obtain ⟨evs, h1, h2⟩ := h
  rw [calls_of_trace w w2 evs h1]
  exact balanced_inner env evs h2

theorem create_balanced (env : Env) (w : World) (req : PostgresqlDBCreate) :
    Balanced env (calls w (Create env w req).2) := by
  unfold Create
  simp only [pgGet_world, copierCopy]
  generalize (postgresqlRepo.Get env w _).1.1 = pgsql
  by_cases hill : env.CheckIllegal [req.Name, req.Username, req.Password, req.Format] = true
  · simp only [hill, ↓reduceIte, calls_self]
    exact balanced_inner env [] (by simp)
  · simp only [hill, Bool.false_eq_true, ↓reduceIte]
    by_cases hid : pgsql.ID = 0
    · simp only [hid, ne_eq, not_true_eq_false, ↓reduceIte]
      by_cases hroot : req.From = "local" ∧ req.Username = "root"
      · rw [if_pos hroot]
        exact balanced_of_inner_world env _ _ (inner_emit rfl (inner_refl _))
      · rw [if_neg hroot]
        refine balanced_resolution env w (emit w (.pgGet [.WithByName req.Name,
            .WithByPostgresqlName req.Database, .WithByFrom req.From])) _ req.Database []
          (inner_emit rfl (inner_refl w)) (by simp) ?_ ?_
        · intro cv hres
          simp only [hres]
          refine ⟨_, ?_, rfl⟩
          split
          · exact inner_emit rfl (inner_refl _)
          · simp only [postgresqlRepo.Create]
            split <;> split <;> exact inner_emit rfl (inner_emit rfl (inner_refl _))
        · intro e hres
          simp [hres]
    · simp only [hid, ne_eq, not_false_eq_true, ↓reduceIte]
      exact balanced_of_inner_world env _ _ (inner_emit rfl (inner_refl _))

theorem delete_balanced (env : Env) (w : World) (req : PostgresqlDBDelete) :
    Balanced env (calls w (Delete env w req).2) := by
  by_cases h0 : (postgresqlRepo.Get env w [.WithByID req.ID]).1.2 ≠ none ∧ req.ForceDelete = false
  · apply balanced_of_inner_world
    have : (Delete env w req).2 = emit w (.pgGet [.WithByID req.ID]) := by
      unfold Delete
      rw [if_pos h0, pgGet_world]
    rw [this]
    exact inner_emit rfl (inner_refl _)
  · refine balanced_resolution env w (emit w (.pgGet [.WithByID req.ID])) _ req.Database []
      (inner_emit rfl (inner_refl w)) (by simp) ?_ ?_
    · intro cv hres
      unfold Delete
      rw [if_neg h0, pgGet_world]
      simp only [hres]
      refine ⟨_, ?_, rfl⟩
      split
      · exact inner_emit rfl (inner_refl _)
      · exact delete_afterEngine_inner env req _ (inner_emit rfl (inner_refl _))
    · intro e hres
      unfold Delete
      rw [if_neg h0, pgGet_world]
      simp [hres]

theorem loadStatus_balanced (env : Env) (w : World) (req : OperationWithNameAndType) :
    Balanced env (calls w (LoadStatus env w req).2) := by
  cases hb : env.LoadBaseInfo req.Type_ req.Name with
  | error e =>
    apply balanced_of_inner_world
    have : (LoadStatus env w req).2 = emit w (.loadBaseInfo req.Type_ req.Name) := by
      simp [LoadStatus, appInstallRepo.LoadBaseInfo, hb]
    rw [this]
    exact inner_emit rfl (inner_refl _)
  | ok app =>
    refine balanced_resolution env w (emit w (.loadBaseInfo req.Type_ req.Name)) _ app.Name []
      (inner_emit rfl (inner_refl w)) (by simp) ?_ ?_
    · intro cv hres
      simp only [LoadStatus, appInstallRepo.LoadBaseInfo, hb, hres]
      refine ⟨_, ?_, rfl⟩
      exact inner_emit rfl (inner_refl _)
    · intro e hres
      simp [LoadStatus, appInstallRepo.LoadBaseInfo, hb, hres]

theorem updateConfByFile_balanced (env : Env) (w : World)
    (req : PostgresqlConfUpdateByFile) :
    Balanced env (calls w (UpdateConfByFile env w req).2) := by
  cases hb : env.LoadBaseInfo req.Type_ req.Database with
  | error e =>
    apply balanced_of_inner_world
    have : (UpdateConfByFile env w req).2 = emit w (.loadBaseInfo req.Type_ req.Database) := by
      simp [UpdateConfByFile, appInstallRepo.LoadBaseInfo, hb]
    rw [this]
    exact inner_emit rfl (inner_refl _)
  | ok app =>
    cases ho : env.osOpenFile (env.AppInstallDir ++ "/" ++ req.Type_ ++ "/" ++ app.Name ++
        "/data/postgresql.conf") with
    | some e =>
      apply balanced_of_inner_world
      have : (UpdateConfByFile env w req).2 =
          emit (emit w (.loadBaseInfo req.Type_ req.Database))
            (.openFile (env.AppInstallDir ++ "/" ++ req.Type_ ++ "/" ++ app.Name ++
              "/data/postgresql.conf")) := by
        simp [UpdateConfByFile, appInstallRepo.LoadBaseInfo, hb, ho]
      rw [this]
      exact inner_emit rfl (inner_emit rfl (inner_refl _))
    | none =>
      refine balanced_resolution env w
        (emit (emit (emit w (.loadBaseInfo req.Type_ req.Database))
          (.openFile (env.AppInstallDir ++ "/" ++ req.Type_ ++ "/" ++ app.Name ++
            "/data/postgresql.conf")))
          (.writeFile (env.AppInstallDir ++ "/" ++ req.Type_ ++ "/" ++ app.Name ++
            "/data/postgresql.conf") req.File)) _ req.Database
        [.closeFile (env.AppInstallDir ++ "/" ++ req.Type_ ++ "/" ++ app.Name ++
          "/data/postgresql.conf")]
        (inner_emit rfl (inner_emit rfl (inner_emit rfl (inner_refl w))))
        (by intro ev hev; simp at hev; subst hev; rfl) ?_ ?_
      · intro cv hres
        simp only [UpdateConfByFile, appInstallRepo.LoadBaseInfo, hb, ho, hres]
        refine ⟨emit (LoadPostgresqlClientByFrom env _ req.Database).2
          (.composeRestart (env.AppInstallDir ++ "/" ++ req.Type_ ++ "/" ++ app.Name ++
            "/docker-compose.yml")), inner_emit rfl (inner_refl _), ?_⟩
        split <;> simp [emit]
      · intro e hres
        simp only [UpdateConfByFile, appInstallRepo.LoadBaseInfo, hb, ho, hres]
        simp [emit]

/-! ## C13: one Close per client -/

theorem resolve_balance (env : Env) (w : World) (d : String) :
    closes (calls w (LoadPostgresqlClientByFrom env w d).2) = 0 ∧
    (resolved env (calls w (LoadPostgresqlClientByFrom env w d).2) = true ↔
      ∃ cv, (LoadPostgresqlClientByFrom env w d).1 = .ok cv) := by
  obtain ⟨evs, hw, hc, hr⟩ := resolve_calls env w d
  have hcalls : calls w (LoadPostgresqlClientByFrom env w d).2 = evs :=
    calls_of_trace _ _ _ (by rw [hw])
  rw [hcalls, hr]
  refine ⟨hc, ?_⟩
  cases (LoadPostgresqlClientByFrom env w d).1 <;> simp

/-- An execution of `LoadStatus` in which resolution returns a client: the
client is closed once, after the status query. -/
theorem close_once_example :
    calls localWorld (LoadStatus liveEnv localWorld statusOfPgL).2 =
      [.loadBaseInfo "postgresql" "pgL", .dbGet [.WithByName "pgL"],
        .loadBaseInfo "postgresql" "pgL", .newClient pgLClient.1, .cliStatus, .cliClose] ∧
    closes (calls localWorld (LoadStatus liveEnv localWorld statusOfPgL).2) = 1 :=
  ⟨rfl, rfl⟩

/-- An execution of `LoadStatus` in which no client can be constructed: nothing
is closed. -/
theorem close_never_example :
    resolved unreachableEnv
      (calls localWorld (LoadStatus unreachableEnv localWorld statusOfPgL).2) = false ∧
    closes (calls localWorld (LoadStatus unreachableEnv localWorld statusOfPgL).2) = 0 :=
  ⟨rfl, rfl⟩

/-- C13: in every execution of `Create`, `Delete`, `ChangePassword`,
`ChangeAccess`, `UpdateConfByFile` and `LoadStatus`, whatever the collaborators
answer and whichever exit is taken, the calls made by the operation contain
`cli.Close()` exactly once when they contain a client construction that
answered without an error, and not at all otherwise; backend resolution itself
never closes anything, and its calls contain such a construction exactly when it
returns a client. -/
theorem close_once_per_client (env : Env) (w : World) :
    (∀ req, closes (calls w (Create env w req).2) =
      if resolved env (calls w (Create env w req).2) then 1 else 0) ∧
    (∀ req, closes (calls w (Delete env w req).2) =
      if resolved env (calls w (Delete env w req).2) then 1 else 0) ∧
    (∀ req, closes (calls w (ChangePassword env w req).2) =
      if resolved env (calls w (ChangePassword env w req).2) then 1 else 0) ∧
    (∀ req, closes (calls w (ChangeAccess env w req).2) =
      if resolved env (calls w (ChangeAccess env w req).2) then 1 else 0) ∧
    (∀ req, closes (calls w (UpdateConfByFile env w req).2) =
      if resolved env (calls w (UpdateConfByFile env w req).2) then 1 else 0) ∧
    (∀ req, closes (calls w (LoadStatus env w req).2) =
      if resolved env (calls w (LoadStatus env w req).2) then 1 else 0) ∧
    (∀ d, closes (calls w (LoadPostgresqlClientByFrom env w d).2) = 0 ∧
      (resolved env (calls w (LoadPostgresqlClientByFrom env w d).2) = true ↔
        ∃ cv, (LoadPostgresqlClientByFrom env w d).1 = .ok cv)) :=
  ⟨fun req => create_balanced env w req, fun req => delete_balanced env w req,
    fun req => changePassword_balanced env w req, fun req => changeAccess_balanced env w req,
    fun req => updateConfByFile_balanced env w req, fun req => loadStatus_balanced env w req,
    fun d => resolve_balance env w d⟩

/-! ## C14: delete of a row that is gone -/

theorem removeIfExists_databases (env : Env) (w : World) (dir : String) :
    (removeIfExists env w dir).databases = w.databases := by
  unfold removeIfExists
  split <;> rfl

theorem deleteBackup_databases (env : Env) (w1 : World) (req : PostgresqlDBDelete)
    (db : DatabasePostgresql) :
    (Delete.deleteBackup env w1 req db).2.databases = w1.databases := by
  unfold Delete.deleteBackup
  simp only []
  split <;> simp [emit, removeIfExists_databases]

theorem pgDelete_databases (env : Env) (w : World) (id : Nat) :
    (postgresqlRepo.Delete env w id).2.databases = w.databases := by
  unfold postgresqlRepo.Delete
  split <;> rfl

theorem delete_afterEngine_databases (env : Env) (w1 : World) (req : PostgresqlDBDelete)
    (db : DatabasePostgresql) :
    (Delete.afterEngine env w1 req db).2.databases = w1.databases := by
  unfold Delete.afterEngine
  by_cases hb : req.DeleteBackup = true
  · simp only [hb, ↓reduceIte]
    cases (Delete.deleteBackup env w1 req db).1 <;>
      simp [pgDelete_databases, deleteBackup_databases]
  · simp [hb, pgDelete_databases]

/-- `Delete` never writes the table of engine instances. -/
theorem delete_databases (env : Env) (w : World) (req : PostgresqlDBDelete) :
    (Delete env w req).2.databases = w.databases := by
  obtain ⟨evs, hw, -⟩ := resolve_world env (emit w (.pgGet [.WithByID req.ID])) req.Database
  unfold Delete
  simp only [pgGet_world, hw]
  generalize (postgresqlRepo.Get env w [.WithByID req.ID]).1 = g
  generalize (LoadPostgresqlClientByFrom env _ req.Database).1 = res
  by_cases h0 : g.2 ≠ none ∧ req.ForceDelete = false
  · rw [if_pos h0]; rfl
  · rw [if_neg h0]
    cases res with
    | error e => rfl
    | ok cv =>
      simp only []
      split
      · rfl
      · simp [emit, delete_afterEngine_databases]

theorem filter_nonzero (rows : List DatabasePostgresql) (h : ∀ r ∈ rows, r.ID ≠ 0) :
    rows.filter (fun r => r.ID != 0) = rows := by
  rw [List.filter_eq_self]
  intro r hr
  simpa using h r hr

/-- The repository keeps identifiers away from zero: a stored row gets the
counter, which only grows. -/
theorem pgCreate_nonzero (env : Env) (w : World) (row : DatabasePostgresql)
    (hn : w.nextID ≠ 0) (h : ∀ r ∈ w.postgresqls, r.ID ≠ 0) :
    (postgresqlRepo.Create env w row).2.nextID ≠ 0 ∧
    ∀ r ∈ (postgresqlRepo.Create env w row).2.postgresqls, r.ID ≠ 0 := by
  unfold postgresqlRepo.Create
  cases env.pgCreateErr row with
  | some e => exact ⟨hn, h⟩
  | none =>
    refine ⟨Nat.succ_ne_zero _, ?_⟩
    intro r hr
    simp only [emit, List.mem_append, List.mem_singleton] at hr
    rcases hr with hr | hr
    · exact h r hr
    · rw [hr]; exact hn

/-- The forced delete of a row that is gone, on an engine instance that
resolves: success, the catalog rows as they were, and the engine-side delete
issued for the zero row. -/
theorem delete_forced_absent (env : Env) (w : World) (req : PostgresqlDBDelete)
    (cv : DBInfo × String)
    (habs : ∀ r ∈ w.postgresqls, r.ID ≠ req.ID) (hids : ∀ r ∈ w.postgresqls, r.ID ≠ 0)
    (hf : req.ForceDelete = true)
    (hres : (LoadPostgresqlClientByFrom env w req.Database).1 = .ok cv) :
    (Delete env w req).1 = none ∧ (Delete env w req).2.postgresqls = w.postgresqls ∧
    Event.cliDelete (zeroRowDelete cv.2) ∈ calls w (Delete env w req).2 := by
  obtain ⟨evs, hw, -⟩ := resolve_world env (emit w (.pgGet [.WithByID req.ID])) req.Database
  have h1 : (LoadPostgresqlClientByFrom env (emit w (.pgGet [.WithByID req.ID]))
      req.Database).1 = .ok cv := by
    rw [← hres]
    exact resolve_result env (emit w _) w req.Database rfl
  have hp : cleanupPasses env req := Or.inr (Or.inl hf)
  have key : ∀ W : World, W.postgresqls = w.postgresqls →
      (Delete.afterEngine env W req {}).1 = none ∧
      (Delete.afterEngine env W req {}).2.postgresqls = w.postgresqls ∧
      ∃ tl, (Delete.afterEngine env W req {}).2.trace = W.trace ++ tl ++ [.pgDelete 0] := by
    intro W hW
    have hD := delete_afterEngine_passes env W req {} hp
    rw [hW] at hD
    have hz : (if env.pgDeleteErr ({} : DatabasePostgresql).ID = none then
        w.postgresqls.filter (fun r => r.ID != ({} : DatabasePostgresql).ID)
        else w.postgresqls) = w.postgresqls := by
      rw [show ({} : DatabasePostgresql).ID = 0 from rfl, filter_nonzero w.postgresqls hids,
        ite_self]
    rw [hz] at hD
    exact ⟨hD.1, hD.2, delete_afterEngine_trace env W req {} hp⟩
  unfold Delete
  simp only [pgGet_world, (pgGet_gone env w req.ID habs).1, h1, hw, hf, ne_eq, and_false,
    Bool.true_eq_false, ↓reduceIte]
  generalize hW : emit _ (Event.cliDelete _) = W
  have hWp : W.postgresqls = w.postgresqls := by rw [← hW]; rfl
  have hWt : W.trace = w.trace ++ ([.pgGet [.WithByID req.ID]] ++ evs ++
      [.cliDelete (zeroRowDelete cv.2)]) := by
    rw [← hW]; simp [emit, zeroRowDelete]
  obtain ⟨k1, k2, tl, k3⟩ := key W hWp
  refine ⟨k1, k2, ?_⟩
  rw [calls_of_trace w _ ([.pgGet [.WithByID req.ID]] ++ evs ++
      [.cliDelete (zeroRowDelete cv.2)] ++ tl ++ [.pgDelete 0] ++ [.cliClose])]
  · simp
  · show (Delete.afterEngine env W req {}).2.trace ++ [Event.cliClose] = _
    rw [k3, hWt]
    simp

/-- The two directories a forced delete of a row that is gone removes when
`BaseDir` and the local backup directory are empty: with the empty name of the
zero row, `path.Join` yields the directory of the whole engine instance and
that of the whole engine type. -/
theorem stale_delete_directories :
    calmEnv.pathJoin calmEnv.BaseDir "1panel/uploads/database/postgresql/pgA/" =
      "1panel/uploads/database/postgresql/pgA" ∧
    calmEnv.pathJoin calmEnv.loadLocalDir.1 "database/postgresql//" =
      "database/postgresql" :=
  ⟨rfl, rfl⟩

/-- C14 as stated fails: the row 9 is gone, `ForceDelete` is set together with
`DeleteBackup`, and the engine instance `pgA` resolves. `Delete` returns success
and the catalog is as it was, yet the request is not a no-op: the engine is
told to delete the database of the empty name, and the two backup directories
built from that empty name, which are those of the whole engine instance and
of the whole engine type, are removed. -/
theorem delete_absent_row_counterexample :
    (∀ r ∈ oneRow.postgresqls, r.ID ≠ forcedStaleDelete.ID) ∧
    forcedStaleDelete.ForceDelete = true ∧
    (LoadPostgresqlClientByFrom calmEnv oneRow forcedStaleDelete.Database).1 =
      .ok pgAClient ∧
    (Delete calmEnv oneRow forcedStaleDelete).1 = none ∧
    (Delete calmEnv oneRow forcedStaleDelete).2.postgresqls = oneRow.postgresqls ∧
    calls oneRow (Delete calmEnv oneRow forcedStaleDelete).2 =
      [.pgGet [.WithByID 9], .dbGet [.WithByName "pgA"], .newClient pgAClient.1,
       .cliDelete (zeroRowDelete "15"),
       .stat (calmEnv.pathJoin calmEnv.BaseDir "1panel/uploads/database/postgresql/pgA/"),
       .removeAll (calmEnv.pathJoin calmEnv.BaseDir "1panel/uploads/database/postgresql/pgA/"),
       .loadLocalDir,
       .stat (calmEnv.pathJoin calmEnv.loadLocalDir.1 "database/postgresql//"),
       .removeAll (calmEnv.pathJoin calmEnv.loadLocalDir.1 "database/postgresql//"),
       .backupDeleteRecord "postgresql" "pgA" "",
       .pgDelete 0, .cliClose] :=
  ⟨by decide, rfl, rfl, rfl, rfl, rfl⟩

/-- C14, amended: for every delete request whose catalog row no longer exists:
without `ForceDelete`, `Delete` returns the error of the lookup of the row,
which is the catalog's Not Found unless the lookup itself fails for another
reason, its only call being that lookup (no client is resolved, no engine
command is issued), and the catalog rows are as they were; with `ForceDelete`,
an engine instance that resolves and a catalog whose rows carry non-zero
identifiers, `Delete` returns success and leaves every catalog row unchanged,
and so does the same request repeated on the resulting state, while the
engine-side delete is still issued, for the zero row the failed lookup left. -/
theorem delete_absent_row (env : Env) (w : World) (req : PostgresqlDBDelete)
    (habs : ∀ r ∈ w.postgresqls, r.ID ≠ req.ID) :
    (req.ForceDelete = false →
      (Delete env w req).1 = (postgresqlRepo.Get env w [.WithByID req.ID]).1.2 ∧
      (Delete env w req).1 ≠ none ∧
      (env.pgGetErr [.WithByID req.ID] = none →
        (Delete env w req).1 = some ErrRecordNotFound) ∧
      calls w (Delete env w req).2 = [.pgGet [.WithByID req.ID]] ∧
      (Delete env w req).2.postgresqls = w.postgresqls) ∧
    (req.ForceDelete = true → (∀ r ∈ w.postgresqls, r.ID ≠ 0) →
      ∀ cv, (LoadPostgresqlClientByFrom env w req.Database).1 = .ok cv →
        (Delete env w req).1 = none ∧
        (Delete env w req).2.postgresqls = w.postgresqls ∧
        (Delete env (Delete env w req).2 req).1 = none ∧
        (Delete env (Delete env w req).2 req).2.postgresqls = w.postgresqls ∧
        Event.cliDelete (zeroRowDelete cv.2) ∈ calls w (Delete env w req).2) := by
  refine ⟨fun hf => ?_, fun hf hids cv hres => ?_⟩
  · obtain ⟨-, hne⟩ := pgGet_gone env w req.ID habs
    have hD : Delete env w req =
        ((postgresqlRepo.Get env w [.WithByID req.ID]).1.2,
          emit w (.pgGet [.WithByID req.ID])) := by
      unfold Delete
      simp only [pgGet_world, hf, hne, ne_eq, not_false_eq_true, and_self, ↓reduceIte]
    rw [hD]
    refine ⟨rfl, hne, fun hl => ?_, calls_of_trace w _ _ rfl, rfl⟩
    show (postgresqlRepo.Get env w [.WithByID req.ID]).1.2 = _
    rw [pgGet_notFound env w req.ID hl habs]
  · obtain ⟨a, b, c⟩ := delete_forced_absent env w req cv habs hids hf hres
    have hres2 : (LoadPostgresqlClientByFrom env (Delete env w req).2 req.Database).1 =
        .ok cv := by
      rw [← hres]
      exact resolve_result env _ w req.Database (delete_databases env w req)
    obtain ⟨a2, b2, -⟩ := delete_forced_absent env (Delete env w req).2 req cv
      (by rw [b]; exact habs) (by rw [b]; exact hids) hf hres2
    exact ⟨a, b, a2, b2.trans b, c⟩

/-- Witness of C14, amended: the requests `staleDelete` and
`forcedStaleDelete` on the catalog `oneRow`, whose only row has identifier 1. -/
theorem delete_absent_row_witness :
    ((Delete calmEnv oneRow staleDelete).1 = some ErrRecordNotFound ∧
      calls oneRow (Delete calmEnv oneRow staleDelete).2 = [.pgGet [.WithByID 9]] ∧
      (Delete calmEnv oneRow staleDelete).2.postgresqls = [appDb]) ∧
    ((Delete calmEnv oneRow forcedStaleDelete).1 = none ∧
      (Delete calmEnv oneRow forcedStaleDelete).2.postgresqls = [appDb] ∧
      (Delete calmEnv (Delete calmEnv oneRow forcedStaleDelete).2 forcedStaleDelete).1 = none ∧
      (Delete calmEnv (Delete calmEnv oneRow forcedStaleDelete).2
        forcedStaleDelete).2.postgresqls = [appDb] ∧
      Event.cliDelete (zeroRowDelete "15") ∈
        calls oneRow (Delete calmEnv oneRow forcedStaleDelete).2) :=
  ⟨⟨((delete_absent_row calmEnv oneRow staleDelete (by decide)).1 rfl).2.2.1 rfl,
    ((delete_absent_row calmEnv oneRow staleDelete (by decide)).1 rfl).2.2.2⟩,
   (delete_absent_row calmEnv oneRow forcedStaleDelete (by decide)).2 rfl (by decide)
     pgAClient rfl⟩

end Postgresql
